import Mathlib

/-!
# go-freenom: the scraping session engine (`freenom/freenom.go`)

A shallow embedding of package `freenom`. The package keeps three globals
(`jar`, `token`, `domainInfoMap`); they are the first three fields of `State`
and every operation passes the state explicitly. Everything the package takes
from outside its own source is gathered in `Env`: the registrar's answers to the
HTTP attempts, and the Go standard-library functions whose results the code
only inspects (regexp matching with the package's fixed patterns, JSON decoding,
Unicode case mapping, the iteration order of a Go map).

A Go function can return to its caller or die in a run-time panic (nil pointer
dereference); `Res` keeps the two apart.
-/

namespace Freenom

/-! ## Data model -/

/-- DomainRecord: one DNS record (`Typ` is the Go field `Type`). -/
structure DomainRecord where
  Typ : String
  Name : String
  TTL : Int
  Value : String
  Priority : Int
deriving DecidableEq, Repr

/-- DomainInfo: a cached domain. `Records` is `[]*DomainRecord`: an entry is a
pointer and can be nil (`none`). -/
structure DomainInfo where
  Domain : String
  DomainID : String
  RegDate : String
  ExpDate : String
  Records : List (Option DomainRecord)
deriving DecidableEq, Repr

/-- DomainStatus: one entry of the availability payload (`Typ` is `Type`). -/
structure DomainStatus where
  Status : String
  Domain : String
  TLD : String
  Typ : String
  IsInCart : Int
deriving DecidableEq, Repr

/-- DomainListResult: the availability payload; `FreeDomains` is
`[]*DomainStatus`, so a JSON `null` entry decodes to a nil pointer (`none`). -/
structure DomainListResult where
  Status : String
  FreeDomains : List (Option DomainStatus)
deriving DecidableEq, Repr

def retryTimes : Nat := 5

def renewableDays : Int := 14

def freenomHost : String := "https://my.freenom.com/"
def loginURL : String := freenomHost ++ "clientarea.php"
def doLoginURL : String := freenomHost ++ "dologin.php"
def domainsURL : String := freenomHost ++ "domains.php"
def checkAvailableURL : String := freenomHost ++ "includes/domains/fn-available.php"

/-! ## Go maps with string keys

A map is an association list with pairwise distinct keys; `mapSet` is
`m[k] = v` (overwrite in place, or add) and `mapGet` is `v, ok := m[k]`. -/

def mapGet {β : Type} : List (String × β) → String → Option β
  | [], _ => none
  | (k, v) :: m, key => if k = key then some v else mapGet m key

def mapSet {β : Type} : List (String × β) → String → β → List (String × β)
  | [], key, val => [(key, val)]
  | (k, v) :: m, key, val => if k = key then (key, val) :: m else (k, v) :: mapSet m key val

/-- The keys of a map, in storage order. -/
def mapKeys {β : Type} (m : List (String × β)) : List String := m.map Prod.fst

/-! ## Requests, attempts and the environment -/

/-- A cookie jar made by `cookiejar.New`; `id` tells the jars apart (the number
of the HTTP attempt that was about to be made when the jar was created). -/
structure Jar where
  id : Nat
deriving DecidableEq, Repr

/-- A key of a `url.Values`: a fixed name, or `group[i][field]` as built by
`fmt.Sprintf("group[%d][field]", i)`. -/
inductive FormKey where
  | plain (name : String)
  | indexed (group : String) (i : Nat) (field : String)
deriving DecidableEq, Repr

/-- A request handed to `client.Do`: `query` are the `url.Values` encoded into
the URL, `form` those written into the body, both in the order of the `Add`
calls; `referer` and `refererQuery` are the URL and the query of the `Referer`
header; `jar` is the `Jar` of the client. -/
structure Request where
  method : String
  url : String
  query : List (String × String)
  form : List (FormKey × String)
  referer : String
  refererQuery : List (String × String)
  jar : Option Jar
deriving DecidableEq, Repr

/-- The outcome of one HTTP attempt: `http.NewRequest` fails, `client.Do`
fails, or a response arrives with a status code and the result of
`ioutil.ReadAll` on its body. -/
inductive Attempt where
  | newRequestErr (e : String)
  | doErr (e : String)
  | resp (statusCode : Int) (readAll : Except String String)

/-- The package's globals, followed by two observation fields:
`attempts` counts the HTTP attempts made so far (it indexes `Env.attempt`) and
`sent` lists the requests handed to `client.Do`, oldest first. -/
structure State where
  jar : Option Jar
  token : String
  domainInfoMap : Option (List (String × DomainInfo))
  attempts : Nat
  sent : List Request
deriving DecidableEq, Repr

/-- What the package receives from outside its source. -/
structure Env where
  /-- The outcome of the n-th HTTP attempt of the process. -/
  attempt : Nat → Attempt
  /-- The error of `cookiejar.New` called before attempt n (`none`: no error). -/
  newJarErr : Nat → Option String
  /-- `FindSubmatch` of the login-token pattern (`class="form-stacked"...value="(...)"`). -/
  reToken : String → List String
  /-- `Match` of the greeting pattern (`<span class="hidden-sm">Hello...</span>`). -/
  reOK : String → Bool
  /-- `FindAllSubmatch` of the domain-listing row pattern. -/
  reDomainRow : String → List (List String)
  /-- `FindAllSubmatch` of the DNS record row pattern. -/
  reRecordRow : String → List (List String)
  /-- `FindSubmatch` of `class="dnserror">(.+?)</li>` (AddRecord, ModifyRecord). -/
  reErrorMsg : String → List String
  /-- `Match` of `class="dnserror"` (DeleteRecord). -/
  reError : String → Bool
  /-- `Match` of `class="dnssuccess"`. -/
  reSuccess : String → Bool
  /-- `FindAllSubmatch` of the renewals row pattern. -/
  reRenewRow : String → List (List String)
  /-- `json.Unmarshal` into a `DomainListResult`. -/
  unmarshal : String → Except String DomainListResult
  /-- `strings.ToLower`. -/
  toLower : String → String
  /-- `strings.ToUpper`. -/
  toUpper : String → String
  /-- The order in which `range` visits the entries of a `map[string]string`. -/
  rangeOrder : List (String × String) → List (String × String)

/-- How a call of a Go function ends: it returns `val` and `err` (`none` is a
nil error) in state `s`, or it panics in state `s`. `stuck` is the model running
out of loop fuel; `fetch_total` and `loginLoop_spec` show that the loops, started
as the operations start them, never do. -/
inductive Res (α : Type) where
  | ret (val : α) (err : Option String) (s : State)
  | panicked (s : State)
  | stuck
deriving DecidableEq, Repr

/-! ## Standard-library functions that are computed -/

/-- `strconv.Itoa`. -/
def itoa : Int → String
  | Int.ofNat n => Nat.repr n
  | Int.negSucc n => "-" ++ Nat.repr (n + 1)

def maxInt : Int := 9223372036854775807

/-- The value of a string of decimal digits, `none` when a character is not
a digit or the string is empty. -/
def digitsValue (cs : List Char) : Option Nat :=
  if cs = [] then none
  else cs.foldl (fun acc c =>
    match acc with
    | none => none
    | some n => if c.isDigit then some (n * 10 + (c.toNat - 48)) else none) (some 0)

/-- `strconv.Atoi` for a 64-bit `int`: the value and the error. On a syntax
error the value is 0; on a range error it is the nearest bound. -/
def atoi (s : String) : Int × Option String :=
  let syntaxErr := "strconv.Atoi: parsing \"" ++ s ++ "\": invalid syntax"
  let rangeErr := "strconv.Atoi: parsing \"" ++ s ++ "\": value out of range"
  match s.data with
  | '-' :: cs =>
    match digitsValue cs with
    | none => (0, some syntaxErr)
    | some n => if (n : Int) > maxInt + 1 then (-(maxInt + 1), some rangeErr) else (-(n : Int), none)
  | '+' :: cs =>
    match digitsValue cs with
    | none => (0, some syntaxErr)
    | some n => if (n : Int) > maxInt then (maxInt, some rangeErr) else ((n : Int), none)
  | cs =>
    match digitsValue cs with
    | none => (0, some syntaxErr)
    | some n => if (n : Int) > maxInt then (maxInt, some rangeErr) else ((n : Int), none)

/-- The verb `%+v` on a `[]byte`: the bytes in decimal between brackets. -/
def fmtBytes (s : String) : String :=
  "[" ++ " ".intercalate (s.toUTF8.toList.map (fun b => Nat.repr b.toNat)) ++ "]"

/-- The verb `%+v` on a `[][]byte`. -/
def fmtSubmatch (m : List String) : String :=
  "[" ++ " ".intercalate (m.map fmtBytes) ++ "]"

/-- `bytes.Contains(all, []byte(marker))`. -/
def containsBytes (all marker : String) : Bool :=
  decide (marker.data <:+: all.data)

/-! ## One HTTP attempt and the retry loop -/

/-- The attempt `Env.attempt s.attempts` of request `req`, as every operation
reads it: `op` and `step` are the words of the error messages
(`"<op> Do<step> err: ..."`). The body is returned when the request could be
built, the response arrived with status 200 and the body could be read. -/
def perform (w : Env) (op step : String) (req : Request) (s : State) :
    Except String String × State :=
  let s1 : State := { s with attempts := s.attempts + 1 }
  let s2 : State := { s1 with sent := s.sent ++ [req] }
  match w.attempt s.attempts with
  | Attempt.newRequestErr e => (Except.error (op ++ " NewRequest" ++ step ++ " err: " ++ e), s1)
  | Attempt.doErr e => (Except.error (op ++ " Do" ++ step ++ " err: " ++ e), s2)
  | Attempt.resp code rd =>
    if code ≠ 200 then (Except.error (op ++ " Do" ++ step ++ " errCode: " ++ itoa code), s2)
    else
      match rd with
      | Except.error e => (Except.error (op ++ " ReadAll" ++ step ++ " err: " ++ e), s2)
      | Except.ok all => (Except.ok all, s2)

/-- The result of a retried HTTP step. -/
inductive Fetched where
  | body (all : String) (s : State)
  | failed (err : String) (s : State)
  | exhausted
deriving DecidableEq, Repr

/-- The retry loop shared by the operations with one HTTP step
(`retries := 0; for { retries++; ...; if retries < retryTimes { continue } ... }`):
the request is attempted again while it fails and `retries < retryTimes`. -/
def fetch (w : Env) (op step : String) (req : Request) : Nat → Nat → State → Fetched
  | 0, _, _ => Fetched.exhausted
  | fuel + 1, retries, s =>
    let retries := retries + 1
    match perform w op step req s with
    | (Except.ok all, s1) => Fetched.body all s1
    | (Except.error e, s1) =>
      if retries < retryTimes then fetch w op step req fuel retries s1
      else Fetched.failed e s1

/-! ## Login -/

def loginPageRequest (j : Jar) : Request :=
  { method := "GET", url := loginURL, query := [], form := [], referer := "",
    refererQuery := [], jar := some j }

def doLoginRequest (j : Jar) (token user pwd : String) : Request :=
  { method := "POST", url := doLoginURL, query := [],
    form := [(FormKey.plain "token", token), (FormKey.plain "username", user),
             (FormKey.plain "password", pwd)],
    referer := loginURL, refererQuery := [], jar := some j }

/-- The loop of Login (lines 100-246). One counter `retries` serves both HTTP
steps, and `continue` starts the iteration again from `cookiejar.New`. Every
`return` with an error is preceded by `jar = nil`. The two `regexp.Compile`
calls before the loop have constant valid patterns and cannot fail. -/
def loginLoop (w : Env) (user pwd : String) : Nat → Nat → State → Res Unit
  | 0, _, _ => Res.stuck
  | fuel + 1, retries, s =>
    let retries := retries + 1
    match w.newJarErr s.attempts with
    | some e => Res.ret () (some ("Login New Jar err: " ++ e)) { s with jar := none }
    | none =>
      let j : Jar := { id := s.attempts }
      let s0 : State := { s with jar := some j }
      match perform w "Login" " Login" (loginPageRequest j) s0 with
      | (Except.error e, s1) =>
        if retries < retryTimes then loginLoop w user pwd fuel retries s1
        else Res.ret () (some e) { s1 with jar := none }
      | (Except.ok all, s1) =>
        match w.reToken all with
        | [_, tok] =>
          let s2 : State := { s1 with token := tok }
          match perform w "Login" " DoLogin" (doLoginRequest j tok user pwd) s2 with
          | (Except.error e, s3) =>
            if retries < retryTimes then loginLoop w user pwd fuel retries s3
            else Res.ret () (some e) { s3 with jar := none }
          | (Except.ok all2, s3) =>
            if !w.reOK all2 then Res.ret () (some "Login failed") { s3 with jar := none }
            else Res.ret () none s3
        | allMatches =>
          Res.ret () (some ("Login FindSubmatch len err: " ++ fmtSubmatch allMatches))
            { s1 with jar := none }

/-- Login (lines 84-249). -/
def Login (w : Env) (user pwd : String) (s : State) : Res Unit :=
  loginLoop w user pwd retryTimes 0 s

/-! ## ListDomains -/

def listDomainsRequest (j : Option Jar) : Request :=
  { method := "GET", url := loginURL, query := [("action", "domains")], form := [],
    referer := loginURL, refererQuery := [], jar := j }

/-- The body of the row loop of ListDomains (lines 329-354): `acc.1` is the
returned map `domains`, `acc.2` the cache. A cached entry keeps its `Records`. -/
def mergeRow (acc : List (String × String) × List (String × DomainInfo)) (m : List String) :
    List (String × String) × List (String × DomainInfo) :=
  match m with
  | [_, domain, regDate, expDate, domainID] =>
    let domains := mapSet acc.1 domain expDate
    match mapGet acc.2 domain with
    | some v =>
      (domains, mapSet acc.2 domain
        { v with Domain := domain, DomainID := domainID, RegDate := regDate, ExpDate := expDate })
    | none =>
      (domains, mapSet acc.2 domain
        { Domain := domain, DomainID := domainID, RegDate := regDate, ExpDate := expDate,
          Records := [] })
  | _ => acc

def mergeRows (rows : List (List String))
    (acc : List (String × String) × List (String × DomainInfo)) :
    List (String × String) × List (String × DomainInfo) :=
  rows.foldl mergeRow acc

/-- ListDomains (lines 253-360). The returned map is `domains`. -/
def ListDomains (w : Env) (s : State) : Res (List (String × String)) :=
  match s.jar with
  | none => Res.ret [] (some "NOT LOGGED IN") s
  | some j =>
    match fetch w "ListDomains" "" (listDomainsRequest (some j)) retryTimes 0 s with
    | Fetched.exhausted => Res.stuck
    | Fetched.failed e s1 => Res.ret [] (some e) s1
    | Fetched.body all s1 =>
      let cache := match s1.domainInfoMap with
        | none => []
        | some m => m
      let out := mergeRows (w.reDomainRow all) ([], cache)
      Res.ret out.1 none { s1 with domainInfoMap := some out.2 }

/-- The read `v, ok := domainInfoMap[domain]`; a nil map has no entry. -/
def cacheGet (s : State) (domain : String) : Option DomainInfo :=
  match s.domainInfoMap with
  | none => none
  | some m => mapGet m domain

/-! ## GetDomainInfo -/

def manageDNSRequest (j : Option Jar) (domain domainID : String) : Request :=
  { method := "GET", url := loginURL, query := [("managedns", domain), ("domainid", domainID)],
    form := [], referer := loginURL, refererQuery := [], jar := j }

/-- One iteration of the row loop of GetDomainInfo (lines 460-489): the entry
written at the row's index (`none` when the iteration ends in `continue`, which
leaves the nil of `make`) and the value of `err` after it. -/
def parseRecord (m : List String) (err : Option String) : Option DomainRecord × Option String :=
  match m with
  | [_, typ, name, ttlStr, value, prioStr] =>
    match atoi ttlStr with
    | (_, some e) => (none, some ("GetDomainInfo Atoi ttl " ++ fmtBytes ttlStr ++ " err: " ++ e))
    | (ttl, none) =>
      if prioStr.length = 0 then
        (some { Typ := typ, Name := name, TTL := ttl, Value := value, Priority := 0 }, none)
      else
        match atoi prioStr with
        | (_, some e) =>
          (none, some ("GetDomainInfo Atoi priority " ++ fmtBytes prioStr ++ " err: " ++ e))
        | (priority, none) =>
          (some { Typ := typ, Name := name, TTL := ttl, Value := value, Priority := priority }, none)
  | _ => (none, err)

/-- The row loop of GetDomainInfo: the new `Records` slice and the final `err`. -/
def parseRecords : List (List String) → Option String → List (Option DomainRecord) × Option String
  | [], err => ([], err)
  | m :: rest, err =>
    let r := parseRecord m err
    let out := parseRecords rest r.2
    (r.1 :: out.1, out.2)

/-- The part of GetDomainInfo after the domain ID is known (lines 388-494). -/
def describeDomain (w : Env) (domain domainID : String) (s : State) : Res (Option DomainInfo) :=
  match fetch w "GetDomainInfo" "" (manageDNSRequest s.jar domain domainID) retryTimes 0 s with
  | Fetched.exhausted => Res.stuck
  | Fetched.failed e s1 => Res.ret none (some e) s1
  | Fetched.body all s1 =>
    match s1.domainInfoMap with
    | none => Res.panicked s1
    | some m =>
      match mapGet m domain with
      | none => Res.panicked s1
      | some info =>
        let out := parseRecords (w.reRecordRow all) none
        let info2 : DomainInfo := { info with Records := out.1 }
        Res.ret (some info2) out.2 { s1 with domainInfoMap := some (mapSet m domain info2) }

/-- GetDomainInfo (lines 364-495). -/
def GetDomainInfo (w : Env) (domain : String) (s : State) : Res (Option DomainInfo) :=
  match s.jar with
  | none => Res.ret none (some "NOT LOGGED IN") s
  | some _ =>
    match cacheGet s domain with
    | some v => describeDomain w domain v.DomainID s
    | none =>
      match ListDomains w s with
      | Res.stuck => Res.stuck
      | Res.panicked s1 => Res.panicked s1
      | Res.ret _ (some e) s1 => Res.ret none (some e) s1
      | Res.ret _ none s1 =>
        match cacheGet s1 domain with
        | none => Res.ret none (some "Domain not exists") s1
        | some v => describeDomain w domain v.DomainID s1

/-! ## The cache lookup of the mutations -/

/-- The block shared by AddRecord, ModifyRecord and DeleteRecord (lines 509-524,
653-668, 845-860): take the cached DomainInfo, or call ListDomains once and
look again; `k` is the rest of the operation. -/
def withDomainInfo (w : Env) (domain : String) (s : State)
    (k : DomainInfo → State → Res Unit) : Res Unit :=
  match cacheGet s domain with
  | some v => k v s
  | none =>
    match ListDomains w s with
    | Res.stuck => Res.stuck
    | Res.panicked s1 => Res.panicked s1
    | Res.ret _ (some e) s1 => Res.ret () (some e) s1
    | Res.ret _ none s1 =>
      match cacheGet s1 domain with
      | none => Res.ret () (some "Domain not exists") s1
      | some v => k v s1

/-- The end of a successful mutation: `GetDomainInfo(domain)` is called and its
results are dropped; the named result `err` is still nil. -/
def refreshCache (w : Env) (domain : String) (s : State) : Res Unit :=
  match GetDomainInfo w domain s with
  | Res.stuck => Res.stuck
  | Res.panicked s1 => Res.panicked s1
  | Res.ret _ _ s1 => Res.ret () none s1

/-- The priority field of a submitted row: filled for MX records only. -/
def priorityStr (w : Env) (record : DomainRecord) : String :=
  if "mx" = w.toLower record.Typ then itoa record.Priority else ""

/-! ## AddRecord -/

/-- The fields added for `records[i]` (lines 547-563). -/
def addGroup (w : Env) (i : Nat) (record : DomainRecord) : List (FormKey × String) :=
  [(FormKey.indexed "addrecord" i "name", record.Name),
   (FormKey.indexed "addrecord" i "type", w.toUpper record.Typ),
   (FormKey.indexed "addrecord" i "ttl", itoa record.TTL),
   (FormKey.indexed "addrecord" i "value", record.Value),
   (FormKey.indexed "addrecord" i "priority", priorityStr w record),
   (FormKey.indexed "addrecord" i "port", ""),
   (FormKey.indexed "addrecord" i "weight", ""),
   (FormKey.indexed "addrecord" i "forward_type", "1")]

def addGroups (w : Env) : Nat → List DomainRecord → List (FormKey × String)
  | _, [] => []
  | i, record :: rest => addGroup w i record ++ addGroups w (i + 1) rest

def addRecordRequest (w : Env) (s : State) (domain : String) (info : DomainInfo)
    (records : List DomainRecord) : Request :=
  { method := "POST", url := loginURL,
    query := [("managedns", domain), ("domainid", info.DomainID)],
    form := [(FormKey.plain "token", s.token), (FormKey.plain "dnsaction", "add")]
      ++ addGroups w 0 records,
    referer := loginURL,
    refererQuery := [("managedns", domain), ("domainid", info.DomainID)],
    jar := s.jar }

/-- The part of AddRecord after the DomainInfo is known (lines 526-643). -/
def addRecordSend (w : Env) (domain : String) (records : List DomainRecord)
    (info : DomainInfo) (s1 : State) : Res Unit :=
  match fetch w "AddRecord" "" (addRecordRequest w s1 domain info records) retryTimes 0 s1 with
  | Fetched.exhausted => Res.stuck
  | Fetched.failed e s2 => Res.ret () (some e) s2
  | Fetched.body all s2 =>
    if !w.reSuccess all then
      match w.reErrorMsg all with
      | [_, msg] => Res.ret () (some msg) s2
      | _ => Res.ret () (some "AddRecord not success") s2
    else refreshCache w domain s2

/-- AddRecord (lines 498-644). -/
def AddRecord (w : Env) (domain : String) (records : List DomainRecord) (s : State) : Res Unit :=
  match s.jar with
  | none => Res.ret () (some "NOT LOGGED IN") s
  | some _ =>
    if records.length = 0 then Res.ret () (some "Empty records") s
    else withDomainInfo w domain s (addRecordSend w domain records)

/-! ## ModifyRecord -/

/-- Whether a cached record is the one to modify (lines 698-702). -/
def matchesOld (w : Env) (oldRecord record : DomainRecord) : Bool :=
  decide (w.toLower oldRecord.Typ = w.toLower record.Typ) &&
  decide (w.toLower oldRecord.Name = w.toLower record.Name) &&
  decide (w.toLower oldRecord.Value = w.toLower record.Value) &&
  decide (oldRecord.TTL = record.TTL) &&
  decide (oldRecord.Priority = record.Priority)

/-- The six fields `records[i][...]` carrying the values of `r`. -/
def recordGroup (w : Env) (i : Nat) (r : DomainRecord) : List (FormKey × String) :=
  [(FormKey.indexed "records" i "line", ""),
   (FormKey.indexed "records" i "type", w.toUpper r.Typ),
   (FormKey.indexed "records" i "name", r.Name),
   (FormKey.indexed "records" i "ttl", itoa r.TTL),
   (FormKey.indexed "records" i "value", r.Value),
   (FormKey.indexed "records" i "priority", priorityStr w r)]

/-- The loop over `info.Records` (lines 697-724); `none` is the nil pointer
dereference of `oldRecord.Type` or `record.Type`. There is no `break`: every
matching record gets the new values. -/
def modifyGroups (w : Env) (oldRecord : Option DomainRecord) (newRecord : DomainRecord) :
    Nat → List (Option DomainRecord) → Option (List (FormKey × String))
  | _, [] => some []
  | i, record :: rest =>
    match oldRecord, record with
    | some o, some r =>
      match modifyGroups w oldRecord newRecord (i + 1) rest with
      | none => none
      | some groups =>
        if matchesOld w o r then some (recordGroup w i newRecord ++ groups)
        else some (recordGroup w i r ++ groups)
    | _, _ => none

def modifyRecordRequest (s : State) (domain : String) (info : DomainInfo)
    (groups : List (FormKey × String)) : Request :=
  { method := "POST", url := loginURL,
    query := [("managedns", domain), ("domainid", info.DomainID)],
    form := [(FormKey.plain "token", s.token), (FormKey.plain "dnsaction", "modify")] ++ groups,
    referer := loginURL,
    refererQuery := [("managedns", domain), ("domainid", info.DomainID)],
    jar := s.jar }

/-- The part of ModifyRecord after the DomainInfo is known (lines 669-804). -/
def modifyRecordSend (w : Env) (domain : String) (oldRecord newRecord : Option DomainRecord)
    (info : DomainInfo) (s1 : State) : Res Unit :=
  match newRecord with
  | none => Res.panicked s1
  | some n =>
    match modifyGroups w oldRecord n 0 info.Records with
    | none => Res.panicked s1
    | some groups =>
      match fetch w "ModifyRecord" "" (modifyRecordRequest s1 domain info groups)
          retryTimes 0 s1 with
      | Fetched.exhausted => Res.stuck
      | Fetched.failed e s2 => Res.ret () (some e) s2
      | Fetched.body all s2 =>
        if !w.reSuccess all then
          match w.reErrorMsg all with
          | [_, msg] => Res.ret () (some msg) s2
          | _ => Res.ret () (some "ModifyRecord not success") s2
        else refreshCache w domain s2

/-- ModifyRecord (lines 647-805); `oldRecord` and `newRecord` are pointers. -/
def ModifyRecord (w : Env) (domain : String) (oldRecord newRecord : Option DomainRecord)
    (s : State) : Res Unit :=
  match s.jar with
  | none => Res.ret () (some "NOT LOGGED IN") s
  | some _ => withDomainInfo w domain s (modifyRecordSend w domain oldRecord newRecord)

/-! ## DeleteRecord and DeleteRecordByIndex -/

def deleteRecordRequest (w : Env) (s : State) (domain : String) (info : DomainInfo)
    (record : DomainRecord) : Request :=
  { method := "GET", url := loginURL,
    query := [("managedns", domain), ("domainid", info.DomainID), ("dnsaction", "delete"),
      ("records", record.Typ), ("name", record.Name), ("value", record.Value), ("line", ""),
      ("ttl", itoa record.TTL), ("priority", priorityStr w record), ("weight", ""),
      ("port", ""), ("page", "")],
    form := [], referer := loginURL, refererQuery := [], jar := s.jar }

/-- The part of DeleteRecord after the DomainInfo is known (lines 862-969). -/
def deleteRecordSend (w : Env) (domain : String) (record : Option DomainRecord)
    (info : DomainInfo) (s1 : State) : Res Unit :=
  match record with
  | none => Res.panicked s1
  | some r =>
    match fetch w "DeleteRecord" "" (deleteRecordRequest w s1 domain info r) retryTimes 0 s1 with
    | Fetched.exhausted => Res.stuck
    | Fetched.failed e s2 => Res.ret () (some e) s2
    | Fetched.body all s2 =>
      if w.reError all then Res.ret () (some "DeleteRecord failed") s2
      else if !w.reSuccess all then Res.ret () (some "DeleteRecord not success") s2
      else refreshCache w domain s2

/-- DeleteRecord (lines 839-970); `record` is a pointer. -/
def DeleteRecord (w : Env) (domain : String) (record : Option DomainRecord) (s : State) :
    Res Unit :=
  match s.jar with
  | none => Res.ret () (some "NOT LOGGED IN") s
  | some _ => withDomainInfo w domain s (deleteRecordSend w domain record)

/-- DeleteRecordByIndex (lines 808-836). -/
def DeleteRecordByIndex (w : Env) (domain : String) (recordIndex : Int) (s : State) : Res Unit :=
  match s.jar with
  | none => Res.ret () (some "NOT LOGGED IN") s
  | some _ =>
    if recordIndex < 0 then Res.ret () (some "recordIndex must greater or equal to 0") s
    else
      match cacheGet s domain with
      | none => Res.ret () (some "domain not exsits") s
      | some info =>
        match info.Records.get? recordIndex.toNat with
        | none => Res.ret () (some "recordIndex out of bounds") s
        | some record => DeleteRecord w domain record s

/-! ## RenewFreeDomain -/

def renewalsRequest (j : Option Jar) : Request :=
  { method := "GET", url := domainsURL, query := [("a", "renewals")], form := [],
    referer := loginURL, refererQuery := [], jar := j }

def submitRenewalRequest (token : String) (j : Option Jar) (domainID : String) (months : Int) :
    Request :=
  { method := "POST", url := domainsURL, query := [("submitrenewals", "true")],
    form := [(FormKey.plain "token", token), (FormKey.plain "renewalid", domainID),
      (FormKey.plain ("renewalperiod[" ++ domainID ++ "]"), itoa months ++ "M"),
      (FormKey.plain "paymentmethod", "credit")],
    referer := domainsURL, refererQuery := [("a", "renewdomain"), ("domain", domainID)],
    jar := j }

/-- The body of the row loop of RenewFreeDomain (lines 1057-1077): `acc.1` is
the result map `renewedDomains`, `acc.2` the map `domains` of the rows to
renew. The error of `strconv.Atoi` is dropped. -/
def classifyRow (w : Env) (domain : String)
    (acc : List (String × String) × List (String × String)) (m : List String) :
    List (String × String) × List (String × String) :=
  match m with
  | [_, domainName, daysStr, domainID] =>
    let expDays := (atoi daysStr).1
    if expDays > renewableDays then (mapSet acc.1 domainName "not in renewable day", acc.2)
    else if "" ≠ domain ∧ w.toLower domain ≠ w.toLower domainName then
      (mapSet acc.1 domainName "not in renew plan", acc.2)
    else (acc.1, mapSet acc.2 domainName domainID)
  | _ => acc

def classifyRows (w : Env) (domain : String) (rows : List (List String))
    (acc : List (String × String) × List (String × String)) :
    List (String × String) × List (String × String) :=
  rows.foldl (classifyRow w domain) acc

/-- The submission loop of RenewFreeDomain (lines 1081-1132) over the entries
of `domains` in the order `range` visits them. -/
def submitRenewals (w : Env) (months : Int) :
    List (String × String) → List (String × String) → State → Res (List (String × String))
  | [], renewedDomains, s => Res.ret renewedDomains none s
  | (domainName, domainID) :: rest, renewedDomains, s =>
    match perform w "RenewFreeDomain" (" SubmitRenewals " ++ domainName)
        (submitRenewalRequest s.token s.jar domainID months) s with
    | (Except.error e, s1) => Res.ret renewedDomains (some e) s1
    | (Except.ok all, s1) =>
      if containsBytes all "Order Confirmation" then
        submitRenewals w months rest (mapSet renewedDomains domainName "renew failed") s1
      else
        submitRenewals w months rest (mapSet renewedDomains domainName "renew success") s1

/-- RenewFreeDomain (lines 976-1138). -/
def RenewFreeDomain (w : Env) (domain : String) (months : Int) (s : State) :
    Res (List (String × String)) :=
  match s.jar with
  | none => Res.ret [] (some "NOT LOGGED IN") s
  | some _ =>
    if months < 1 ∨ months > 12 then Res.ret [] (some "months should be between 1 and 12") s
    else
      match fetch w "RenewFreeDomain" " Renewals" (renewalsRequest s.jar) retryTimes 0 s with
      | Fetched.exhausted => Res.stuck
      | Fetched.failed e s1 => Res.ret [] (some e) s1
      | Fetched.body all s1 =>
        let out := classifyRows w domain (w.reRenewRow all) ([], [])
        submitRenewals w months (w.rangeOrder out.2) out.1 s1

/-! ## CheckFreeDomainPurchasable and PurchaseFreeDomain -/

def checkAvailableRequest (domainPrefix : String) : Request :=
  { method := "POST", url := checkAvailableURL, query := [],
    form := [(FormKey.plain "domain", domainPrefix), (FormKey.plain "tld", "")],
    referer := domainsURL, refererQuery := [], jar := none }

/-- The loop over `domainList.FreeDomains` (lines 1221-1228); `none` is the
nil pointer dereference `domain.Status` on a nil entry. -/
def collectAvailable (w : Env) : List (Option DomainStatus) → List String → Option (List String)
  | [], availableDomains => some availableDomains
  | none :: _, _ => none
  | some d :: rest, availableDomains =>
    if "AVAILABLE" ≠ w.toUpper d.Status ∨ "FREE" ≠ w.toUpper d.Typ then
      collectAvailable w rest availableDomains
    else collectAvailable w rest (availableDomains ++ [d.Domain ++ d.TLD])

/-- CheckFreeDomainPurchasable (lines 1142-1234). -/
def CheckFreeDomainPurchasable (w : Env) (domainPrefix : String) (s : State) :
    Res (List String) :=
  match fetch w "CheckFreeDomainPurchasable" "" (checkAvailableRequest domainPrefix)
      retryTimes 0 s with
  | Fetched.exhausted => Res.stuck
  | Fetched.failed e s1 => Res.ret [] (some e) s1
  | Fetched.body all s1 =>
    match w.unmarshal all with
    | Except.error e => Res.ret [] (some ("CheckFreeDomainPurchasable Unmarshal err: " ++ e)) s1
    | Except.ok domainList =>
      if "OK" ≠ w.toUpper domainList.Status then
        Res.ret [] (some ("CheckFreeDomainPurchasable status err: " ++ domainList.Status)) s1
      else
        match collectAvailable w domainList.FreeDomains [] with
        | none => Res.panicked s1
        | some availableDomains => Res.ret availableDomains none s1

/-- PurchaseFreeDomain (lines 1239-1242). -/
def PurchaseFreeDomain (_domain : String) (s : State) : Res Unit :=
  Res.ret () (some "To be implemented") s

/-! ## Predicates used in the statements -/

/-- The globals are the same in both states. -/
def SameGlobals (s s2 : State) : Prop :=
  s2.jar = s.jar ∧ s2.token = s.token ∧ s2.domainInfoMap = s.domainInfoMap

/-- What a retried step leaves behind: the globals are untouched, at least
one attempt was made, and only copies of `req` were sent. -/
structure Stepped (req : Request) (s s2 : State) : Prop where
  globals : SameGlobals s s2
  attempts : s.attempts < s2.attempts
  sent : ∃ k, s2.sent = s.sent ++ List.replicate k req

/-- Every operation that needs a session answers "NOT LOGGED IN" in state `s`
and leaves the state, the attempt counter and the list of sent requests
included, as it is. -/
def AllNotLoggedIn (w : Env) (s : State) : Prop :=
  ListDomains w s = Res.ret [] (some "NOT LOGGED IN") s ∧
  (∀ domain, GetDomainInfo w domain s = Res.ret none (some "NOT LOGGED IN") s) ∧
  (∀ domain records, AddRecord w domain records s = Res.ret () (some "NOT LOGGED IN") s) ∧
  (∀ domain oldRecord newRecord,
    ModifyRecord w domain oldRecord newRecord s = Res.ret () (some "NOT LOGGED IN") s) ∧
  (∀ domain record, DeleteRecord w domain record s = Res.ret () (some "NOT LOGGED IN") s) ∧
  (∀ domain recordIndex,
    DeleteRecordByIndex w domain recordIndex s = Res.ret () (some "NOT LOGGED IN") s) ∧
  (∀ domain months, RenewFreeDomain w domain months s = Res.ret [] (some "NOT LOGGED IN") s)

/-- The facts that hold when Login returns nil in state `s2`, having started
in `s`: the last two attempts are the login-page GET and the credentials POST
of one iteration, both answered with status 200 and a readable body. -/
structure LoggedIn (w : Env) (user pwd : String) (s s2 : State) : Prop where
  attempts : s.attempts + 2 ≤ s2.attempts
  jar : s2.jar = some { id := s2.attempts - 2 }
  cache : s2.domainInfoMap = s.domainInfoMap
  exchange : ∃ page reply x,
    w.attempt (s2.attempts - 2) = Attempt.resp 200 (Except.ok page) ∧
    w.reToken page = [x, s2.token] ∧
    w.attempt (s2.attempts - 1) = Attempt.resp 200 (Except.ok reply) ∧
    w.reOK reply = true ∧
    ∃ pre, s2.sent = pre ++ [loginPageRequest { id := s2.attempts - 2 },
      doLoginRequest { id := s2.attempts - 2 } s2.token user pwd]

/-- Whether an attempt delivers a body (status 200, body read). -/
def attemptBody : Attempt → Option String
  | Attempt.resp code (Except.ok all) => if code = 200 then some all else none
  | _ => none

/-- The domain name of a renewals row. -/
def rowName : List String → Option String
  | [_, domainName, _, _] => some domainName
  | _ => none

/-- The row is outside the renewable window (line 1066). -/
def TooEarly (days : String) : Prop := (atoi days).1 > renewableDays

instance (days : String) : Decidable (TooEarly days) := by unfold TooEarly; infer_instance

/-- A filter is given and it is not the row's domain name, letter case aside
(line 1071). -/
def OutOfPlan (w : Env) (domain domainName : String) : Prop :=
  "" ≠ domain ∧ w.toLower domain ≠ w.toLower domainName

instance (w : Env) (domain domainName : String) : Decidable (OutOfPlan w domain domainName) := by
  unfold OutOfPlan; infer_instance

/-- What RenewFreeDomain writes for a submission answered with body `all`. -/
def renewVerdict (all : String) : String :=
  if containsBytes all "Order Confirmation" then "renew failed" else "renew success"

/-- What the submission loop of RenewFreeDomain leaves behind, started on the
candidates `cands` with results `renewed` in state `s`: it ends with results
`renewed2` and error `err` in state `s2`, having sent the requests `extra`. -/
structure Submitted (w : Env) (months : Int) (cands renewed : List (String × String)) (s : State)
    (renewed2 : List (String × String)) (err : Option String) (s2 : State)
    (extra : List Request) : Prop where
  globals : SameGlobals s s2
  attempts_ge : s.attempts ≤ s2.attempts
  attempts_le : s2.attempts ≤ s.attempts + cands.length
  sent_eq : s2.sent = s.sent ++ extra
  sent_from : ∀ req ∈ extra, ∃ p ∈ cands, req = submitRenewalRequest s.token s.jar p.2 months
  frame : ∀ name, name ∉ mapKeys cands → mapGet renewed2 name = mapGet renewed name
  values : ∀ name, mapGet renewed2 name = mapGet renewed name ∨
    mapGet renewed2 name = some "renew failed" ∨ mapGet renewed2 name = some "renew success"
  complete : err = none → s2.attempts = s.attempts + cands.length ∧
    ∀ p ∈ cands, submitRenewalRequest s.token s.jar p.2 months ∈ extra ∧
      (mapGet renewed2 p.1 = some "renew failed" ∨ mapGet renewed2 p.1 = some "renew success")

/-- The map `domains` of RenewFreeDomain after the row loop on the listing
`all`: the rows to renew, each with its renewal ID. -/
def renewCandidates (w : Env) (domain all : String) : List (String × String) :=
  (classifyRows w domain (w.reRenewRow all) ([], [])).2

/-- The cache as a map; a nil map has no entries. -/
def cacheOf (s : State) : List (String × DomainInfo) :=
  match s.domainInfoMap with
  | none => []
  | some m => m

/-- The domain name of a row of the domain listing. -/
def listName : List String → Option String
  | [_, domain, _, _, _] => some domain
  | _ => none

/-- Between the maps `c` and `c2` no entry is lost, every entry of `c` keeps
its record sequence, and an entry that is new in `c2` has no records. -/
def KeptMap (c c2 : List (String × DomainInfo)) : Prop :=
  (∀ d info, mapGet c d = some info →
    ∃ info2, mapGet c2 d = some info2 ∧ info2.Records = info.Records) ∧
  (∀ d info2, mapGet c d = none → mapGet c2 d = some info2 → info2.Records = [])

/-- The cached DNS records are the same in `s2` as in `s`: every cached domain
is still cached with the same record sequence, and a domain cached since has
no records. -/
def RecordsKept (s s2 : State) : Prop := KeptMap (cacheOf s) (cacheOf s2)

/-- How the mutations come to the DomainInfo `info` of `domain`, from state
`s` to state `s1`: it was cached (and nothing happened), or it was not and one
successful ListDomains call, which sent nothing but its own listing request,
put it in the cache without DNS records. -/
structure Resolved (w : Env) (domain : String) (s s1 : State) (info : DomainInfo) : Prop where
  cached : cacheGet s1 domain = some info
  jar : s1.jar = s.jar
  token : s1.token = s.token
  kept : RecordsKept s s1
  how : (cacheGet s domain = some info ∧ s1 = s) ∨
    (cacheGet s domain = none ∧ (∃ domains, ListDomains w s = Res.ret domains none s1) ∧
      info.Records = [] ∧
      ∃ n, s1.sent = s.sent ++ List.replicate n (listDomainsRequest s.jar))

/-- The state in which a call ended, by return or by panic. -/
def Res.final {α : Type} : Res α → Option State
  | Res.ret _ _ s => some s
  | Res.panicked s => some s
  | Res.stuck => none

/-- A DNS-mutation request: it carries the parameter `dnsaction` (in the form
of the POST of AddRecord and ModifyRecord, in the query of the GET of
DeleteRecord). -/
def isMutation (req : Request) : Bool :=
  req.form.any (fun kv => decide (kv.1 = FormKey.plain "dnsaction")) ||
  req.query.any (fun kv => decide (kv.1 = "dnsaction"))

/-- The groups `records[i]`, `records[i+1]`, ... carrying the values of the
records `rs` in order. -/
def recordGroups (w : Env) : Nat → List DomainRecord → List (FormKey × String)
  | _, [] => []
  | i, r :: rs => recordGroup w i r ++ recordGroups w (i + 1) rs

/-- The error message an attempt without a body produces in operation `op` at
step `step` (the empty string for an attempt that delivers a body). -/
def attemptError (op step : String) : Attempt → String
  | Attempt.newRequestErr e => op ++ " NewRequest" ++ step ++ " err: " ++ e
  | Attempt.doErr e => op ++ " Do" ++ step ++ " err: " ++ e
  | Attempt.resp code rd =>
    if code ≠ 200 then op ++ " Do" ++ step ++ " errCode: " ++ itoa code
    else
      match rd with
      | Except.error e => op ++ " ReadAll" ++ step ++ " err: " ++ e
      | Except.ok _ => ""

/-- The state in which a retried step ended. -/
def Fetched.final : Fetched → Option State
  | Fetched.body _ s => some s
  | Fetched.failed _ s => some s
  | Fetched.exhausted => none

/-- No attempt among the `n` attempts from number `base` on delivers a body. -/
def AllFail (w : Env) (base n : Nat) : Prop :=
  ∀ i, i < n → attemptBody (w.attempt (base + i)) = none

/-- How AddRecord and ModifyRecord (`opName`) answer the body `all` of their
mutation request, received in state `s2`; `r` is the result of the operation. -/
def AddModifyOutcome (w : Env) (domain opName : String) (r : Res Unit) (all : String)
    (s2 : State) : Prop :=
  (w.reSuccess all = true →
    ∃ v e s3, GetDomainInfo w domain s2 = Res.ret v e s3 ∧ r = Res.ret () none s3) ∧
  (w.reSuccess all = false → ∀ x msg, w.reErrorMsg all = [x, msg] →
    r = Res.ret () (some msg) s2) ∧
  (w.reSuccess all = false → (∀ x msg, w.reErrorMsg all ≠ [x, msg]) →
    r = Res.ret () (some (opName ++ " not success")) s2)

/-- How DeleteRecord answers the body `all` of its request, received in state
`s2`; `r` is the result of the operation. -/
def DeleteOutcome (w : Env) (domain : String) (r : Res Unit) (all : String) (s2 : State) : Prop :=
  (w.reError all = true → r = Res.ret () (some "DeleteRecord failed") s2) ∧
  (w.reError all = false → w.reSuccess all = false →
    r = Res.ret () (some "DeleteRecord not success") s2) ∧
  (w.reError all = false → w.reSuccess all = true →
    ∃ v e s3, GetDomainInfo w domain s2 = Res.ret v e s3 ∧ r = Res.ret () none s3)

/-- The operation whose result is `r` ends with the cache refresh started in
state `s2`: GetDomainInfo returns some value and error, both dropped, and `r` is
a nil error in the state GetDomainInfo ended in. When the five attempts of the
refresh all fail, GetDomainInfo's error is the transport error and the cache is
the one of state `s1`, in which the mutation request was built. -/
def RefreshDiscarded (w : Env) (domain : String) (r : Res Unit) (s1 s2 : State) : Prop :=
  ∃ v e s3, GetDomainInfo w domain s2 = Res.ret v e s3 ∧ r = Res.ret () none s3 ∧
    (AllFail w s2.attempts retryTimes →
      e = some (attemptError "GetDomainInfo" "" (w.attempt (s2.attempts + 4))) ∧
      s3.domainInfoMap = s1.domainInfoMap)

/-- The sequence the records of a page make when a row whose ttl or priority
does not parse contributes no entry: the records of the rows that parse, in
page order. -/
def parsedRows (rows : List (List String)) : List DomainRecord :=
  rows.filterMap (fun m => (parseRecord m none).1)

/-- The state `s` with other values in the three globals. -/
def withGlobals (j : Option Jar) (token : String) (cache : Option (List (String × DomainInfo)))
    (s : State) : State :=
  { s with jar := j, token := token, domainInfoMap := cache }

/-- The same end of a call, in the state `f s` instead of `s`. -/
def Res.mapState {α : Type} (f : State → State) : Res α → Res α
  | Res.ret val err s => Res.ret val err (f s)
  | Res.panicked s => Res.panicked (f s)
  | Res.stuck => Res.stuck

/-- The same end of a retried step, in the state `f s` instead of `s`. -/
def Fetched.mapState (f : State → State) : Fetched → Fetched
  | Fetched.body all s => Fetched.body all (f s)
  | Fetched.failed e s => Fetched.failed e (f s)
  | Fetched.exhausted => Fetched.exhausted

/-- The test of CheckFreeDomainPurchasable on an entry (lines 1222-1225): the
status is "AVAILABLE" and the type is "FREE", letter case aside. -/
def isAvailable (w : Env) (d : DomainStatus) : Bool :=
  decide ("AVAILABLE" = w.toUpper d.Status ∧ "FREE" = w.toUpper d.Typ)

/-- The names of the entries whose status is the string "AVAILABLE" and whose
type is the string "FREE", in order. -/
def exactlyAvailable (entries : List DomainStatus) : List String :=
  (entries.filter (fun d => decide (d.Status = "AVAILABLE" ∧ d.Typ = "FREE"))).map
    (fun d => d.Domain ++ d.TLD)

/-- An iteration of Login's loop that starts at attempt number `n` ends in a
transport failure: the cookie jar is made, and the login-page GET (attempt
`n`) delivers no body, or it delivers a page with a token and the credentials
POST (attempt `n + 1`) delivers no body. The value is the number of attempts
the iteration made and the error message of the failed attempt. -/
def iterationFails (w : Env) (n : Nat) : Option (Nat × String) :=
  match w.newJarErr n with
  | some _ => none
  | none =>
    match attemptBody (w.attempt n) with
    | none => some (1, attemptError "Login" " Login" (w.attempt n))
    | some page =>
      match w.reToken page with
      | [_, _] =>
        match attemptBody (w.attempt (n + 1)) with
        | none => some (2, attemptError "Login" " DoLogin" (w.attempt (n + 1)))
        | some _ => none
      | _ => none

/-- The attempt number reached after `m` iterations in a row, the first of
which starts at attempt `n`, each ended in a transport failure (`none` when
one of them does not). -/
def failedIterations (w : Env) : Nat → Nat → Option Nat
  | 0, n => some n
  | m + 1, n =>
    match iterationFails w n with
    | none => none
    | some (k, _) => failedIterations w m (n + k)

/-- The error that ends Login in an iteration which starts at attempt `n` and
does not end in a transport failure (`none`: Login succeeds): the cookie jar
cannot be made, the login page has no token, or the answer to the credentials
has no greeting. -/
def iterationResult (w : Env) (n : Nat) : Option String :=
  match w.newJarErr n with
  | some e => some ("Login New Jar err: " ++ e)
  | none =>
    match attemptBody (w.attempt n) with
    | none => none
    | some page =>
      match w.reToken page with
      | [_, _] =>
        match attemptBody (w.attempt (n + 1)) with
        | none => none
        | some reply => if w.reOK reply then none else some "Login failed"
      | allMatches => some ("Login FindSubmatch len err: " ++ fmtSubmatch allMatches)

/-! ## Concrete environments for the examples -/

def asciiLower (s : String) : String := String.mk (s.data.map Char.toLower)

def asciiUpper (s : String) : String := String.mk (s.data.map Char.toUpper)

/-- An environment in which every HTTP attempt fails in `client.Do`. -/
def envDown : Env :=
  { attempt := fun _ => Attempt.doErr "dial tcp: i/o timeout",
    newJarErr := fun _ => none,
    reToken := fun _ => [],
    reOK := fun _ => false,
    reDomainRow := fun _ => [],
    reRecordRow := fun _ => [],
    reErrorMsg := fun _ => [],
    reError := fun _ => false,
    reSuccess := fun _ => false,
    reRenewRow := fun _ => [],
    unmarshal := fun _ => Except.error "unexpected end of JSON input",
    toLower := asciiLower,
    toUpper := asciiUpper,
    rangeOrder := fun m => m }

/-- The state of a process that has not called Login. -/
def stateFresh : State :=
  { jar := none, token := "", domainInfoMap := none, attempts := 0, sent := [] }

/-- The cookie jar made before attempt 0. -/
def jar0 : Jar := { id := 0 }

/-- The state after `Login("user@example.com", "secret")` succeeded at the
first try: the jar made before attempt 0 and the token of the login page. -/
def stateIn : State :=
  { jar := some jar0, token := "7f3a", domainInfoMap := none, attempts := 2,
    sent := [loginPageRequest jar0,
             doLoginRequest jar0 "7f3a" "user@example.com" "secret"] }

/-- The text the renewals row pattern matches in `renewRowHtml`. -/
def renewRowMatch (name days id : String) : String :=
  "<tr><td>" ++ name ++ "</td><td>Active</td><td>2024-01-20<span class=\"textred\">" ++ days
    ++ " Days</span></td><td><a href=\"domains.php?a=renewdomain&domain=" ++ id ++ "\""

/-- A row of the renewals listing as the registrar renders it. -/
def renewRowHtml (name days id : String) : String :=
  renewRowMatch name days id ++ ">Renew</a></td></tr>"

/-- A listing with two rows for the same domain name. -/
def listingDup : String :=
  "<table>" ++ renewRowHtml "a.tk" "15" "1001" ++ renewRowHtml "a.tk" "3" "1002" ++ "</table>"

/-- A listing with two domains, both within the renewable window. -/
def listingTwo : String :=
  "<table>" ++ renewRowHtml "b.tk" "3" "2001" ++ renewRowHtml "c.tk" "5" "2002" ++ "</table>"

/-- The registrar answers attempt 2 with `listingDup` and attempt 3 with a
page without the order-confirmation marker. -/
def envRenewDup : Env :=
  { envDown with
    attempt := fun n =>
      if n = 2 then Attempt.resp 200 (Except.ok listingDup)
      else if n = 3 then Attempt.resp 200 (Except.ok "<html>Renewal complete</html>")
      else Attempt.doErr "dial tcp: i/o timeout",
    reRenewRow := fun all =>
      if all = listingDup then
        [[renewRowMatch "a.tk" "15" "1001", "a.tk", "15", "1001"],
         [renewRowMatch "a.tk" "3" "1002", "a.tk", "3", "1002"]]
      else [] }

/-- The registrar answers attempt 2 with `listingTwo`, attempt 3 with an
order-confirmation page and attempt 4 with a page without the marker. -/
def envRenewTwo : Env :=
  { envDown with
    attempt := fun n =>
      if n = 2 then Attempt.resp 200 (Except.ok listingTwo)
      else if n = 3 then Attempt.resp 200 (Except.ok "<html><h1>Order Confirmation</h1></html>")
      else if n = 4 then Attempt.resp 200 (Except.ok "<html>Renewal complete</html>")
      else Attempt.doErr "dial tcp: i/o timeout",
    reRenewRow := fun all =>
      if all = listingTwo then
        [[renewRowMatch "b.tk" "3" "2001", "b.tk", "3", "2001"],
         [renewRowMatch "c.tk" "5" "2002", "c.tk", "5", "2002"]]
      else [] }

/-- As `envRenewTwo`, but the first submission (attempt 3) fails in `client.Do`. -/
def envRenewAbort : Env :=
  { envRenewTwo with
    attempt := fun n =>
      if n = 2 then Attempt.resp 200 (Except.ok listingTwo)
      else Attempt.doErr "dial tcp: i/o timeout" }

/-- The state in which the listing of the renewal examples has been received. -/
def stateListed : State :=
  { stateIn with attempts := 3, sent := stateIn.sent ++ [renewalsRequest (some jar0)] }

/-- The state after one renewal, of the row with ID `domainID`, was submitted
for 12 months from `stateListed`. -/
def stateSubmitted (domainID : String) : State :=
  { stateListed with
    attempts := 4,
    sent := stateListed.sent ++ [submitRenewalRequest "7f3a" (some jar0) domainID 12] }

/-- The text the domain-listing row pattern matches in `listPage`. -/
def listRowMatch (domain regDate expDate domainID : String) : String :=
  "class=\"second\"><a href=\"http://" ++ domain ++ "\" target=\"_blank\">" ++ domain
    ++ " <i class=\"fa\"></i></a></td><td class=\"third\">" ++ regDate
    ++ "</td><td class=\"fourth\">" ++ expDate
    ++ "</td><td class=\"fifth\">Active</td><td><a href=\"clientarea.php?action=domaindetails&id="
    ++ domainID ++ "\""

/-- A domain-list page with the one domain example.tk. -/
def listPage : String :=
  "<table><tr><td " ++ listRowMatch "example.tk" "2023-05-01" "2024-05-01" "1234567"
    ++ ">Manage</a></td></tr></table>"

/-- The registrar answers attempt 2 with `listPage`; every other attempt
fails in `client.Do`. -/
def envList : Env :=
  { envDown with
    attempt := fun n =>
      if n = 2 then Attempt.resp 200 (Except.ok listPage)
      else Attempt.doErr "dial tcp: i/o timeout",
    reDomainRow := fun all =>
      if all = listPage then
        [[listRowMatch "example.tk" "2023-05-01" "2024-05-01" "1234567",
          "example.tk", "2023-05-01", "2024-05-01", "1234567"]]
      else [] }

/-- The cache entry ListDomains makes for the row of `listPage`. -/
def infoListed : DomainInfo :=
  { Domain := "example.tk", DomainID := "1234567", RegDate := "2023-05-01",
    ExpDate := "2024-05-01", Records := [] }

/-- The state in which `listPage` has been received, before the merge. -/
def stateListReceived : State :=
  { stateIn with attempts := 3, sent := stateIn.sent ++ [listDomainsRequest (some jar0)] }

/-- The state after ListDomains merged `listPage` into the empty cache. -/
def stateListedDomains : State :=
  { stateListReceived with domainInfoMap := some [("example.tk", infoListed)] }

/-- The logged-in state with example.tk cached with the records `records`. -/
def stateCached (records : List (Option DomainRecord)) : State :=
  { stateIn with domainInfoMap := some [("example.tk", { infoListed with Records := records })] }

def recA : DomainRecord :=
  { Typ := "A", Name := "www", TTL := 300, Value := "127.0.0.1", Priority := 0 }

def recHello : DomainRecord :=
  { Typ := "TXT", Name := "note", TTL := 300, Value := "Hello", Priority := 0 }

def recHelloLower : DomainRecord :=
  { Typ := "TXT", Name := "note", TTL := 300, Value := "hello", Priority := 0 }

def recBye : DomainRecord :=
  { Typ := "TXT", Name := "note", TTL := 600, Value := "bye", Priority := 0 }

/-- A cached record whose type is in lower case and which has a priority
without being an MX record. -/
def recLower : DomainRecord :=
  { Typ := "cname", Name := "www", TTL := 300, Value := "example.com", Priority := 5 }

/-- The state after five failed attempts of the request `req` from `s`. -/
def stateAfterFive (s : State) (req : Request) : State :=
  { s with attempts := s.attempts + 5, sent := s.sent ++ List.replicate 5 req }

/-- The request ModifyRecord builds for example.tk from `stateIn`'s session
with the form groups `groups`. -/
def modifyExampleRequest (groups : List (FormKey × String)) : Request :=
  { method := "POST", url := loginURL,
    query := [("managedns", "example.tk"), ("domainid", "1234567")],
    form := [(FormKey.plain "token", "7f3a"), (FormKey.plain "dnsaction", "modify")] ++ groups,
    referer := loginURL,
    refererQuery := [("managedns", "example.tk"), ("domainid", "1234567")],
    jar := some jar0 }

/-- An availability payload whose `free_domains` list has a null entry. -/
def jsonNullEntry : String := "\x7b\"status\":\"OK\",\"free_domains\":[null]\x7d"

/-- The registrar answers attempt 0 with `jsonNullEntry`. -/
def envNullEntry : Env :=
  { envDown with
    attempt := fun n =>
      if n = 0 then Attempt.resp 200 (Except.ok jsonNullEntry)
      else Attempt.doErr "dial tcp: i/o timeout",
    unmarshal := fun all =>
      if all = jsonNullEntry then Except.ok { Status := "OK", FreeDomains := [none] }
      else Except.error "unexpected end of JSON input" }

/-- The state after the availability request was answered. -/
def stateChecked : State :=
  { stateFresh with attempts := 1, sent := [checkAvailableRequest "freenom-api"] }

/-- The text the DNS record row pattern matches for a row without priority. -/
def recordRowMatch (typ name ttl value : String) : String :=
  "records[0][type]\" value=\"" ++ typ ++ "\"><input type=\"text\" name=\"records[0][name]\" value=\""
    ++ name ++ "\"></td><td><input type=\"text\" name=\"records[0][ttl]\" value=\"" ++ ttl
    ++ "\"></td><td><input type=\"text\" name=\"records[0][value]\" value=\"" ++ value
    ++ "\"></td>"

/-- A response that reports a DNS mutation as done. -/
def dnsSuccessPage : String :=
  "<ul><li class=\"dnssuccess\">Record added successfully</li></ul>"

/-- A response that reports a DNS mutation as refused, with a message. -/
def dnsErrorPage : String :=
  "<ul><li class=\"dnserror\">Error occured: Invalid value in dnsrecord</li></ul>"

/-- A response that carries both markers. -/
def dnsBothPage : String :=
  "<ul><li class=\"dnssuccess\">Record deleted successfully</li>"
    ++ "<li class=\"dnserror\">Error occured: record is locked</li></ul>"

/-- The registrar answers attempt 2 with `page`; every other attempt fails in
`client.Do`. The marker patterns are tabulated on the three pages above. -/
def envDNS (page : String) : Env :=
  { envDown with
    attempt := fun n =>
      if n = 2 then Attempt.resp 200 (Except.ok page)
      else Attempt.doErr "dial tcp: i/o timeout",
    reSuccess := fun all => decide (all = dnsSuccessPage ∨ all = dnsBothPage),
    reError := fun all => decide (all = dnsErrorPage ∨ all = dnsBothPage),
    reErrorMsg := fun all =>
      if all = dnsErrorPage then
        ["class=\"dnserror\">Error occured: Invalid value in dnsrecord</li>",
         "Error occured: Invalid value in dnsrecord"]
      else if all = dnsBothPage then
        ["class=\"dnserror\">Error occured: record is locked</li>",
         "Error occured: record is locked"]
      else [] }

/-- The cache entry of example.tk with the one record `recA`. -/
def infoWithA : DomainInfo := { infoListed with Records := [some recA] }

/-- The state after one attempt that handed `req` to `client.Do`, from `s`. -/
def stateAfterOne (s : State) (req : Request) : State :=
  { s with attempts := s.attempts + 1, sent := s.sent ++ [req] }

/-- The text the DNS record row pattern matches for row `i` of a page, a row
without priority. -/
def recordRowAt (i typ name ttl value : String) : String :=
  "records[" ++ i ++ "][type]\" value=\"" ++ typ ++ "\"><input type=\"text\" name=\"records["
    ++ i ++ "][name]\" value=\"" ++ name ++ "\"></td><td><input type=\"text\" name=\"records["
    ++ i ++ "][ttl]\" value=\"" ++ ttl ++ "\"></td><td><input type=\"text\" name=\"records["
    ++ i ++ "][value]\" value=\"" ++ value ++ "\"></td>"

/-- A DNS-management page with two rows; the ttl of the first one is beyond
the range of a 64-bit `int`. -/
def recordsPage : String :=
  "<table><tr><td><input type=\"hidden\" name=\""
    ++ recordRowAt "0" "A" "mail" "99999999999999999999" "127.0.0.2" ++ "</tr>"
    ++ "<tr><td><input type=\"hidden\" name=\""
    ++ recordRowAt "1" "A" "www" "300" "127.0.0.1" ++ "</tr></table>"

/-- The registrar answers attempt 2 with `recordsPage`; every other attempt
fails in `client.Do`. -/
def envRecords : Env :=
  { envDown with
    attempt := fun n =>
      if n = 2 then Attempt.resp 200 (Except.ok recordsPage)
      else Attempt.doErr "dial tcp: i/o timeout",
    reRecordRow := fun all =>
      if all = recordsPage then
        [[recordRowAt "0" "A" "mail" "99999999999999999999" "127.0.0.2",
          "A", "mail", "99999999999999999999", "127.0.0.2", ""],
         [recordRowAt "1" "A" "www" "300" "127.0.0.1", "A", "www", "300", "127.0.0.1", ""]]
      else [] }

/-- An availability payload with the one entry foo.tk, available and free. -/
def jsonSingle : String :=
  "\x7b\"status\":\"OK\",\"free_domains\":[\x7b\"status\":\"AVAILABLE\",\"domain\":\"foo\","
    ++ "\"tld\":\".tk\",\"type\":\"FREE\",\"is_in_cart\":0\x7d]\x7d"

/-- An availability payload with foo.ml in the cart and foo.tk available. -/
def jsonCart : String :=
  "\x7b\"status\":\"OK\",\"free_domains\":[\x7b\"status\":\"IN_CART\",\"domain\":\"foo\","
    ++ "\"tld\":\".ml\",\"type\":\"FREE\",\"is_in_cart\":1\x7d,\x7b\"status\":\"AVAILABLE\","
    ++ "\"domain\":\"foo\",\"tld\":\".tk\",\"type\":\"FREE\",\"is_in_cart\":0\x7d]\x7d"

/-- An availability payload whose entry has its status and type in lower case. -/
def jsonLower : String :=
  "\x7b\"status\":\"OK\",\"free_domains\":[\x7b\"status\":\"available\",\"domain\":\"foo\","
    ++ "\"tld\":\".tk\",\"type\":\"free\",\"is_in_cart\":0\x7d]\x7d"

def entryFooTk : DomainStatus :=
  { Status := "AVAILABLE", Domain := "foo", TLD := ".tk", Typ := "FREE", IsInCart := 0 }

def entryFooMl : DomainStatus :=
  { Status := "IN_CART", Domain := "foo", TLD := ".ml", Typ := "FREE", IsInCart := 1 }

def entryLower : DomainStatus :=
  { Status := "available", Domain := "foo", TLD := ".tk", Typ := "free", IsInCart := 0 }

/-- The registrar answers attempt 0 with `payload`; the decoding is tabulated
on the three payloads above. -/
def envAvail (payload : String) : Env :=
  { envDown with
    attempt := fun n =>
      if n = 0 then Attempt.resp 200 (Except.ok payload)
      else Attempt.doErr "dial tcp: i/o timeout",
    unmarshal := fun all =>
      if all = jsonSingle then Except.ok { Status := "OK", FreeDomains := [some entryFooTk] }
      else if all = jsonCart then
        Except.ok { Status := "OK", FreeDomains := [some entryFooMl, some entryFooTk] }
      else if all = jsonLower then
        Except.ok { Status := "OK", FreeDomains := [some entryLower] }
      else Except.error "unexpected end of JSON input" }

/-- The state after the availability of "foo" was asked once from `stateFresh`. -/
def stateAsked : State :=
  { stateFresh with attempts := 1, sent := [checkAvailableRequest "foo"] }

/-- The text the token pattern matches in `loginPage`. -/
def tokenMatch : String :=
  "class=\"form-stacked\" method=\"post\" action=\"dologin.php\">"
    ++ "<input type=\"hidden\" name=\"token\" value=\"7f3a\""

/-- A login page with the token 7f3a. -/
def loginPage : String := "<html><form " ++ tokenMatch ++ " /></form></html>"

/-- The login-page GET fails in `client.Do` four times and is answered at its
fifth attempt (attempt 4); the credentials POST that follows (attempt 5) fails
in `client.Do`, and so does every later attempt. -/
def envLoginFifth : Env :=
  { envDown with
    attempt := fun n =>
      if n = 4 then Attempt.resp 200 (Except.ok loginPage)
      else Attempt.doErr "dial tcp: i/o timeout",
    reToken := fun all => if all = loginPage then [tokenMatch, "7f3a"] else [] }

/-- The state in which Login ends in `envLoginFifth`, called in `stateFresh`:
five login-page requests, each with the cookie jar of its iteration, and one
credentials request were sent. -/
def stateLoginFifth : State :=
  { jar := none, token := "7f3a", domainInfoMap := none, attempts := 6,
    sent := [loginPageRequest { id := 0 }, loginPageRequest { id := 1 },
      loginPageRequest { id := 2 }, loginPageRequest { id := 3 },
      loginPageRequest { id := 4 },
      doLoginRequest { id := 4 } "7f3a" "user@example.com" "secret"] }

/-! ## Basic facts: maps -/

theorem mapGet_mapSet_same {β : Type} (m : List (String × β)) (k : String) (v : β) :
    mapGet (mapSet m k v) k = some v := by
  induction m with
  | nil => simp [mapSet, mapGet]
  | cons p m ih =>
    obtain ⟨k0, v0⟩ := p
    by_cases h : k0 = k
    · simp [mapSet, mapGet, h]
    · simp [mapSet, mapGet, h, ih]

theorem mapGet_mapSet_other {β : Type} (m : List (String × β)) (k k2 : String) (v : β)
    (hne : k ≠ k2) : mapGet (mapSet m k v) k2 = mapGet m k2 := by
  induction m with
  | nil => simp [mapSet, mapGet, hne]
  | cons p m ih =>
    obtain ⟨k0, v0⟩ := p
    by_cases h : k0 = k
    · subst h
      simp [mapSet, mapGet, hne]
    · by_cases h2 : k0 = k2
      · subst h2
        simp [mapSet, mapGet, h]
      · simp [mapSet, mapGet, h, h2, ih]

/-! ## Basic facts: one attempt and the retry loop -/

theorem sameGlobals_refl (s : State) : SameGlobals s s := ⟨rfl, rfl, rfl⟩

theorem sameGlobals_trans {a b c : State} (h1 : SameGlobals a b) (h2 : SameGlobals b c) :
    SameGlobals a c :=
  ⟨h2.1.trans h1.1, h2.2.1.trans h1.2.1, h2.2.2.trans h1.2.2⟩

theorem perform_ok {w : Env} {op step : String} {req : Request} {s s1 : State} {all : String}
    (h : perform w op step req s = (Except.ok all, s1)) :
    w.attempt s.attempts = Attempt.resp 200 (Except.ok all) ∧
      s1 = { s with attempts := s.attempts + 1, sent := s.sent ++ [req] } := by
  unfold perform at h
  cases hw : w.attempt s.attempts with
  | newRequestErr e => rw [hw] at h; simp at h
  | doErr e => rw [hw] at h; simp at h
  | resp code rd =>
    rw [hw] at h
    by_cases hc : code = 200
    · cases rd with
      | error e => simp [hc] at h
      | ok b =>
        simp [hc] at h
        obtain ⟨h1, h2⟩ := h
        subst h1
        exact ⟨by rw [hc], h2.symm⟩
    · simp [hc] at h

theorem perform_error {w : Env} {op step : String} {req : Request} {s s1 : State} {e : String}
    (h : perform w op step req s = (Except.error e, s1)) :
    SameGlobals s s1 ∧ s1.attempts = s.attempts + 1 ∧
      (s1.sent = s.sent ∨ s1.sent = s.sent ++ [req]) := by
  unfold perform at h
  cases hw : w.attempt s.attempts with
  | newRequestErr e2 =>
    rw [hw] at h; simp at h
    obtain ⟨_, h2⟩ := h
    subst h2
    exact ⟨⟨rfl, rfl, rfl⟩, rfl, Or.inl rfl⟩
  | doErr e2 =>
    rw [hw] at h; simp at h
    obtain ⟨_, h2⟩ := h
    subst h2
    exact ⟨⟨rfl, rfl, rfl⟩, rfl, Or.inr rfl⟩
  | resp code rd =>
    rw [hw] at h
    by_cases hc : code = 200
    · cases rd with
      | error e2 =>
        simp [hc] at h
        obtain ⟨_, h2⟩ := h
        subst h2
        exact ⟨⟨rfl, rfl, rfl⟩, rfl, Or.inr rfl⟩
      | ok b => simp [hc] at h
    · simp [hc] at h
      obtain ⟨_, h2⟩ := h
      subst h2
      exact ⟨⟨rfl, rfl, rfl⟩, rfl, Or.inr rfl⟩

theorem fetch_spec (w : Env) (op step : String) (req : Request) :
    ∀ (fuel retries : Nat) (s : State), 0 < fuel → retryTimes ≤ fuel + retries →
      (∃ all s2, fetch w op step req fuel retries s = Fetched.body all s2 ∧ Stepped req s s2 ∧
          w.attempt (s2.attempts - 1) = Attempt.resp 200 (Except.ok all) ∧
          ∃ k, s2.sent = s.sent ++ List.replicate k req ++ [req]) ∨
      (∃ e s2, fetch w op step req fuel retries s = Fetched.failed e s2 ∧ Stepped req s s2) := by
  intro fuel
  induction fuel with
  | zero => intro retries s h; exact absurd h (by decide)
  | succ fuel ih =>
    intro retries s _ hle
    unfold fetch
    cases hp : perform w op step req s with
    | mk r s1 =>
      cases r with
      | ok all =>
        left
        obtain ⟨hw, hs1⟩ := perform_ok hp
        refine ⟨all, s1, rfl, ⟨?_, ?_, ?_⟩, ?_, ?_⟩
        · subst hs1; exact ⟨rfl, rfl, rfl⟩
        · subst hs1; simp
        · subst hs1; exact ⟨1, by simp⟩
        · subst hs1; simpa using hw
        · subst hs1; exact ⟨0, by simp⟩
      | error e =>
        obtain ⟨hg, ha, hsent⟩ := perform_error hp
        have hsent2 : ∃ k, s1.sent = s.sent ++ List.replicate k req := by
          rcases hsent with h | h
          · exact ⟨0, by simp [h]⟩
          · exact ⟨1, by simp [h]⟩
        by_cases hlt : retries + 1 < retryTimes
        · simp only [hlt, if_true]
          have hfuel : 0 < fuel := by omega
          rcases ih (retries + 1) s1 hfuel (by omega) with
            ⟨all, s2, h1, h2, h3, h4⟩ | ⟨e2, s2, h1, h2⟩
          · left
            obtain ⟨k1, hk1⟩ := hsent2
            obtain ⟨k2, hk2⟩ := h2.sent
            obtain ⟨k3, hk3⟩ := h4
            refine ⟨all, s2, h1, ⟨sameGlobals_trans hg h2.globals, by have := h2.attempts; omega, ?_⟩, h3, ?_⟩
            · exact ⟨k1 + k2, by rw [hk2, hk1, List.append_assoc, List.append_replicate_replicate]⟩
            · exact ⟨k1 + k3, by
                rw [hk3, hk1, List.append_assoc, List.append_assoc, List.append_assoc,
                  ← List.append_assoc (List.replicate k1 req), List.append_replicate_replicate]⟩
          · right
            obtain ⟨k1, hk1⟩ := hsent2
            obtain ⟨k2, hk2⟩ := h2.sent
            refine ⟨e2, s2, h1, ⟨sameGlobals_trans hg h2.globals, by have := h2.attempts; omega, ?_⟩⟩
            exact ⟨k1 + k2, by rw [hk2, hk1, List.append_assoc, List.append_replicate_replicate]⟩
        · simp only [hlt, if_false]
          right
          exact ⟨e, s1, rfl, ⟨hg, by omega, hsent2⟩⟩

/-- The retry loop as the operations call it (five units of fuel, counter 0)
always ends with a body or an error. -/
theorem fetch_total (w : Env) (op step : String) (req : Request) (s : State) :
    (∃ all s2, fetch w op step req retryTimes 0 s = Fetched.body all s2 ∧ Stepped req s s2 ∧
        w.attempt (s2.attempts - 1) = Attempt.resp 200 (Except.ok all) ∧
        ∃ k, s2.sent = s.sent ++ List.replicate k req ++ [req]) ∨
    (∃ e s2, fetch w op step req retryTimes 0 s = Fetched.failed e s2 ∧ Stepped req s s2) :=
  fetch_spec w op step req retryTimes 0 s (by decide) (by simp)

/-! ## Without a session -/

theorem ListDomains_no_jar (w : Env) (s : State) (h : s.jar = none) :
    ListDomains w s = Res.ret [] (some "NOT LOGGED IN") s := by
  unfold ListDomains; rw [h]

theorem GetDomainInfo_no_jar (w : Env) (domain : String) (s : State) (h : s.jar = none) :
    GetDomainInfo w domain s = Res.ret none (some "NOT LOGGED IN") s := by
  unfold GetDomainInfo; rw [h]

theorem AddRecord_no_jar (w : Env) (domain : String) (records : List DomainRecord) (s : State)
    (h : s.jar = none) : AddRecord w domain records s = Res.ret () (some "NOT LOGGED IN") s := by
  unfold AddRecord; rw [h]

theorem ModifyRecord_no_jar (w : Env) (domain : String) (oldRecord newRecord : Option DomainRecord)
    (s : State) (h : s.jar = none) :
    ModifyRecord w domain oldRecord newRecord s = Res.ret () (some "NOT LOGGED IN") s := by
  unfold ModifyRecord; rw [h]

theorem DeleteRecord_no_jar (w : Env) (domain : String) (record : Option DomainRecord) (s : State)
    (h : s.jar = none) : DeleteRecord w domain record s = Res.ret () (some "NOT LOGGED IN") s := by
  unfold DeleteRecord; rw [h]

theorem DeleteRecordByIndex_no_jar (w : Env) (domain : String) (recordIndex : Int) (s : State)
    (h : s.jar = none) :
    DeleteRecordByIndex w domain recordIndex s = Res.ret () (some "NOT LOGGED IN") s := by
  unfold DeleteRecordByIndex; rw [h]

theorem RenewFreeDomain_no_jar (w : Env) (domain : String) (months : Int) (s : State)
    (h : s.jar = none) : RenewFreeDomain w domain months s = Res.ret [] (some "NOT LOGGED IN") s := by
  unfold RenewFreeDomain; rw [h]

theorem allNotLoggedIn_of_no_jar (w : Env) (s : State) (h : s.jar = none) : AllNotLoggedIn w s :=
  ⟨ListDomains_no_jar w s h, fun d => GetDomainInfo_no_jar w d s h,
   fun d r => AddRecord_no_jar w d r s h, fun d o n => ModifyRecord_no_jar w d o n s h,
   fun d r => DeleteRecord_no_jar w d r s h, fun d i => DeleteRecordByIndex_no_jar w d i s h,
   fun d m => RenewFreeDomain_no_jar w d m s h⟩

/-! ## Login -/

theorem loginLoop_spec (w : Env) (user pwd : String) :
    ∀ (fuel retries : Nat) (s : State), 0 < fuel → retryTimes ≤ fuel + retries →
      (∃ e s2, loginLoop w user pwd fuel retries s = Res.ret () (some e) s2 ∧
          s2.jar = none ∧ s2.domainInfoMap = s.domainInfoMap ∧ s.attempts ≤ s2.attempts) ∨
      (∃ s2, loginLoop w user pwd fuel retries s = Res.ret () none s2 ∧
          LoggedIn w user pwd s s2) := by
  intro fuel
  induction fuel with
  | zero => intro retries s h; exact absurd h (by decide)
  | succ fuel ih =>
    intro retries s _ hle
    unfold loginLoop
    simp only []
    cases hj : w.newJarErr s.attempts with
    | some e => left; exact ⟨_, _, rfl, rfl, rfl, le_refl _⟩
    | none =>
      simp only []
      cases hp : perform w "Login" " Login" (loginPageRequest { id := s.attempts })
          { s with jar := some { id := s.attempts } } with
      | mk r s1 =>
        cases r with
        | error e =>
          obtain ⟨hg, ha, _⟩ := perform_error hp
          by_cases hlt : retries + 1 < retryTimes
          · simp only [hlt, if_true]
            rcases ih (retries + 1) s1 (by omega) (by omega) with
              ⟨e2, s2, h1, h2, h3, h4⟩ | ⟨s2, h1, h2⟩
            · left
              refine ⟨e2, s2, h1, h2, ?_, ?_⟩
              · rw [h3]; exact hg.2.2
              · simp at ha; omega
            · right
              refine ⟨s2, h1, ⟨?_, h2.jar, ?_, h2.exchange⟩⟩
              · have := h2.attempts; simp at ha; omega
              · rw [h2.cache]; exact hg.2.2
          · simp only [hlt, if_false]
            left
            refine ⟨_, _, rfl, rfl, hg.2.2, ?_⟩
            simp at ha; simp [ha]
        | ok page =>
          obtain ⟨hw, hs1⟩ := perform_ok hp
          simp only at hw hs1
          try simp only []
          split
          · rename_i x tok htok
            try simp only []
            cases hp2 : perform w "Login" " DoLogin" (doLoginRequest { id := s.attempts } tok user pwd)
                { s1 with token := tok } with
            | mk r2 s3 =>
              cases r2 with
              | error e =>
                obtain ⟨hg, ha, _⟩ := perform_error hp2
                by_cases hlt : retries + 1 < retryTimes
                · simp only [hlt, if_true]
                  rcases ih (retries + 1) s3 (by omega) (by omega) with
                    ⟨e2, s2, h1, h2, h3, h4⟩ | ⟨s2, h1, h2⟩
                  · left
                    refine ⟨e2, s2, h1, h2, ?_, ?_⟩
                    · rw [h3, hg.2.2, hs1]
                    · simp [hs1] at ha; omega
                  · right
                    refine ⟨s2, h1, ⟨?_, h2.jar, ?_, h2.exchange⟩⟩
                    · have := h2.attempts; simp [hs1] at ha; omega
                    · rw [h2.cache, hg.2.2, hs1]
                · simp only [hlt, if_false]
                  left
                  refine ⟨_, _, rfl, rfl, ?_, ?_⟩
                  · simp only []; rw [hg.2.2, hs1]
                  · simp [hs1] at ha; simp [ha]; omega
              | ok reply =>
                obtain ⟨hw2, hs3⟩ := perform_ok hp2
                try simp only []
                cases hok : w.reOK reply with
                | false =>
                  left
                  simp only [Bool.not_false, if_true]
                  refine ⟨_, _, rfl, rfl, ?_, ?_⟩
                  · simp [hs3, hs1]
                  · simp [hs3, hs1]; omega
                | true =>
                  right
                  simp only [Bool.not_true, Bool.false_eq_true, if_false]
                  refine ⟨s3, rfl, ⟨?_, ?_, ?_, ?_⟩⟩
                  · simp [hs3, hs1]
                  · simp [hs3, hs1]
                  · simp [hs3, hs1]
                  · refine ⟨page, reply, x, ?_, ?_, ?_, hok, ?_⟩
                    · simp [hs3, hs1]; exact hw
                    · simp [hs3]; exact htok
                    · simp [hs3, hs1]
                      simp [hs1] at hw2
                      exact hw2
                    · exact ⟨s.sent, by simp [hs3, hs1]⟩
          · left
            refine ⟨_, _, rfl, rfl, ?_, ?_⟩
            · simp [hs1]
            · simp [hs1]

/-- C1: with no session (`jar` is nil), each of ListDomains, GetDomainInfo,
AddRecord, ModifyRecord, DeleteRecord, DeleteRecordByIndex and RenewFreeDomain
returns the error "NOT LOGGED IN", whatever its arguments and the cache; the
state it returns in is the state it was called in, so no HTTP attempt was made,
no request was sent, and the token and the cache are unchanged. -/
theorem C1_not_logged_in (w : Env) (s : State) (h : s.jar = none)
    (domain : String) (records : List DomainRecord) (oldRecord newRecord record : Option DomainRecord)
    (recordIndex months : Int) :
    ListDomains w s = Res.ret [] (some "NOT LOGGED IN") s ∧
    GetDomainInfo w domain s = Res.ret none (some "NOT LOGGED IN") s ∧
    AddRecord w domain records s = Res.ret () (some "NOT LOGGED IN") s ∧
    ModifyRecord w domain oldRecord newRecord s = Res.ret () (some "NOT LOGGED IN") s ∧
    DeleteRecord w domain record s = Res.ret () (some "NOT LOGGED IN") s ∧
    DeleteRecordByIndex w domain recordIndex s = Res.ret () (some "NOT LOGGED IN") s ∧
    RenewFreeDomain w domain months s = Res.ret [] (some "NOT LOGGED IN") s :=
  ⟨ListDomains_no_jar w s h, GetDomainInfo_no_jar w domain s h,
   AddRecord_no_jar w domain records s h, ModifyRecord_no_jar w domain oldRecord newRecord s h,
   DeleteRecord_no_jar w domain record s h, DeleteRecordByIndex_no_jar w domain recordIndex s h,
   RenewFreeDomain_no_jar w domain months s h⟩

theorem C1_not_logged_in_witness :
    stateFresh.jar = none ∧
    (ListDomains envDown stateFresh = Res.ret [] (some "NOT LOGGED IN") stateFresh ∧
    GetDomainInfo envDown "example.tk" stateFresh
      = Res.ret none (some "NOT LOGGED IN") stateFresh ∧
    AddRecord envDown "example.tk" [⟨"A", "www", 300, "127.0.0.1", 0⟩] stateFresh
      = Res.ret () (some "NOT LOGGED IN") stateFresh ∧
    ModifyRecord envDown "example.tk" none none stateFresh
      = Res.ret () (some "NOT LOGGED IN") stateFresh ∧
    DeleteRecord envDown "example.tk" none stateFresh
      = Res.ret () (some "NOT LOGGED IN") stateFresh ∧
    DeleteRecordByIndex envDown "example.tk" (-1) stateFresh
      = Res.ret () (some "NOT LOGGED IN") stateFresh ∧
    RenewFreeDomain envDown "" 0 stateFresh = Res.ret [] (some "NOT LOGGED IN") stateFresh) :=
  ⟨rfl, C1_not_logged_in envDown stateFresh rfl "example.tk" [⟨"A", "www", 300, "127.0.0.1", 0⟩]
    none none none (-1) 0⟩

/-- C2: Login always returns, and the session follows its result. When Login
returns an error the cookie jar is nil and every operation that needs a session,
called next, fails with "NOT LOGGED IN". When Login returns nil a cookie jar
exists; the last two attempts are the login-page GET and the credentials POST of
one loop iteration, both answered with status 200; the body of the POST matches
the greeting pattern; and the stored token is the one the token pattern captured
from that GET. -/
theorem C2_login_state_machine (w : Env) (user pwd : String) (s : State) :
    (∃ e s2, Login w user pwd s = Res.ret () (some e) s2 ∧ s2.jar = none ∧ AllNotLoggedIn w s2) ∨
    (∃ s2, Login w user pwd s = Res.ret () none s2 ∧ LoggedIn w user pwd s s2) := by
  rcases loginLoop_spec w user pwd retryTimes 0 s (by decide) (by simp) with
    ⟨e, s2, h1, h2, _, _⟩ | ⟨s2, h1, h2⟩
  · exact Or.inl ⟨e, s2, h1, h2, allNotLoggedIn_of_no_jar w s2 h2⟩
  · exact Or.inr ⟨s2, h1, h2⟩

/-! ## More facts about maps -/

theorem mapGet_none_iff {β : Type} (m : List (String × β)) (k : String) :
    mapGet m k = none ↔ k ∉ mapKeys m := by
  induction m with
  | nil => simp [mapGet, mapKeys]
  | cons p m ih =>
    obtain ⟨k0, v0⟩ := p
    by_cases h : k0 = k
    · simp [mapGet, mapKeys, h]
    · have h2 : ¬ k = k0 := fun e => h e.symm
      simp only [mapKeys] at ih
      simp [mapGet, mapKeys, h, h2, ih]

theorem mem_of_mapGet {β : Type} (m : List (String × β)) (k : String) (v : β)
    (h : mapGet m k = some v) : (k, v) ∈ m := by
  induction m with
  | nil => simp [mapGet] at h
  | cons p m ih =>
    obtain ⟨k0, v0⟩ := p
    by_cases hk : k0 = k
    · simp [mapGet, hk] at h
      simp [hk, h]
    · simp [mapGet, hk] at h
      exact List.mem_cons_of_mem _ (ih h)

theorem mapGet_of_mem {β : Type} (m : List (String × β)) (k : String) (v : β)
    (hnd : (mapKeys m).Nodup) (h : (k, v) ∈ m) : mapGet m k = some v := by
  induction m with
  | nil => simp at h
  | cons p m ih =>
    obtain ⟨k0, v0⟩ := p
    simp only [mapKeys, List.map_cons, List.nodup_cons] at hnd
    rcases List.mem_cons.mp h with h1 | h1
    · simp only [Prod.mk.injEq] at h1
      simp [mapGet, h1.1, h1.2]
    · have hne : k0 ≠ k := by
        intro e
        apply hnd.1
        rw [e]
        exact List.mem_map.mpr ⟨(k, v), h1, rfl⟩
      simp only [mapGet, hne, if_false]
      exact ih hnd.2 h1

theorem mapKeys_mapSet {β : Type} (m : List (String × β)) (k : String) (v : β) (k2 : String) :
    k2 ∈ mapKeys (mapSet m k v) ↔ k2 = k ∨ k2 ∈ mapKeys m := by
  induction m with
  | nil => simp [mapSet, mapKeys]
  | cons p m ih =>
    obtain ⟨k0, v0⟩ := p
    by_cases h : k0 = k
    · subst h
      simp [mapSet, mapKeys]
    · simp only [mapKeys] at ih
      simp only [mapSet, h, if_false, mapKeys, List.map_cons, List.mem_cons, ih]
      tauto

theorem mapKeys_mapSet_nodup {β : Type} (m : List (String × β)) (k : String) (v : β)
    (hnd : (mapKeys m).Nodup) : (mapKeys (mapSet m k v)).Nodup := by
  induction m with
  | nil => simp [mapSet, mapKeys]
  | cons p m ih =>
    obtain ⟨k0, v0⟩ := p
    simp only [mapKeys, List.map_cons, List.nodup_cons] at hnd
    by_cases h : k0 = k
    · subst h
      simpa [mapSet, mapKeys] using hnd
    · simp only [mapSet, h, if_false, mapKeys, List.map_cons, List.nodup_cons]
      refine ⟨?_, ih hnd.2⟩
      intro hmem
      have := (mapKeys_mapSet m k v k0).mp hmem
      rcases this with e | e
      · exact h e
      · exact hnd.1 e

/-! ## RenewFreeDomain: the classification loop -/

theorem classifyRows_cons (w : Env) (domain : String) (m : List String) (rows : List (List String))
    (acc : List (String × String) × List (String × String)) :
    classifyRows w domain (m :: rows) acc = classifyRows w domain rows (classifyRow w domain acc m) :=
  rfl

theorem classifyRow_of_row (w : Env) (domain : String)
    (acc : List (String × String) × List (String × String)) (x name days id : String) :
    classifyRow w domain acc [x, name, days, id] =
      if TooEarly days then (mapSet acc.1 name "not in renewable day", acc.2)
      else if OutOfPlan w domain name then (mapSet acc.1 name "not in renew plan", acc.2)
      else (acc.1, mapSet acc.2 name id) := rfl

theorem classifyRow_of_not_row (w : Env) (domain : String)
    (acc : List (String × String) × List (String × String)) (m : List String)
    (h : rowName m = none) : classifyRow w domain acc m = acc := by
  unfold classifyRow
  split
  · simp [rowName] at h
  · rfl

theorem rowName_some {m : List String} {name : String} (h : rowName m = some name) :
    ∃ x days id, m = [x, name, days, id] := by
  unfold rowName at h
  split at h
  · rename_i x n d i
    simp at h
    exact ⟨x, d, i, by rw [h]⟩
  · simp at h

/-- A row does not touch the entries of other domain names. -/
theorem classifyRow_frame (w : Env) (domain : String)
    (acc : List (String × String) × List (String × String)) (m : List String) (name : String)
    (h : rowName m ≠ some name) :
    mapGet (classifyRow w domain acc m).1 name = mapGet acc.1 name ∧
    mapGet (classifyRow w domain acc m).2 name = mapGet acc.2 name := by
  cases hn : rowName m with
  | none => rw [classifyRow_of_not_row w domain acc m hn]; exact ⟨rfl, rfl⟩
  | some n =>
    obtain ⟨x, days, id, hm⟩ := rowName_some hn
    have hne : n ≠ name := by
      intro e; apply h; rw [hn, e]
    subst hm
    rw [classifyRow_of_row]
    split_ifs
    · exact ⟨mapGet_mapSet_other _ _ _ _ hne, rfl⟩
    · exact ⟨mapGet_mapSet_other _ _ _ _ hne, rfl⟩
    · exact ⟨rfl, mapGet_mapSet_other _ _ _ _ hne⟩

theorem classifyRows_frame (w : Env) (domain : String) (name : String) :
    ∀ (rows : List (List String)) (acc : List (String × String) × List (String × String)),
      name ∉ rows.filterMap rowName →
      mapGet (classifyRows w domain rows acc).1 name = mapGet acc.1 name ∧
      mapGet (classifyRows w domain rows acc).2 name = mapGet acc.2 name := by
  intro rows
  induction rows with
  | nil => intro acc _; exact ⟨rfl, rfl⟩
  | cons m rows ih =>
    intro acc hnot
    rw [classifyRows_cons]
    have h1 : rowName m ≠ some name := by
      intro e
      apply hnot
      simp [List.filterMap_cons, e]
    have h2 : name ∉ rows.filterMap rowName := by
      intro e
      apply hnot
      cases hn : rowName m <;> simp [List.filterMap_cons, hn, e]
    obtain ⟨a1, a2⟩ := ih (classifyRow w domain acc m) h2
    obtain ⟨b1, b2⟩ := classifyRow_frame w domain acc m name h1
    exact ⟨a1.trans b1, a2.trans b2⟩

/-- With pairwise distinct domain names in the listing, the entries of a
row's domain after the loop are those its own iteration wrote. -/
theorem classifyRows_row (w : Env) (domain : String) (x name days id : String) :
    ∀ (rows : List (List String)) (acc : List (String × String) × List (String × String)),
      (rows.filterMap rowName).Nodup → [x, name, days, id] ∈ rows →
      (TooEarly days →
        mapGet (classifyRows w domain rows acc).1 name = some "not in renewable day" ∧
        mapGet (classifyRows w domain rows acc).2 name = mapGet acc.2 name) ∧
      (¬ TooEarly days → OutOfPlan w domain name →
        mapGet (classifyRows w domain rows acc).1 name = some "not in renew plan" ∧
        mapGet (classifyRows w domain rows acc).2 name = mapGet acc.2 name) ∧
      (¬ TooEarly days → ¬ OutOfPlan w domain name →
        mapGet (classifyRows w domain rows acc).1 name = mapGet acc.1 name ∧
        mapGet (classifyRows w domain rows acc).2 name = some id) := by
  intro rows
  induction rows with
  | nil => intro acc _ h; simp at h
  | cons m rows ih =>
    intro acc hnd hmem
    rw [classifyRows_cons]
    rcases List.mem_cons.mp hmem with h | h
    · subst h
      have hnot : name ∉ rows.filterMap rowName := by
        simp only [List.filterMap_cons, rowName, List.nodup_cons] at hnd
        exact hnd.1
      obtain ⟨f1, f2⟩ := classifyRows_frame w domain name rows
        (classifyRow w domain acc [x, name, days, id]) hnot
      rw [f1, f2, classifyRow_of_row]
      refine ⟨fun h1 => ?_, fun h1 h2 => ?_, fun h1 h2 => ?_⟩
      · rw [if_pos h1]
        exact ⟨mapGet_mapSet_same _ _ _, rfl⟩
      · rw [if_neg h1, if_pos h2]
        exact ⟨mapGet_mapSet_same _ _ _, rfl⟩
      · rw [if_neg h1, if_neg h2]
        exact ⟨rfl, mapGet_mapSet_same _ _ _⟩
    · have hnd2 : (rows.filterMap rowName).Nodup := by
        cases hn : rowName m with
        | none => simpa [List.filterMap_cons, hn] using hnd
        | some n =>
          simp only [List.filterMap_cons, hn, List.nodup_cons] at hnd
          exact hnd.2
      have hm : rowName m ≠ some name := by
        intro e
        simp only [List.filterMap_cons, e, List.nodup_cons] at hnd
        apply hnd.1
        exact List.mem_filterMap.mpr ⟨[x, name, days, id], h, rfl⟩
      obtain ⟨b1, b2⟩ := classifyRow_frame w domain acc m name hm
      have := ih (classifyRow w domain acc m) hnd2 h
      rw [b1, b2] at this
      exact this

/-- Every entry of `domains` after the loop was there before or comes from
a row that is in the renewable window and in the renew plan. -/
theorem classifyRows_cands (w : Env) (domain : String) (name id : String) :
    ∀ (rows : List (List String)) (acc : List (String × String) × List (String × String)),
      mapGet (classifyRows w domain rows acc).2 name = some id →
      mapGet acc.2 name = some id ∨
      ∃ x days, [x, name, days, id] ∈ rows ∧ ¬ TooEarly days ∧ ¬ OutOfPlan w domain name := by
  intro rows
  induction rows with
  | nil => intro acc h; exact Or.inl h
  | cons m rows ih =>
    intro acc h
    rw [classifyRows_cons] at h
    rcases ih _ h with h1 | ⟨x, days, hmem, h2, h3⟩
    · cases hn : rowName m with
      | none =>
        rw [classifyRow_of_not_row w domain acc m hn] at h1
        exact Or.inl h1
      | some n =>
        obtain ⟨x, days, id2, hm⟩ := rowName_some hn
        subst hm
        rw [classifyRow_of_row] at h1
        split_ifs at h1 with c1 c2
        · exact Or.inl h1
        · exact Or.inl h1
        · by_cases hk : n = name
          · subst hk
            simp only [mapGet_mapSet_same, Option.some.injEq] at h1
            subst h1
            exact Or.inr ⟨x, days, List.mem_cons_self _ _, c1, c2⟩
          · simp only [mapGet_mapSet_other _ _ _ _ hk] at h1
            exact Or.inl h1
    · exact Or.inr ⟨x, days, List.mem_cons_of_mem _ hmem, h2, h3⟩

theorem classifyRows_nodup (w : Env) (domain : String) :
    ∀ (rows : List (List String)) (acc : List (String × String) × List (String × String)),
      (mapKeys acc.2).Nodup → (mapKeys (classifyRows w domain rows acc).2).Nodup := by
  intro rows
  induction rows with
  | nil => intro acc h; exact h
  | cons m rows ih =>
    intro acc h
    rw [classifyRows_cons]
    apply ih
    cases hn : rowName m with
    | none => rw [classifyRow_of_not_row w domain acc m hn]; exact h
    | some n =>
      obtain ⟨x, days, id2, hm⟩ := rowName_some hn
      subst hm
      rw [classifyRow_of_row]
      split_ifs
      · exact h
      · exact h
      · exact mapKeys_mapSet_nodup _ _ _ h

/-! ## RenewFreeDomain: the submission loop -/

theorem attemptBody_some {a : Attempt} {b : String} (h : attemptBody a = some b) :
    a = Attempt.resp 200 (Except.ok b) := by
  unfold attemptBody at h
  split at h
  · rename_i code all
    by_cases hc : code = 200
    · simp [hc] at h; rw [hc, h]
    · simp [hc] at h
  · simp at h

theorem perform_body (w : Env) (op step : String) (req : Request) (s : State) (b : String)
    (h : attemptBody (w.attempt s.attempts) = some b) :
    perform w op step req s
      = (Except.ok b, { s with attempts := s.attempts + 1, sent := s.sent ++ [req] }) := by
  unfold perform
  rw [attemptBody_some h]
  simp

theorem perform_no_body (w : Env) (op step : String) (req : Request) (s : State)
    (h : attemptBody (w.attempt s.attempts) = none) :
    ∃ e s1, perform w op step req s = (Except.error e, s1) := by
  cases hp : perform w op step req s with
  | mk r s1 =>
    cases r with
    | error e => exact ⟨e, s1, rfl⟩
    | ok b =>
      obtain ⟨hw, _⟩ := perform_ok hp
      rw [hw] at h
      simp [attemptBody] at h

theorem renewVerdict_cases (b : String) :
    renewVerdict b = "renew failed" ∨ renewVerdict b = "renew success" := by
  unfold renewVerdict
  split_ifs
  · exact Or.inl rfl
  · exact Or.inr rfl

theorem submitRenewals_cons_body (w : Env) (months : Int) (name id : String)
    (rest renewed : List (String × String)) (s : State) (b : String)
    (h : attemptBody (w.attempt s.attempts) = some b) :
    submitRenewals w months ((name, id) :: rest) renewed s =
      submitRenewals w months rest (mapSet renewed name (renewVerdict b))
        { s with attempts := s.attempts + 1,
                 sent := s.sent ++ [submitRenewalRequest s.token s.jar id months] } := by
  conv_lhs => unfold submitRenewals
  rw [perform_body w _ _ _ s b h]
  simp only [renewVerdict]
  split_ifs <;> rfl

theorem submitRenewals_cons_no_body (w : Env) (months : Int) (name id : String)
    (rest renewed : List (String × String)) (s : State)
    (h : attemptBody (w.attempt s.attempts) = none) :
    ∃ e s1, submitRenewals w months ((name, id) :: rest) renewed s = Res.ret renewed (some e) s1 ∧
      SameGlobals s s1 ∧ s1.attempts = s.attempts + 1 ∧
      (s1.sent = s.sent ∨ s1.sent = s.sent ++ [submitRenewalRequest s.token s.jar id months]) := by
  obtain ⟨e, s1, hp⟩ := perform_no_body w "RenewFreeDomain" (" SubmitRenewals " ++ name)
    (submitRenewalRequest s.token s.jar id months) s h
  refine ⟨e, s1, ?_, perform_error hp⟩
  conv_lhs => unfold submitRenewals
  rw [hp]

theorem submitRenewals_spec (w : Env) (months : Int) :
    ∀ (cands renewed : List (String × String)) (s : State),
      ∃ renewed2 err s2 extra,
        submitRenewals w months cands renewed s = Res.ret renewed2 err s2 ∧
        Submitted w months cands renewed s renewed2 err s2 extra := by
  intro cands
  induction cands with
  | nil =>
    intro renewed s
    refine ⟨renewed, none, s, [], rfl, ⟨sameGlobals_refl s, le_refl _, by simp, by simp, ?_,
      fun _ _ => rfl, fun _ => Or.inl rfl, ?_⟩⟩
    · intro req h; simp at h
    · intro _; exact ⟨by simp, fun p hp => by simp at hp⟩
  | cons c rest ih =>
    intro renewed s
    obtain ⟨name, id⟩ := c
    cases hb : attemptBody (w.attempt s.attempts) with
    | none =>
      obtain ⟨e, s1, hrun, hg, ha, hsent⟩ := submitRenewals_cons_no_body w months name id rest renewed s hb
      rcases hsent with h | h
      · exact ⟨renewed, some e, s1, [], hrun, ⟨hg, by omega, by simp [ha], by simp [h],
          fun req hr => by simp at hr, fun _ _ => rfl, fun _ => Or.inl rfl, fun h => by simp at h⟩⟩
      · refine ⟨renewed, some e, s1, [submitRenewalRequest s.token s.jar id months], hrun,
          ⟨hg, by omega, by simp [ha], h, fun req hr => ?_, fun _ _ => rfl, fun _ => Or.inl rfl,
           fun h => by simp at h⟩⟩
        simp only [List.mem_singleton] at hr
        exact ⟨(name, id), List.mem_cons_self _ _, hr⟩
    | some b =>
      rw [submitRenewals_cons_body w months name id rest renewed s b hb]
      obtain ⟨renewed2, err, s2, extra, hrun, hspec⟩ := ih (mapSet renewed name (renewVerdict b))
        { s with attempts := s.attempts + 1,
                 sent := s.sent ++ [submitRenewalRequest s.token s.jar id months] }
      have hhead : mapGet renewed2 name = some "renew failed" ∨
          mapGet renewed2 name = some "renew success" := by
        rcases hspec.values name with h | h
        · rw [h, mapGet_mapSet_same]
          rcases renewVerdict_cases b with h2 | h2
          · exact Or.inl (by rw [h2])
          · exact Or.inr (by rw [h2])
        · exact h
      refine ⟨renewed2, err, s2, submitRenewalRequest s.token s.jar id months :: extra, hrun,
        ⟨hspec.globals, ?_, ?_, ?_, ?_, ?_, ?_, ?_⟩⟩
      · have := hspec.attempts_ge; simp only at this; omega
      · have := hspec.attempts_le; simp only [List.length_cons] at *; omega
      · rw [hspec.sent_eq]; simp
      · intro req hr
        rcases List.mem_cons.mp hr with h | h
        · exact ⟨(name, id), List.mem_cons_self _ _, h⟩
        · obtain ⟨p, hp1, hp2⟩ := hspec.sent_from req h
          exact ⟨p, List.mem_cons_of_mem _ hp1, hp2⟩
      · intro n hn
        have hn1 : name ≠ n := by
          intro e; apply hn; simp [mapKeys, e]
        have hn2 : n ∉ mapKeys rest := by
          intro e; apply hn; simp only [mapKeys, List.map_cons, List.mem_cons]
          exact Or.inr e
        rw [hspec.frame n hn2, mapGet_mapSet_other _ _ _ _ hn1]
      · intro n
        by_cases hn : name = n
        · subst hn; exact Or.inr hhead
        · rcases hspec.values n with h | h
          · left; rw [h, mapGet_mapSet_other _ _ _ _ hn]
          · right; exact h
      · intro herr
        obtain ⟨h1, h2⟩ := hspec.complete herr
        refine ⟨by simp only [List.length_cons] at *; omega, ?_⟩
        intro p hp
        rcases List.mem_cons.mp hp with h | h
        · subst h
          exact ⟨List.mem_cons_self _ _, hhead⟩
        · obtain ⟨h3, h4⟩ := h2 p h
          exact ⟨List.mem_cons_of_mem _ h3, h4⟩

theorem submitRenewals_at (w : Env) (months : Int) :
    ∀ (cands renewed : List (String × String)) (s : State) (i : Nat) (name id : String),
      cands.get? i = some (name, id) → (mapKeys cands).Nodup →
      (∀ j, j < i → (attemptBody (w.attempt (s.attempts + j))).isSome) →
      ∃ renewed2 err s2, submitRenewals w months cands renewed s = Res.ret renewed2 err s2 ∧
        s2.attempts ≤ s.attempts + cands.length ∧
        (attemptBody (w.attempt (s.attempts + i)) = none →
          (∃ e, err = some e) ∧ s2.attempts = s.attempts + i + 1) ∧
        (∀ b, attemptBody (w.attempt (s.attempts + i)) = some b →
          s2.sent.get? (s.sent.length + i) = some (submitRenewalRequest s.token s.jar id months) ∧
          mapGet renewed2 name = some (renewVerdict b)) := by
  intro cands
  induction cands with
  | nil => intro renewed s i name id h; simp at h
  | cons c rest ih =>
    intro renewed s i name id hget hnd hprev
    obtain ⟨name0, id0⟩ := c
    simp only [mapKeys, List.map_cons, List.nodup_cons] at hnd
    cases i with
    | zero =>
      simp only [List.get?_cons_zero, Option.some.injEq, Prod.mk.injEq] at hget
      obtain ⟨e1, e2⟩ := hget
      subst e1; subst e2
      cases hb : attemptBody (w.attempt s.attempts) with
      | none =>
        obtain ⟨e, s1, hrun, _, ha, _⟩ :=
          submitRenewals_cons_no_body w months name0 id0 rest renewed s hb
        refine ⟨renewed, some e, s1, hrun, by simp [ha], ?_, ?_⟩
        · intro _; exact ⟨⟨e, rfl⟩, by simp [ha]⟩
        · intro b h; simp [hb] at h
      | some b =>
        rw [submitRenewals_cons_body w months name0 id0 rest renewed s b hb]
        obtain ⟨renewed2, err, s2, extra, hrun, hspec⟩ :=
          submitRenewals_spec w months rest (mapSet renewed name0 (renewVerdict b))
            { s with attempts := s.attempts + 1,
                     sent := s.sent ++ [submitRenewalRequest s.token s.jar id0 months] }
        refine ⟨renewed2, err, s2, hrun, ?_, ?_, ?_⟩
        · have := hspec.attempts_le; simp only [List.length_cons] at *; omega
        · intro h; simp [hb] at h
        · intro b2 h2
          simp only [Nat.add_zero, hb, Option.some.injEq] at h2
          subst h2
          refine ⟨?_, ?_⟩
          · rw [hspec.sent_eq, List.get?_eq_getElem?, List.append_assoc,
              List.getElem?_append_right (by omega)]
            simp
          · rw [hspec.frame name0 hnd.1, mapGet_mapSet_same]
    | succ j =>
      simp only [List.get?_cons_succ] at hget
      have h0 := hprev 0 (Nat.succ_pos j)
      simp only [Nat.add_zero] at h0
      obtain ⟨b0, hb0⟩ := Option.isSome_iff_exists.mp h0
      rw [submitRenewals_cons_body w months name0 id0 rest renewed s b0 hb0]
      have hprev2 : ∀ k, k < j → (attemptBody (w.attempt (s.attempts + 1 + k))).isSome := by
        intro k hk
        have := hprev (k + 1) (by omega)
        rw [show s.attempts + (k + 1) = s.attempts + 1 + k by omega] at this
        exact this
      obtain ⟨renewed2, err, s2, hrun, h1, h2, h3⟩ :=
        ih (mapSet renewed name0 (renewVerdict b0))
          { s with attempts := s.attempts + 1,
                   sent := s.sent ++ [submitRenewalRequest s.token s.jar id0 months] }
          j name id hget hnd.2 hprev2
      simp only at h1 h2 h3
      rw [show s.attempts + 1 + j = s.attempts + (j + 1) by omega] at h2 h3
      refine ⟨renewed2, err, s2, hrun, ?_, ?_, ?_⟩
      · simp only [List.length_cons]; omega
      · intro h
        obtain ⟨a, b⟩ := h2 h
        exact ⟨a, by omega⟩
      · intro b hb
        obtain ⟨a, c⟩ := h3 b hb
        refine ⟨?_, c⟩
        rw [← a]
        simp only [List.length_append, List.length_singleton]
        rw [show s.sent.length + (j + 1) = s.sent.length + 1 + j by omega]

theorem RenewFreeDomain_of_listing (w : Env) (domain : String) (months : Int) (s s1 : State)
    (all : String) (hjar : s.jar ≠ none) (hm : 1 ≤ months ∧ months ≤ 12)
    (hfetch : fetch w "RenewFreeDomain" " Renewals" (renewalsRequest s.jar) retryTimes 0 s
      = Fetched.body all s1) :
    RenewFreeDomain w domain months s =
      submitRenewals w months (w.rangeOrder (renewCandidates w domain all))
        (classifyRows w domain (w.reRenewRow all) ([], [])).1 s1 := by
  unfold RenewFreeDomain
  cases hj : s.jar with
  | none => exact absurd hj hjar
  | some j =>
    have hm2 : ¬ (months < 1 ∨ months > 12) := by omega
    simp only [hm2, if_false]
    rw [hj] at hfetch
    rw [hfetch]
    rfl

theorem fetch_body_globals {w : Env} {op step : String} {req : Request} {s s1 : State}
    {all : String} (h : fetch w op step req retryTimes 0 s = Fetched.body all s1) :
    Stepped req s s1 := by
  rcases fetch_total w op step req s with ⟨all2, s2, h1, h2, _, _⟩ | ⟨e, s2, h1, _⟩
  · rw [h1] at h
    simp only [Fetched.body.injEq] at h
    rw [← h.2]; exact h2
  · rw [h1] at h; simp at h

/-- C3 (amended): for a renewals listing whose rows carry pairwise distinct
domain names, every filter and every months in [1,12]: a row with more than 14
days until expiry gets exactly the result "not in renewable day"; a row within
14 days that the non-empty filter does not match, letter case aside, gets
exactly "not in renew plan"; every other row is a candidate (it is in the map
of rows to renew with its renewal ID), and when RenewFreeDomain returns nil its
renewal was submitted and its result is "renew failed" or "renew success".
Every request sent after the listing is the renewal of a row that is within 14
days and in the plan, so no renewal is submitted for the rows of the first two
kinds. 15 days is outside the window and 14 days is inside. -/
theorem C3_renew_classification (w : Env) (domain : String) (months : Int) (s s1 : State)
    (all : String) (hjar : s.jar ≠ none) (hm : 1 ≤ months ∧ months ≤ 12)
    (hfetch : fetch w "RenewFreeDomain" " Renewals" (renewalsRequest s.jar) retryTimes 0 s
      = Fetched.body all s1)
    (hrange : (w.rangeOrder (renewCandidates w domain all)).Perm (renewCandidates w domain all))
    (hnames : ((w.reRenewRow all).filterMap rowName).Nodup) :
    ∃ renewed err s2 extra,
      RenewFreeDomain w domain months s = Res.ret renewed err s2 ∧
      s2.sent = s1.sent ++ extra ∧
      (∀ req ∈ extra, ∃ x name days id, [x, name, days, id] ∈ w.reRenewRow all ∧
        ¬ TooEarly days ∧ ¬ OutOfPlan w domain name ∧
        req = submitRenewalRequest s.token s.jar id months) ∧
      (∀ x name days id, [x, name, days, id] ∈ w.reRenewRow all →
        (TooEarly days → mapGet renewed name = some "not in renewable day") ∧
        (¬ TooEarly days → OutOfPlan w domain name →
          mapGet renewed name = some "not in renew plan") ∧
        (¬ TooEarly days → ¬ OutOfPlan w domain name →
          mapGet (renewCandidates w domain all) name = some id ∧
          (err = none → submitRenewalRequest s.token s.jar id months ∈ extra ∧
            (mapGet renewed name = some "renew failed" ∨
             mapGet renewed name = some "renew success")))) ∧
      TooEarly "15" ∧ ¬ TooEarly "14" := by
  rw [RenewFreeDomain_of_listing w domain months s s1 all hjar hm hfetch]
  obtain ⟨renewed, err, s2, extra, hrun, hspec⟩ :=
    submitRenewals_spec w months (w.rangeOrder (renewCandidates w domain all))
      (classifyRows w domain (w.reRenewRow all) ([], [])).1 s1
  have hg := (fetch_body_globals hfetch).globals
  have hreq : ∀ id, submitRenewalRequest s1.token s1.jar id months
      = submitRenewalRequest s.token s.jar id months := by
    intro id; rw [hg.1, hg.2.1]
  have hnd : (mapKeys (renewCandidates w domain all)).Nodup :=
    classifyRows_nodup w domain (w.reRenewRow all) ([], []) (by simp [mapKeys])
  have hkeys : ∀ n, n ∈ mapKeys (w.rangeOrder (renewCandidates w domain all)) ↔
      n ∈ mapKeys (renewCandidates w domain all) := by
    intro n
    exact (hrange.map Prod.fst).mem_iff
  refine ⟨renewed, err, s2, extra, hrun, hspec.sent_eq, ?_, ?_, by decide, by decide⟩
  · intro req hr
    obtain ⟨p, hp1, hp2⟩ := hspec.sent_from req hr
    have hp3 : p ∈ renewCandidates w domain all := hrange.mem_iff.mp hp1
    have hget := mapGet_of_mem _ p.1 p.2 hnd hp3
    rcases classifyRows_cands w domain p.1 p.2 (w.reRenewRow all) ([], []) hget with h | h
    · simp [mapGet] at h
    · obtain ⟨x, days, h1, h2, h3⟩ := h
      exact ⟨x, p.1, days, p.2, h1, h2, h3, by rw [hp2, hreq]⟩
  · intro x name days id hrow
    obtain ⟨r1, r2, r3⟩ := classifyRows_row w domain x name days id (w.reRenewRow all) ([], [])
      hnames hrow
    have hout : ∀ v, mapGet (classifyRows w domain (w.reRenewRow all) ([], [])).1 name = some v →
        mapGet (classifyRows w domain (w.reRenewRow all) ([], [])).2 name = mapGet [] name →
        mapGet renewed name = some v := by
      intro v h1 h2
      have hno : name ∉ mapKeys (w.rangeOrder (renewCandidates w domain all)) := by
        rw [hkeys]
        exact (mapGet_none_iff _ _).mp (by unfold renewCandidates; rw [h2]; rfl)
      rw [hspec.frame name hno, h1]
    refine ⟨fun h => ?_, fun h h2 => ?_, fun h h2 => ?_⟩
    · exact hout _ (r1 h).1 (r1 h).2
    · exact hout _ (r2 h h2).1 (r2 h h2).2
    · refine ⟨(r3 h h2).2, fun herr => ?_⟩
      have hmem : (name, id) ∈ w.rangeOrder (renewCandidates w domain all) :=
        hrange.mem_iff.mpr (mem_of_mapGet _ _ _ (r3 h h2).2)
      obtain ⟨a, b⟩ := (hspec.complete herr).2 (name, id) hmem
      exact ⟨by rw [← hreq]; exact a, b⟩

/-- C4: in RenewFreeDomain, after the listing was received in state `s1`, the
candidate visited i-th by `range` is submitted in attempt number
`s1.attempts + i` and in no other (at most one attempt per candidate is made),
provided the submissions before it were answered. If that attempt fails (the
request cannot be built or sent, the status is not 200, or the body cannot be
read) RenewFreeDomain returns an error and that attempt is the last one made.
Otherwise the candidate's result is "renew failed" when the body contains
"Order Confirmation" and "renew success" when it does not. -/
theorem C4_renewal_submission (w : Env) (domain : String) (months : Int) (s s1 : State)
    (all : String) (i : Nat) (name id : String)
    (hjar : s.jar ≠ none) (hm : 1 ≤ months ∧ months ≤ 12)
    (hfetch : fetch w "RenewFreeDomain" " Renewals" (renewalsRequest s.jar) retryTimes 0 s
      = Fetched.body all s1)
    (hrange : (mapKeys (w.rangeOrder (renewCandidates w domain all))).Nodup)
    (hi : (w.rangeOrder (renewCandidates w domain all)).get? i = some (name, id))
    (hprev : ∀ j, j < i → (attemptBody (w.attempt (s1.attempts + j))).isSome) :
    ∃ renewed err s2,
      RenewFreeDomain w domain months s = Res.ret renewed err s2 ∧
      s2.attempts ≤ s1.attempts + (w.rangeOrder (renewCandidates w domain all)).length ∧
      (attemptBody (w.attempt (s1.attempts + i)) = none →
        (∃ e, err = some e) ∧ s2.attempts = s1.attempts + i + 1) ∧
      (∀ b, attemptBody (w.attempt (s1.attempts + i)) = some b →
        s2.sent.get? (s1.sent.length + i) = some (submitRenewalRequest s.token s.jar id months) ∧
        mapGet renewed name =
          some (if containsBytes b "Order Confirmation" then "renew failed" else "renew success")) := by
  rw [RenewFreeDomain_of_listing w domain months s s1 all hjar hm hfetch]
  have hg := (fetch_body_globals hfetch).globals
  obtain ⟨renewed, err, s2, hrun, h1, h2, h3⟩ :=
    submitRenewals_at w months (w.rangeOrder (renewCandidates w domain all))
      (classifyRows w domain (w.reRenewRow all) ([], [])).1 s1 i name id hi hrange hprev
  refine ⟨renewed, err, s2, hrun, h1, h2, ?_⟩
  intro b hb
  obtain ⟨a, c⟩ := h3 b hb
  rw [hg.1, hg.2.1] at a
  exact ⟨a, c⟩

set_option maxRecDepth 100000 in
/-- C3 fails as stated on two inputs. (1) The listing `listingDup` has the
rows (a.tk, 15 days, ID 1001) and (a.tk, 3 days, ID 1002): the first is outside
the window, yet the result recorded for its domain is "renew success", because
the results are keyed by domain name and the second row overwrote it. (2) With
the listing `listingTwo` both rows are candidates, but the submission for b.tk
fails in `client.Do`: RenewFreeDomain returns the error and no renewal is
submitted for c.tk, which has no result. -/
theorem C3_counterexample :
    (envRenewDup.reRenewRow listingDup =
        [[renewRowMatch "a.tk" "15" "1001", "a.tk", "15", "1001"],
         [renewRowMatch "a.tk" "3" "1002", "a.tk", "3", "1002"]] ∧
      TooEarly "15" ∧
      RenewFreeDomain envRenewDup "" 12 stateIn =
        Res.ret [("a.tk", "renew success")] none (stateSubmitted "1002")) ∧
    (envRenewAbort.reRenewRow listingTwo =
        [[renewRowMatch "b.tk" "3" "2001", "b.tk", "3", "2001"],
         [renewRowMatch "c.tk" "5" "2002", "c.tk", "5", "2002"]] ∧
      ¬ TooEarly "5" ∧ ¬ OutOfPlan envRenewAbort "" "c.tk" ∧
      RenewFreeDomain envRenewAbort "" 12 stateIn =
        Res.ret [] (some "RenewFreeDomain Do SubmitRenewals b.tk err: dial tcp: i/o timeout")
          (stateSubmitted "2001")) := by
  decide

set_option maxRecDepth 100000 in
theorem C3_renew_classification_witness :
    ∃ renewed err s2 extra,
      RenewFreeDomain envRenewTwo "C.TK" 12 stateIn = Res.ret renewed err s2 ∧
      s2.sent = stateListed.sent ++ extra ∧
      (∀ req ∈ extra, ∃ x name days id, [x, name, days, id] ∈ envRenewTwo.reRenewRow listingTwo ∧
        ¬ TooEarly days ∧ ¬ OutOfPlan envRenewTwo "C.TK" name ∧
        req = submitRenewalRequest stateIn.token stateIn.jar id 12) ∧
      (∀ x name days id, [x, name, days, id] ∈ envRenewTwo.reRenewRow listingTwo →
        (TooEarly days → mapGet renewed name = some "not in renewable day") ∧
        (¬ TooEarly days → OutOfPlan envRenewTwo "C.TK" name →
          mapGet renewed name = some "not in renew plan") ∧
        (¬ TooEarly days → ¬ OutOfPlan envRenewTwo "C.TK" name →
          mapGet (renewCandidates envRenewTwo "C.TK" listingTwo) name = some id ∧
          (err = none → submitRenewalRequest stateIn.token stateIn.jar id 12 ∈ extra ∧
            (mapGet renewed name = some "renew failed" ∨
             mapGet renewed name = some "renew success")))) ∧
      TooEarly "15" ∧ ¬ TooEarly "14" :=
  C3_renew_classification envRenewTwo "C.TK" 12 stateIn stateListed listingTwo (by decide)
    (by decide) (by decide) (List.Perm.refl _) (by decide)

set_option maxRecDepth 100000 in
theorem C4_renewal_submission_witness :
    ∃ renewed err s2,
      RenewFreeDomain envRenewTwo "" 12 stateIn = Res.ret renewed err s2 ∧
      s2.attempts ≤ stateListed.attempts
        + (envRenewTwo.rangeOrder (renewCandidates envRenewTwo "" listingTwo)).length ∧
      (attemptBody (envRenewTwo.attempt (stateListed.attempts + 1)) = none →
        (∃ e, err = some e) ∧ s2.attempts = stateListed.attempts + 1 + 1) ∧
      (∀ b, attemptBody (envRenewTwo.attempt (stateListed.attempts + 1)) = some b →
        s2.sent.get? (stateListed.sent.length + 1)
          = some (submitRenewalRequest stateIn.token stateIn.jar "2002" 12) ∧
        mapGet renewed "c.tk" =
          some (if containsBytes b "Order Confirmation" then "renew failed" else "renew success")) :=
  C4_renewal_submission envRenewTwo "" 12 stateIn stateListed listingTwo 1 "c.tk" "2002"
    (by decide) (by decide) (by decide) (by decide) (by decide)
    (fun j hj => by
      have h0 : j = 0 := by omega
      subst h0
      decide)

/-! ## ListDomains: the merge loop -/

theorem cacheGet_eq (s : State) (d : String) : cacheGet s d = mapGet (cacheOf s) d := by
  unfold cacheGet cacheOf
  cases s.domainInfoMap <;> rfl

theorem keptMap_refl (c : List (String × DomainInfo)) : KeptMap c c :=
  ⟨fun _ info h => ⟨info, h, rfl⟩, fun d info2 h h2 => by rw [h] at h2; simp at h2⟩

theorem keptMap_trans {a b c : List (String × DomainInfo)} (h1 : KeptMap a b) (h2 : KeptMap b c) :
    KeptMap a c := by
  refine ⟨fun d info h => ?_, fun d info2 h h3 => ?_⟩
  · obtain ⟨i1, g1, e1⟩ := h1.1 d info h
    obtain ⟨i2, g2, e2⟩ := h2.1 d i1 g1
    exact ⟨i2, g2, e2.trans e1⟩
  · cases hb : mapGet b d with
    | none => exact h2.2 d info2 hb h3
    | some i1 =>
      obtain ⟨i2, g2, e2⟩ := h2.1 d i1 hb
      rw [h3] at g2
      simp only [Option.some.injEq] at g2
      rw [g2, e2]
      exact h1.2 d i1 h hb

theorem mergeRows_cons (m : List String) (rows : List (List String))
    (acc : List (String × String) × List (String × DomainInfo)) :
    mergeRows (m :: rows) acc = mergeRows rows (mergeRow acc m) := rfl

theorem mergeRow_of_not_row (acc : List (String × String) × List (String × DomainInfo))
    (m : List String) (h : listName m = none) : mergeRow acc m = acc := by
  unfold mergeRow
  split
  · simp [listName] at h
  · rfl

theorem listName_some {m : List String} {d : String} (h : listName m = some d) :
    ∃ x reg exp id, m = [x, d, reg, exp, id] := by
  unfold listName at h
  split at h
  · rename_i x n r e i
    simp at h
    exact ⟨x, r, e, i, by rw [h]⟩
  · simp at h

/-- The entry a row writes: the row's ID and dates, with the records of the
entry that was cached, if any. -/
theorem mergeRow_of_row (acc : List (String × String) × List (String × DomainInfo))
    (x domain regDate expDate domainID : String) :
    ∃ info, (mergeRow acc [x, domain, regDate, expDate, domainID])
        = (mapSet acc.1 domain expDate, mapSet acc.2 domain info) ∧
      info.Domain = domain ∧ info.DomainID = domainID ∧ info.RegDate = regDate ∧
      info.ExpDate = expDate ∧
      info.Records = (match mapGet acc.2 domain with
        | some v => v.Records
        | none => []) := by
  cases h : mapGet acc.2 domain with
  | none =>
    refine ⟨{ Domain := domain, DomainID := domainID, RegDate := regDate, ExpDate := expDate,
              Records := [] }, ?_, rfl, rfl, rfl, rfl, rfl⟩
    simp [mergeRow, h]
  | some v =>
    refine ⟨{ Domain := domain, DomainID := domainID, RegDate := regDate, ExpDate := expDate,
              Records := v.Records }, ?_, rfl, rfl, rfl, rfl, rfl⟩
    simp [mergeRow, h]

theorem mergeRow_frame (acc : List (String × String) × List (String × DomainInfo))
    (m : List String) (d : String) (h : listName m ≠ some d) :
    mapGet (mergeRow acc m).1 d = mapGet acc.1 d ∧ mapGet (mergeRow acc m).2 d = mapGet acc.2 d := by
  cases hn : listName m with
  | none => rw [mergeRow_of_not_row acc m hn]; exact ⟨rfl, rfl⟩
  | some n =>
    obtain ⟨x, reg, exp, id, hm⟩ := listName_some hn
    have hne : n ≠ d := by
      intro e; apply h; rw [hn, e]
    subst hm
    obtain ⟨info, he, _⟩ := mergeRow_of_row acc x n reg exp id
    rw [he]
    exact ⟨mapGet_mapSet_other _ _ _ _ hne, mapGet_mapSet_other _ _ _ _ hne⟩

theorem mergeRows_frame (d : String) :
    ∀ (rows : List (List String)) (acc : List (String × String) × List (String × DomainInfo)),
      d ∉ rows.filterMap listName →
      mapGet (mergeRows rows acc).1 d = mapGet acc.1 d ∧
      mapGet (mergeRows rows acc).2 d = mapGet acc.2 d := by
  intro rows
  induction rows with
  | nil => intro acc _; exact ⟨rfl, rfl⟩
  | cons m rows ih =>
    intro acc hnot
    rw [mergeRows_cons]
    have h1 : listName m ≠ some d := by
      intro e
      apply hnot
      simp [List.filterMap_cons, e]
    have h2 : d ∉ rows.filterMap listName := by
      intro e
      apply hnot
      cases hn : listName m <;> simp [List.filterMap_cons, hn, e]
    obtain ⟨a1, a2⟩ := ih (mergeRow acc m) h2
    obtain ⟨b1, b2⟩ := mergeRow_frame acc m d h1
    exact ⟨a1.trans b1, a2.trans b2⟩

theorem mergeRow_kept (acc : List (String × String) × List (String × DomainInfo))
    (m : List String) : KeptMap acc.2 (mergeRow acc m).2 := by
  cases hn : listName m with
  | none => rw [mergeRow_of_not_row acc m hn]; exact keptMap_refl _
  | some n =>
    obtain ⟨x, reg, exp, id, hm⟩ := listName_some hn
    subst hm
    obtain ⟨info, he, _, _, _, _, hrec⟩ := mergeRow_of_row acc x n reg exp id
    rw [he]
    refine ⟨fun d i h => ?_, fun d i2 h h2 => ?_⟩
    · by_cases hd : n = d
      · subst hd
        refine ⟨info, mapGet_mapSet_same _ _ _, ?_⟩
        rw [hrec, h]
      · exact ⟨i, by simp only [mapGet_mapSet_other _ _ _ _ hd]; exact h, rfl⟩
    · by_cases hd : n = d
      · subst hd
        simp only [mapGet_mapSet_same, Option.some.injEq] at h2
        rw [← h2, hrec, h]
      · simp only [mapGet_mapSet_other _ _ _ _ hd] at h2
        rw [h] at h2
        simp at h2

theorem mergeRows_kept :
    ∀ (rows : List (List String)) (acc : List (String × String) × List (String × DomainInfo)),
      KeptMap acc.2 (mergeRows rows acc).2 := by
  intro rows
  induction rows with
  | nil => intro acc; exact keptMap_refl _
  | cons m rows ih =>
    intro acc
    rw [mergeRows_cons]
    exact keptMap_trans (mergeRow_kept acc m) (ih _)

/-- The last row of a domain name decides the entry and the returned date. -/
theorem mergeRows_last (pre post : List (List String)) (x domain regDate expDate domainID : String)
    (acc : List (String × String) × List (String × DomainInfo))
    (hlast : domain ∉ post.filterMap listName) :
    mapGet (mergeRows (pre ++ [x, domain, regDate, expDate, domainID] :: post) acc).1 domain
      = some expDate ∧
    ∃ info, mapGet (mergeRows (pre ++ [x, domain, regDate, expDate, domainID] :: post) acc).2 domain
        = some info ∧
      info.Domain = domain ∧ info.DomainID = domainID ∧ info.RegDate = regDate ∧
      info.ExpDate = expDate := by
  have hsplit : mergeRows (pre ++ [x, domain, regDate, expDate, domainID] :: post) acc
      = mergeRows post (mergeRow (mergeRows pre acc) [x, domain, regDate, expDate, domainID]) := by
    unfold mergeRows
    rw [List.foldl_append, List.foldl_cons]
  rw [hsplit]
  obtain ⟨f1, f2⟩ := mergeRows_frame domain post
    (mergeRow (mergeRows pre acc) [x, domain, regDate, expDate, domainID]) hlast
  obtain ⟨info, he, h1, h2, h3, h4, _⟩ :=
    mergeRow_of_row (mergeRows pre acc) x domain regDate expDate domainID
  rw [f1, f2, he]
  exact ⟨mapGet_mapSet_same _ _ _, info, mapGet_mapSet_same _ _ _, h1, h2, h3, h4⟩

theorem ListDomains_of_page (w : Env) (s s1 : State) (j : Jar) (all : String)
    (hjar : s.jar = some j)
    (hfetch : fetch w "ListDomains" "" (listDomainsRequest (some j)) retryTimes 0 s
      = Fetched.body all s1) :
    ListDomains w s = Res.ret (mergeRows (w.reDomainRow all) ([], cacheOf s)).1 none
      { s1 with domainInfoMap := some (mergeRows (w.reDomainRow all) ([], cacheOf s)).2 } := by
  have hg := (fetch_body_globals hfetch).globals
  have hc : cacheOf s1 = cacheOf s := by unfold cacheOf; rw [hg.2.2]
  unfold ListDomains
  rw [hjar]
  simp only [hfetch]
  rw [← hc]
  rfl

/-- C10: when ListDomains receives the domain-list page `all`, it returns nil
and merges the page into the cache. For the last row of each domain name on the
page, the cache entry of that domain holds the row's internal ID, registration
date and expiry date, and the returned map gives the expiry date (so the last
row wins when a name is repeated). Every entry that was cached is still cached
with the same DNS record sequence; an entry whose domain is not on the page is
unchanged; no entry is removed. -/
theorem C10_list_domains_merge (w : Env) (s s1 : State) (j : Jar) (all : String)
    (hjar : s.jar = some j)
    (hfetch : fetch w "ListDomains" "" (listDomainsRequest (some j)) retryTimes 0 s
      = Fetched.body all s1) :
    ∃ domains s2, ListDomains w s = Res.ret domains none s2 ∧
      (∀ pre post x domain regDate expDate domainID,
        w.reDomainRow all = pre ++ [x, domain, regDate, expDate, domainID] :: post →
        domain ∉ post.filterMap listName →
        mapGet domains domain = some expDate ∧
        ∃ info, cacheGet s2 domain = some info ∧ info.Domain = domain ∧
          info.DomainID = domainID ∧ info.RegDate = regDate ∧ info.ExpDate = expDate) ∧
      (∀ d info, cacheGet s d = some info →
        ∃ info2, cacheGet s2 d = some info2 ∧ info2.Records = info.Records) ∧
      (∀ d, d ∉ (w.reDomainRow all).filterMap listName → cacheGet s2 d = cacheGet s d) := by
  refine ⟨_, _, ListDomains_of_page w s s1 j all hjar hfetch, ?_, ?_, ?_⟩
  · intro pre post x domain regDate expDate domainID hrows hlast
    rw [hrows]
    exact mergeRows_last pre post x domain regDate expDate domainID ([], cacheOf s) hlast
  · intro d info h
    rw [cacheGet_eq] at h
    exact (mergeRows_kept (w.reDomainRow all) ([], cacheOf s)).1 d info h
  · intro d hd
    rw [cacheGet_eq, cacheGet_eq]
    exact (mergeRows_frame d (w.reDomainRow all) ([], cacheOf s) hd).2

/-! ## The cache lookup of the mutations -/

theorem recordsKept_refl (s : State) : RecordsKept s s := keptMap_refl _

theorem recordsKept_trans {a b c : State} (h1 : RecordsKept a b) (h2 : RecordsKept b c) :
    RecordsKept a c := keptMap_trans h1 h2

theorem recordsKept_of_cache {s s2 : State} (h : s2.domainInfoMap = s.domainInfoMap) :
    RecordsKept s s2 := by
  unfold RecordsKept cacheOf
  rw [h]
  exact keptMap_refl _

theorem ListDomains_spec (w : Env) (s : State) (j : Jar) (hjar : s.jar = some j) :
    ∃ domains err s2, ListDomains w s = Res.ret domains err s2 ∧
      s2.jar = s.jar ∧ s2.token = s.token ∧ RecordsKept s s2 ∧ s.attempts < s2.attempts ∧
      ∃ n, s2.sent = s.sent ++ List.replicate n (listDomainsRequest s.jar) := by
  rcases fetch_total w "ListDomains" "" (listDomainsRequest (some j)) s with
    ⟨all, s1, h1, h2, _, _⟩ | ⟨e, s1, h1, h2⟩
  · refine ⟨_, _, _, ListDomains_of_page w s s1 j all hjar h1, h2.globals.1, h2.globals.2.1, ?_,
      h2.attempts, ?_⟩
    · exact mergeRows_kept (w.reDomainRow all) ([], cacheOf s)
    · rw [hjar]; exact h2.sent
  · refine ⟨[], some e, s1, ?_, h2.globals.1, h2.globals.2.1,
      recordsKept_of_cache h2.globals.2.2, h2.attempts, ?_⟩
    · unfold ListDomains
      rw [hjar]
      simp only [h1]
    · rw [hjar]; exact h2.sent

theorem withDomainInfo_cases (w : Env) (domain : String) (s : State)
    (k : DomainInfo → State → Res Unit) (hjar : s.jar ≠ none) :
    (∃ info s1, Resolved w domain s s1 info ∧ withDomainInfo w domain s k = k info s1) ∨
    (∃ e s1, withDomainInfo w domain s k = Res.ret () (some e) s1 ∧ RecordsKept s s1 ∧
      s1.jar = s.jar ∧ s1.token = s.token ∧
      ∃ n, s1.sent = s.sent ++ List.replicate n (listDomainsRequest s.jar)) := by
  unfold withDomainInfo
  cases hc : cacheGet s domain with
  | some v =>
    left
    exact ⟨v, s, ⟨hc, rfl, rfl, recordsKept_refl s, Or.inl ⟨hc, rfl⟩⟩, rfl⟩
  | none =>
    obtain ⟨j, hj⟩ := Option.ne_none_iff_exists'.mp hjar
    obtain ⟨domains, err, s1, hrun, h1, h2, h3, _, h5⟩ := ListDomains_spec w s j hj
    rw [hrun]
    cases err with
    | some e =>
      right
      exact ⟨e, s1, rfl, h3, h1, h2, h5⟩
    | none =>
      simp only []
      cases hc1 : cacheGet s1 domain with
      | none =>
        right
        exact ⟨_, s1, rfl, h3, h1, h2, h5⟩
      | some v =>
        left
        refine ⟨v, s1, ⟨hc1, h1, h2, h3, Or.inr ⟨hc, ⟨domains, hrun⟩, ?_, h5⟩⟩, rfl⟩
        rw [cacheGet_eq] at hc hc1
        exact h3.2 domain v hc hc1

theorem refreshCache_not_error (w : Env) (domain : String) (s s2 : State) (e : String) :
    refreshCache w domain s ≠ Res.ret () (some e) s2 := by
  unfold refreshCache
  cases GetDomainInfo w domain s <;> simp

/-- An error of the mutation step of AddRecord leaves the cache as it was. -/
theorem addRecordSend_error (w : Env) (domain : String) (records : List DomainRecord)
    (info : DomainInfo) (s1 s2 : State) (e : String)
    (h : addRecordSend w domain records info s1 = Res.ret () (some e) s2) :
    s2.domainInfoMap = s1.domainInfoMap := by
  unfold addRecordSend at h
  rcases fetch_total w "AddRecord" "" (addRecordRequest w s1 domain info records) s1 with
    ⟨all, s3, h1, h2, _, _⟩ | ⟨e3, s3, h1, h2⟩
  · rw [h1] at h
    simp only at h
    split_ifs at h
    · split at h
      · simp only [Res.ret.injEq] at h; rw [← h.2.2]; exact h2.globals.2.2
      · simp only [Res.ret.injEq] at h; rw [← h.2.2]; exact h2.globals.2.2
    · exact absurd h (refreshCache_not_error w domain s3 s2 e)
  · rw [h1] at h
    simp only [Res.ret.injEq] at h
    rw [← h.2.2]; exact h2.globals.2.2

theorem modifyRecordSend_error (w : Env) (domain : String) (oldRecord newRecord : Option DomainRecord)
    (info : DomainInfo) (s1 s2 : State) (e : String)
    (h : modifyRecordSend w domain oldRecord newRecord info s1 = Res.ret () (some e) s2) :
    s2.domainInfoMap = s1.domainInfoMap := by
  unfold modifyRecordSend at h
  cases newRecord with
  | none => simp at h
  | some n =>
    simp only at h
    cases hg : modifyGroups w oldRecord n 0 info.Records with
    | none => rw [hg] at h; simp at h
    | some groups =>
      rw [hg] at h
      simp only at h
      rcases fetch_total w "ModifyRecord" "" (modifyRecordRequest s1 domain info groups) s1 with
        ⟨all, s3, h1, h2, _, _⟩ | ⟨e3, s3, h1, h2⟩
      · rw [h1] at h
        simp only at h
        split_ifs at h
        · split at h
          · simp only [Res.ret.injEq] at h; rw [← h.2.2]; exact h2.globals.2.2
          · simp only [Res.ret.injEq] at h; rw [← h.2.2]; exact h2.globals.2.2
        · exact absurd h (refreshCache_not_error w domain s3 s2 e)
      · rw [h1] at h
        simp only [Res.ret.injEq] at h
        rw [← h.2.2]; exact h2.globals.2.2

theorem deleteRecordSend_error (w : Env) (domain : String) (record : Option DomainRecord)
    (info : DomainInfo) (s1 s2 : State) (e : String)
    (h : deleteRecordSend w domain record info s1 = Res.ret () (some e) s2) :
    s2.domainInfoMap = s1.domainInfoMap := by
  unfold deleteRecordSend at h
  cases record with
  | none => simp at h
  | some r =>
    simp only at h
    rcases fetch_total w "DeleteRecord" "" (deleteRecordRequest w s1 domain info r) s1 with
      ⟨all, s3, h1, h2, _, _⟩ | ⟨e3, s3, h1, h2⟩
    · rw [h1] at h
      simp only at h
      split_ifs at h
      · simp only [Res.ret.injEq] at h; rw [← h.2.2]; exact h2.globals.2.2
      · simp only [Res.ret.injEq] at h; rw [← h.2.2]; exact h2.globals.2.2
      · exact absurd h (refreshCache_not_error w domain s3 s2 e)
    · rw [h1] at h
      simp only [Res.ret.injEq] at h
      rw [← h.2.2]; exact h2.globals.2.2

/-- An error of a mutation that looks its domain up with `withDomainInfo`
leaves the cached records as they were, when an error of its own step `k`
leaves the cache as it was. -/
theorem withDomainInfo_error_kept (w : Env) (domain : String) (s s2 : State)
    (k : DomainInfo → State → Res Unit) (e : String) (hjar : s.jar ≠ none)
    (hk : ∀ info s1, k info s1 = Res.ret () (some e) s2 → s2.domainInfoMap = s1.domainInfoMap)
    (h : withDomainInfo w domain s k = Res.ret () (some e) s2) : RecordsKept s s2 := by
  rcases withDomainInfo_cases w domain s k hjar with ⟨info, s1, hres, hrun⟩ | ⟨e1, s1, hrun, hkept, _⟩
  · rw [hrun] at h
    exact recordsKept_trans hres.kept (recordsKept_of_cache (hk info s1 h))
  · rw [hrun] at h
    simp only [Res.ret.injEq] at h
    rw [← h.2.2]; exact hkept

theorem AddRecord_error_kept (w : Env) (domain : String) (records : List DomainRecord)
    (s s2 : State) (e : String) (h : AddRecord w domain records s = Res.ret () (some e) s2) :
    RecordsKept s s2 := by
  unfold AddRecord at h
  cases hj : s.jar with
  | none =>
    rw [hj] at h
    simp only [Res.ret.injEq] at h
    rw [← h.2.2]; exact recordsKept_refl s
  | some j =>
    rw [hj] at h
    simp only at h
    split_ifs at h
    · simp only [Res.ret.injEq] at h
      rw [← h.2.2]; exact recordsKept_refl s
    · exact withDomainInfo_error_kept w domain s s2 _ e (by rw [hj]; simp)
        (fun info s1 => addRecordSend_error w domain records info s1 s2 e) h

theorem ModifyRecord_error_kept (w : Env) (domain : String) (oldRecord newRecord : Option DomainRecord)
    (s s2 : State) (e : String)
    (h : ModifyRecord w domain oldRecord newRecord s = Res.ret () (some e) s2) :
    RecordsKept s s2 := by
  unfold ModifyRecord at h
  cases hj : s.jar with
  | none =>
    rw [hj] at h
    simp only [Res.ret.injEq] at h
    rw [← h.2.2]; exact recordsKept_refl s
  | some j =>
    rw [hj] at h
    exact withDomainInfo_error_kept w domain s s2 _ e (by rw [hj]; simp)
      (fun info s1 => modifyRecordSend_error w domain oldRecord newRecord info s1 s2 e) h

theorem DeleteRecord_error_kept (w : Env) (domain : String) (record : Option DomainRecord)
    (s s2 : State) (e : String) (h : DeleteRecord w domain record s = Res.ret () (some e) s2) :
    RecordsKept s s2 := by
  unfold DeleteRecord at h
  cases hj : s.jar with
  | none =>
    rw [hj] at h
    simp only [Res.ret.injEq] at h
    rw [← h.2.2]; exact recordsKept_refl s
  | some j =>
    rw [hj] at h
    exact withDomainInfo_error_kept w domain s s2 _ e (by rw [hj]; simp)
      (fun info s1 => deleteRecordSend_error w domain record info s1 s2 e) h

theorem DeleteRecordByIndex_error_kept (w : Env) (domain : String) (recordIndex : Int)
    (s s2 : State) (e : String)
    (h : DeleteRecordByIndex w domain recordIndex s = Res.ret () (some e) s2) :
    RecordsKept s s2 := by
  unfold DeleteRecordByIndex at h
  cases hj : s.jar with
  | none =>
    rw [hj] at h
    simp only [Res.ret.injEq] at h
    rw [← h.2.2]; exact recordsKept_refl s
  | some j =>
    rw [hj] at h
    simp only at h
    split_ifs at h
    · simp only [Res.ret.injEq] at h
      rw [← h.2.2]; exact recordsKept_refl s
    · cases hc : cacheGet s domain with
      | none =>
        rw [hc] at h
        simp only [Res.ret.injEq] at h
        rw [← h.2.2]; exact recordsKept_refl s
      | some info =>
        rw [hc] at h
        simp only at h
        cases hr : info.Records.get? recordIndex.toNat with
        | none =>
          rw [hr] at h
          simp only [Res.ret.injEq] at h
          rw [← h.2.2]; exact recordsKept_refl s
        | some record =>
          rw [hr] at h
          exact DeleteRecord_error_kept w domain record s s2 e h

/-- C7: a failed mutation never changes cached DNS records. Whenever
AddRecord, ModifyRecord, DeleteRecord or DeleteRecordByIndex returns an error,
every domain that was cached before the call is still cached with the same
record sequence, and a domain that entered the cache during the call (through
ListDomains) has no records: the replacement of a record sequence by
GetDomainInfo is not reached on a path that returns an error. -/
theorem C7_failed_mutation_keeps_records (w : Env) (domain : String)
    (records : List DomainRecord) (oldRecord newRecord record : Option DomainRecord)
    (recordIndex : Int) (s s2 : State) (e : String)
    (h : AddRecord w domain records s = Res.ret () (some e) s2 ∨
      ModifyRecord w domain oldRecord newRecord s = Res.ret () (some e) s2 ∨
      DeleteRecord w domain record s = Res.ret () (some e) s2 ∨
      DeleteRecordByIndex w domain recordIndex s = Res.ret () (some e) s2) :
    (∀ d info, cacheGet s d = some info →
      ∃ info2, cacheGet s2 d = some info2 ∧ info2.Records = info.Records) ∧
    (∀ d info2, cacheGet s d = none → cacheGet s2 d = some info2 → info2.Records = []) := by
  have hk : RecordsKept s s2 := by
    rcases h with h | h | h | h
    · exact AddRecord_error_kept w domain records s s2 e h
    · exact ModifyRecord_error_kept w domain oldRecord newRecord s s2 e h
    · exact DeleteRecord_error_kept w domain record s s2 e h
    · exact DeleteRecordByIndex_error_kept w domain recordIndex s s2 e h
  refine ⟨fun d info hd => ?_, fun d info2 hd hd2 => ?_⟩
  · rw [cacheGet_eq] at hd
    obtain ⟨i2, g, r⟩ := hk.1 d info hd
    exact ⟨i2, by rw [cacheGet_eq]; exact g, r⟩
  · rw [cacheGet_eq] at hd hd2
    exact hk.2 d info2 hd hd2

/-! ## The requests an operation sends -/

theorem isMutation_list (j : Option Jar) : isMutation (listDomainsRequest j) = false := by
  simp [isMutation, listDomainsRequest]

theorem isMutation_manage (j : Option Jar) (domain domainID : String) :
    isMutation (manageDNSRequest j domain domainID) = false := by
  simp [isMutation, manageDNSRequest]

/-- The requests in `extra` are no DNS mutations. -/
theorem quiet_replicate (n : Nat) (r : Request) (h : isMutation r = false) :
    ∀ req ∈ List.replicate n r, isMutation req = false := by
  intro req hr
  rw [(List.mem_replicate.mp hr).2]
  exact h

theorem describeDomain_quiet (w : Env) (domain domainID : String) (s s2 : State)
    (h : (describeDomain w domain domainID s).final = some s2) :
    ∃ extra, s2.sent = s.sent ++ extra ∧ ∀ req ∈ extra, isMutation req = false := by
  unfold describeDomain at h
  rcases fetch_total w "GetDomainInfo" "" (manageDNSRequest s.jar domain domainID) s with
    ⟨all, s1, h1, h2, _, _⟩ | ⟨e, s1, h1, h2⟩
  · obtain ⟨n, hn⟩ := h2.sent
    have hq := quiet_replicate n _ (isMutation_manage s.jar domain domainID)
    rw [h1] at h
    simp only at h
    cases hm : s1.domainInfoMap with
    | none =>
      rw [hm] at h
      simp only [Res.final, Option.some.injEq] at h
      exact ⟨_, by rw [← h]; exact hn, hq⟩
    | some m =>
      rw [hm] at h
      simp only at h
      cases hg : mapGet m domain with
      | none =>
        rw [hg] at h
        simp only [Res.final, Option.some.injEq] at h
        exact ⟨_, by rw [← h]; exact hn, hq⟩
      | some info =>
        rw [hg] at h
        simp only [Res.final, Option.some.injEq] at h
        exact ⟨_, by rw [← h]; exact hn, hq⟩
  · obtain ⟨n, hn⟩ := h2.sent
    rw [h1] at h
    simp only [Res.final, Option.some.injEq] at h
    exact ⟨_, by rw [← h]; exact hn, quiet_replicate n _ (isMutation_manage s.jar domain domainID)⟩

theorem GetDomainInfo_quiet (w : Env) (domain : String) (s s2 : State)
    (h : (GetDomainInfo w domain s).final = some s2) :
    ∃ extra, s2.sent = s.sent ++ extra ∧ ∀ req ∈ extra, isMutation req = false := by
  unfold GetDomainInfo at h
  cases hj : s.jar with
  | none =>
    rw [hj] at h
    simp only [Res.final, Option.some.injEq] at h
    exact ⟨[], by rw [← h]; simp, fun req hr => by simp at hr⟩
  | some j =>
    rw [hj] at h
    simp only at h
    cases hc : cacheGet s domain with
    | some v =>
      rw [hc] at h
      exact describeDomain_quiet w domain v.DomainID s s2 h
    | none =>
      rw [hc] at h
      simp only at h
      obtain ⟨domains, err, s1, hrun, _, _, _, _, n, hn⟩ := ListDomains_spec w s j hj
      have hq := quiet_replicate n _ (isMutation_list s.jar)
      rw [hrun] at h
      cases err with
      | some e =>
        simp only [Res.final, Option.some.injEq] at h
        exact ⟨_, by rw [← h]; exact hn, hq⟩
      | none =>
        simp only at h
        cases hc1 : cacheGet s1 domain with
        | none =>
          rw [hc1] at h
          simp only [Res.final, Option.some.injEq] at h
          exact ⟨_, by rw [← h]; exact hn, hq⟩
        | some v =>
          rw [hc1] at h
          obtain ⟨extra, he, hq2⟩ := describeDomain_quiet w domain v.DomainID s1 s2 h
          refine ⟨List.replicate n (listDomainsRequest s.jar) ++ extra, ?_, ?_⟩
          · rw [he, hn, List.append_assoc]
          · intro req hr
            rcases List.mem_append.mp hr with h3 | h3
            · exact hq req h3
            · exact hq2 req h3

theorem refreshCache_quiet (w : Env) (domain : String) (s s2 : State)
    (h : (refreshCache w domain s).final = some s2) :
    ∃ extra, s2.sent = s.sent ++ extra ∧ ∀ req ∈ extra, isMutation req = false := by
  unfold refreshCache at h
  apply GetDomainInfo_quiet w domain s s2
  cases hg : GetDomainInfo w domain s with
  | ret v err s3 => rw [hg] at h; exact h
  | panicked s3 => rw [hg] at h; exact h
  | stuck => rw [hg] at h; simp [Res.final] at h

/-- After a retried step for `req`, whatever follows with only quiet
requests, every DNS mutation among the new requests is `req`. -/
theorem sent_after_fetch {req : Request} {s1 s3 s2 : State} (hstep : Stepped req s1 s3)
    (hrest : ∃ extra, s2.sent = s3.sent ++ extra ∧ ∀ r ∈ extra, isMutation r = false) :
    ∃ extra, s2.sent = s1.sent ++ extra ∧ ∀ r ∈ extra, isMutation r = true → r = req := by
  obtain ⟨n, hn⟩ := hstep.sent
  obtain ⟨extra, he, hq⟩ := hrest
  refine ⟨List.replicate n req ++ extra, by rw [he, hn, List.append_assoc], ?_⟩
  intro r hr hm
  rcases List.mem_append.mp hr with h | h
  · exact (List.mem_replicate.mp h).2
  · rw [hq r h] at hm
    simp at hm

theorem sent_refl (s : State) :
    ∃ extra, s.sent = s.sent ++ extra ∧ ∀ r ∈ extra, isMutation r = false :=
  ⟨[], by simp, fun r hr => by simp at hr⟩

theorem addRecordSend_sent (w : Env) (domain : String) (records : List DomainRecord)
    (info : DomainInfo) (s1 s2 : State)
    (h : (addRecordSend w domain records info s1).final = some s2) :
    ∃ extra, s2.sent = s1.sent ++ extra ∧
      ∀ r ∈ extra, isMutation r = true → r = addRecordRequest w s1 domain info records := by
  unfold addRecordSend at h
  rcases fetch_total w "AddRecord" "" (addRecordRequest w s1 domain info records) s1 with
    ⟨all, s3, h1, h2, _, _⟩ | ⟨e3, s3, h1, h2⟩
  · rw [h1] at h
    simp only at h
    split_ifs at h
    · split at h
      · simp only [Res.final, Option.some.injEq] at h
        rw [← h]; exact sent_after_fetch h2 (sent_refl s3)
      · simp only [Res.final, Option.some.injEq] at h
        rw [← h]; exact sent_after_fetch h2 (sent_refl s3)
    · exact sent_after_fetch h2 (refreshCache_quiet w domain s3 s2 h)
  · rw [h1] at h
    simp only [Res.final, Option.some.injEq] at h
    rw [← h]; exact sent_after_fetch h2 (sent_refl s3)

theorem modifyRecordSend_sent (w : Env) (domain : String) (oldRecord newRecord : Option DomainRecord)
    (info : DomainInfo) (s1 s2 : State)
    (h : (modifyRecordSend w domain oldRecord newRecord info s1).final = some s2) :
    ∃ extra, s2.sent = s1.sent ++ extra ∧
      ∀ r ∈ extra, isMutation r = true →
        ∃ n groups, newRecord = some n ∧ modifyGroups w oldRecord n 0 info.Records = some groups ∧
          r = modifyRecordRequest s1 domain info groups := by
  unfold modifyRecordSend at h
  cases newRecord with
  | none =>
    simp only [Res.final, Option.some.injEq] at h
    exact ⟨[], by rw [← h]; simp, fun r hr => by simp at hr⟩
  | some n =>
    simp only at h
    cases hg : modifyGroups w oldRecord n 0 info.Records with
    | none =>
      rw [hg] at h
      simp only [Res.final, Option.some.injEq] at h
      exact ⟨[], by rw [← h]; simp, fun r hr => by simp at hr⟩
    | some groups =>
      rw [hg] at h
      simp only at h
      have hfin : ∃ extra, s2.sent = s1.sent ++ extra ∧
          ∀ r ∈ extra, isMutation r = true → r = modifyRecordRequest s1 domain info groups := by
        rcases fetch_total w "ModifyRecord" "" (modifyRecordRequest s1 domain info groups) s1 with
          ⟨all, s3, h1, h2, _, _⟩ | ⟨e3, s3, h1, h2⟩
        · rw [h1] at h
          simp only at h
          split_ifs at h
          · split at h
            · simp only [Res.final, Option.some.injEq] at h
              rw [← h]; exact sent_after_fetch h2 (sent_refl s3)
            · simp only [Res.final, Option.some.injEq] at h
              rw [← h]; exact sent_after_fetch h2 (sent_refl s3)
          · exact sent_after_fetch h2 (refreshCache_quiet w domain s3 s2 h)
        · rw [h1] at h
          simp only [Res.final, Option.some.injEq] at h
          rw [← h]; exact sent_after_fetch h2 (sent_refl s3)
      obtain ⟨extra, he, hall⟩ := hfin
      exact ⟨extra, he, fun r hr hm => ⟨n, groups, rfl, hg, hall r hr hm⟩⟩

theorem deleteRecordSend_sent (w : Env) (domain : String) (record : Option DomainRecord)
    (info : DomainInfo) (s1 s2 : State)
    (h : (deleteRecordSend w domain record info s1).final = some s2) :
    ∃ extra, s2.sent = s1.sent ++ extra ∧
      ∀ r ∈ extra, isMutation r = true →
        ∃ rec, record = some rec ∧ r = deleteRecordRequest w s1 domain info rec := by
  unfold deleteRecordSend at h
  cases record with
  | none =>
    simp only [Res.final, Option.some.injEq] at h
    exact ⟨[], by rw [← h]; simp, fun r hr => by simp at hr⟩
  | some rec =>
    simp only at h
    have hfin : ∃ extra, s2.sent = s1.sent ++ extra ∧
        ∀ r ∈ extra, isMutation r = true → r = deleteRecordRequest w s1 domain info rec := by
      rcases fetch_total w "DeleteRecord" "" (deleteRecordRequest w s1 domain info rec) s1 with
        ⟨all, s3, h1, h2, _, _⟩ | ⟨e3, s3, h1, h2⟩
      · rw [h1] at h
        simp only at h
        split_ifs at h
        · simp only [Res.final, Option.some.injEq] at h
          rw [← h]; exact sent_after_fetch h2 (sent_refl s3)
        · simp only [Res.final, Option.some.injEq] at h
          rw [← h]; exact sent_after_fetch h2 (sent_refl s3)
        · exact sent_after_fetch h2 (refreshCache_quiet w domain s3 s2 h)
      · rw [h1] at h
        simp only [Res.final, Option.some.injEq] at h
        rw [← h]; exact sent_after_fetch h2 (sent_refl s3)
    obtain ⟨extra, he, hall⟩ := hfin
    exact ⟨extra, he, fun r hr hm => ⟨rec, rfl, hall r hr hm⟩⟩

/-- The DNS mutations sent by an operation that looks its domain up with
`withDomainInfo` are those of its own step, sent once the DomainInfo is in the
cache. -/
theorem withDomainInfo_sent (w : Env) (domain : String) (s s2 : State)
    (k : DomainInfo → State → Res Unit) (P : DomainInfo → State → Request → Prop)
    (hjar : s.jar ≠ none)
    (hk : ∀ info s1 s3, (k info s1).final = some s3 →
      ∃ extra, s3.sent = s1.sent ++ extra ∧ ∀ r ∈ extra, isMutation r = true → P info s1 r)
    (h : (withDomainInfo w domain s k).final = some s2) :
    ∃ extra, s2.sent = s.sent ++ extra ∧
      ∀ r ∈ extra, isMutation r = true → ∃ info s1, Resolved w domain s s1 info ∧ P info s1 r := by
  rcases withDomainInfo_cases w domain s k hjar with
    ⟨info, s1, hres, hrun⟩ | ⟨e1, s1, hrun, _, _, _, n, hn⟩
  · rw [hrun] at h
    obtain ⟨extra, he, hall⟩ := hk info s1 s2 h
    have hpre : ∃ pre, s1.sent = s.sent ++ pre ∧ ∀ r ∈ pre, isMutation r = false := by
      rcases hres.how with ⟨_, h2⟩ | ⟨_, _, _, n, hn⟩
      · rw [h2]; exact sent_refl s
      · exact ⟨_, hn, quiet_replicate n _ (isMutation_list s.jar)⟩
    obtain ⟨pre, hp, hq⟩ := hpre
    refine ⟨pre ++ extra, by rw [he, hp, List.append_assoc], ?_⟩
    intro r hr hm
    rcases List.mem_append.mp hr with h3 | h3
    · rw [hq r h3] at hm; simp at hm
    · exact ⟨info, s1, hres, hall r h3 hm⟩
  · rw [hrun] at h
    simp only [Res.final, Option.some.injEq] at h
    refine ⟨_, by rw [← h]; exact hn, ?_⟩
    intro r hr hm
    rw [quiet_replicate n _ (isMutation_list s.jar) r hr] at hm
    simp at hm

theorem mem_new_requests {s s2 : State} {extra : List Request} {req : Request}
    (he : s2.sent = s.sent ++ extra) (h : req ∈ s2.sent.drop s.sent.length) : req ∈ extra := by
  rw [he, List.drop_left] at h
  exact h

theorem AddRecord_sent (w : Env) (domain : String) (records : List DomainRecord) (s s2 : State)
    (h : (AddRecord w domain records s).final = some s2) :
    ∃ extra, s2.sent = s.sent ++ extra ∧
      ∀ r ∈ extra, isMutation r = true →
        s.jar ≠ none ∧ ∃ info s1, Resolved w domain s s1 info ∧
          r = addRecordRequest w s1 domain info records := by
  unfold AddRecord at h
  cases hj : s.jar with
  | none =>
    rw [hj] at h
    simp only [Res.final, Option.some.injEq] at h
    exact ⟨[], by rw [← h]; simp, fun r hr => by simp at hr⟩
  | some j =>
    rw [hj] at h
    simp only at h
    split_ifs at h
    · simp only [Res.final, Option.some.injEq] at h
      exact ⟨[], by rw [← h]; simp, fun r hr => by simp at hr⟩
    · have hjar : s.jar ≠ none := by rw [hj]; simp
      obtain ⟨extra, he, hall⟩ := withDomainInfo_sent w domain s s2 _
        (fun info s1 r => r = addRecordRequest w s1 domain info records) hjar
        (fun info s1 s3 => addRecordSend_sent w domain records info s1 s3) h
      exact ⟨extra, he, fun r hr hm => ⟨by simp, hall r hr hm⟩⟩

theorem ModifyRecord_sent (w : Env) (domain : String) (oldRecord newRecord : Option DomainRecord)
    (s s2 : State) (h : (ModifyRecord w domain oldRecord newRecord s).final = some s2) :
    ∃ extra, s2.sent = s.sent ++ extra ∧
      ∀ r ∈ extra, isMutation r = true →
        s.jar ≠ none ∧ ∃ info s1, Resolved w domain s s1 info ∧
          ∃ n groups, newRecord = some n ∧
            modifyGroups w oldRecord n 0 info.Records = some groups ∧
            r = modifyRecordRequest s1 domain info groups := by
  unfold ModifyRecord at h
  cases hj : s.jar with
  | none =>
    rw [hj] at h
    simp only [Res.final, Option.some.injEq] at h
    exact ⟨[], by rw [← h]; simp, fun r hr => by simp at hr⟩
  | some j =>
    rw [hj] at h
    have hjar : s.jar ≠ none := by rw [hj]; simp
    obtain ⟨extra, he, hall⟩ := withDomainInfo_sent w domain s s2 _
      (fun info s1 r => ∃ n groups, newRecord = some n ∧
        modifyGroups w oldRecord n 0 info.Records = some groups ∧
        r = modifyRecordRequest s1 domain info groups) hjar
      (fun info s1 s3 => modifyRecordSend_sent w domain oldRecord newRecord info s1 s3) h
    exact ⟨extra, he, fun r hr hm => ⟨by simp, hall r hr hm⟩⟩

theorem DeleteRecord_sent (w : Env) (domain : String) (record : Option DomainRecord)
    (s s2 : State) (h : (DeleteRecord w domain record s).final = some s2) :
    ∃ extra, s2.sent = s.sent ++ extra ∧
      ∀ r ∈ extra, isMutation r = true →
        s.jar ≠ none ∧ ∃ info s1, Resolved w domain s s1 info ∧
          ∃ rec, record = some rec ∧ r = deleteRecordRequest w s1 domain info rec := by
  unfold DeleteRecord at h
  cases hj : s.jar with
  | none =>
    rw [hj] at h
    simp only [Res.final, Option.some.injEq] at h
    exact ⟨[], by rw [← h]; simp, fun r hr => by simp at hr⟩
  | some j =>
    rw [hj] at h
    have hjar : s.jar ≠ none := by rw [hj]; simp
    obtain ⟨extra, he, hall⟩ := withDomainInfo_sent w domain s s2 _
      (fun info s1 r => ∃ rec, record = some rec ∧ r = deleteRecordRequest w s1 domain info rec)
      hjar (fun info s1 s3 => deleteRecordSend_sent w domain record info s1 s3) h
    exact ⟨extra, he, fun r hr hm => ⟨by simp, hall r hr hm⟩⟩

/-- C8 (amended): whenever AddRecord, ModifyRecord or DeleteRecord sends its
DNS-mutation request `req`, a session exists and the request was built in a
state `s1` in which the domain's DomainInfo `info` is in the cache. If the
DomainInfo was missing when the operation was called, it was fetched by one
successful ListDomains call and nothing else (see `Resolved`): only the listing
request was sent before, GetDomainInfo was not called, and the entry has no DNS
records. -/
theorem C8_mutation_needs_cached_info (w : Env) (domain : String) (records : List DomainRecord)
    (oldRecord newRecord record : Option DomainRecord) (s s2 : State) (req : Request)
    (hmut : isMutation req = true) :
    ((AddRecord w domain records s).final = some s2 → req ∈ s2.sent.drop s.sent.length →
      s.jar ≠ none ∧ ∃ info s1, Resolved w domain s s1 info ∧
        req = addRecordRequest w s1 domain info records) ∧
    ((ModifyRecord w domain oldRecord newRecord s).final = some s2 →
      req ∈ s2.sent.drop s.sent.length →
      s.jar ≠ none ∧ ∃ info s1, Resolved w domain s s1 info ∧
        ∃ n groups, newRecord = some n ∧
          modifyGroups w oldRecord n 0 info.Records = some groups ∧
          req = modifyRecordRequest s1 domain info groups) ∧
    ((DeleteRecord w domain record s).final = some s2 → req ∈ s2.sent.drop s.sent.length →
      s.jar ≠ none ∧ ∃ info s1, Resolved w domain s s1 info ∧
        ∃ rec, record = some rec ∧ req = deleteRecordRequest w s1 domain info rec) := by
  refine ⟨fun h hr => ?_, fun h hr => ?_, fun h hr => ?_⟩
  · obtain ⟨extra, he, hall⟩ := AddRecord_sent w domain records s s2 h
    exact hall req (mem_new_requests he hr) hmut
  · obtain ⟨extra, he, hall⟩ := ModifyRecord_sent w domain oldRecord newRecord s s2 h
    exact hall req (mem_new_requests he hr) hmut
  · obtain ⟨extra, he, hall⟩ := DeleteRecord_sent w domain record s s2 h
    exact hall req (mem_new_requests he hr) hmut

/-! ## ModifyRecord: the payload -/

theorem modifyGroups_no_match (w : Env) (o n : DomainRecord) :
    ∀ (recs : List (Option DomainRecord)) (i : Nat) (groups : List (FormKey × String)),
      modifyGroups w (some o) n i recs = some groups →
      (∀ r, some r ∈ recs → matchesOld w o r = false) →
      ∃ rs, recs = rs.map some ∧ groups = recordGroups w i rs := by
  intro recs
  induction recs with
  | nil =>
    intro i groups h _
    simp only [modifyGroups, Option.some.injEq] at h
    exact ⟨[], rfl, by rw [← h]; rfl⟩
  | cons rec recs ih =>
    intro i groups h hno
    cases rec with
    | none => simp [modifyGroups] at h
    | some r =>
      have h1 : matchesOld w o r = false := hno r (List.mem_cons_self _ _)
      simp only [modifyGroups] at h
      cases hg : modifyGroups w (some o) n (i + 1) recs with
      | none => rw [hg] at h; simp at h
      | some g2 =>
        rw [hg] at h
        simp only [h1, Bool.false_eq_true, if_false, Option.some.injEq] at h
        obtain ⟨rs, e1, e2⟩ := ih (i + 1) g2 hg (fun r2 hr2 => hno r2 (List.mem_cons_of_mem _ hr2))
        refine ⟨r :: rs, by rw [e1]; rfl, ?_⟩
        rw [← h, e2]
        rfl

theorem recordGroups_mem (w : Env) (kv : FormKey × String) :
    ∀ (rs : List DomainRecord) (b : Nat),
      kv ∈ recordGroups w b rs ↔ ∃ i r, rs.get? i = some r ∧ kv ∈ recordGroup w (b + i) r := by
  intro rs
  induction rs with
  | nil => intro b; simp [recordGroups]
  | cons r0 rs ih =>
    intro b
    simp only [recordGroups, List.mem_append, ih]
    constructor
    · rintro (h | ⟨i, r, h1, h2⟩)
      · exact ⟨0, r0, rfl, h⟩
      · exact ⟨i + 1, r, h1, by rw [show b + (i + 1) = b + 1 + i by omega]; exact h2⟩
    · rintro ⟨i, r, h1, h2⟩
      cases i with
      | zero =>
        simp only [List.get?_cons_zero, Option.some.injEq] at h1
        subst h1
        exact Or.inl h2
      | succ i =>
        simp only [List.get?_cons_succ] at h1
        exact Or.inr ⟨i, r, h1, by rw [show b + 1 + i = b + (i + 1) by omega]; exact h2⟩

/-- C6 (amended): when `oldRecord` matches none of the cached records and
ModifyRecord sends its request, the cached records `rs` are all non-nil and the
form of the request is the token, the action and, for every cached record, the
group `records[i]` rendering the cached record at index `i`: its type in upper
case, its name, its ttl in decimal, its value, and its priority in decimal when
the type is MX and the empty string otherwise. Nothing of `newRecord` is in the
payload. -/
theorem C6_no_match_resubmits_cached (w : Env) (domain : String) (o : DomainRecord)
    (newRecord : Option DomainRecord) (info : DomainInfo) (s s2 : State) (req : Request)
    (hc : cacheGet s domain = some info)
    (hno : ∀ r, some r ∈ info.Records → matchesOld w o r = false)
    (hrun : (ModifyRecord w domain (some o) newRecord s).final = some s2)
    (hreq : req ∈ s2.sent.drop s.sent.length) (hmut : isMutation req = true) :
    ∃ rs, info.Records = rs.map some ∧
      req.form = [(FormKey.plain "token", s.token), (FormKey.plain "dnsaction", "modify")]
        ++ recordGroups w 0 rs ∧
      (∀ kv, kv ∈ recordGroups w 0 rs ↔ ∃ i r, rs.get? i = some r ∧ kv ∈ recordGroup w i r) := by
  obtain ⟨extra, he, hall⟩ := ModifyRecord_sent w domain (some o) newRecord s s2 hrun
  obtain ⟨_, info1, s1, hres, n, groups, _, hg, hr⟩ := hall req (mem_new_requests he hreq) hmut
  have hs : info1 = info ∧ s1 = s := by
    rcases hres.how with ⟨h1, h2⟩ | ⟨h1, _⟩
    · rw [hc] at h1
      simp only [Option.some.injEq] at h1
      exact ⟨h1.symm, h2⟩
    · rw [hc] at h1; simp at h1
  rw [hs.1] at hg
  obtain ⟨rs, e1, e2⟩ := modifyGroups_no_match w o n info.Records 0 groups hg hno
  refine ⟨rs, e1, ?_, fun kv => ?_⟩
  · rw [hr, e2, hs.2]
    rfl
  · have := recordGroups_mem w kv rs 0
    simp only [Nat.zero_add] at this
    exact this

/-! ## The claims on concrete inputs -/

set_option maxRecDepth 100000 in
/-- C5 at a failing input: example.tk is cached with two TXT records that
differ only in the letter case of their value, so both match `oldRecord`. The
payload ModifyRecord sends carries the new values in group `records[0]` and in
group `records[1]`: every matching record is substituted, not only the first. -/
theorem C5_every_match_substituted :
    matchesOld envDown recHelloLower recHello = true ∧
    matchesOld envDown recHelloLower recHelloLower = true ∧
    ModifyRecord envDown "example.tk" (some recHelloLower) (some recBye)
        (stateCached [some recHello, some recHelloLower]) =
      Res.ret () (some "ModifyRecord Do err: dial tcp: i/o timeout")
        (stateAfterFive (stateCached [some recHello, some recHelloLower])
          (modifyExampleRequest
            [(FormKey.indexed "records" 0 "line", ""),
             (FormKey.indexed "records" 0 "type", "TXT"),
             (FormKey.indexed "records" 0 "name", "note"),
             (FormKey.indexed "records" 0 "ttl", "600"),
             (FormKey.indexed "records" 0 "value", "bye"),
             (FormKey.indexed "records" 0 "priority", ""),
             (FormKey.indexed "records" 1 "line", ""),
             (FormKey.indexed "records" 1 "type", "TXT"),
             (FormKey.indexed "records" 1 "name", "note"),
             (FormKey.indexed "records" 1 "ttl", "600"),
             (FormKey.indexed "records" 1 "value", "bye"),
             (FormKey.indexed "records" 1 "priority", "")])) := by
  decide

set_option maxRecDepth 100000 in
/-- C6 fails as stated: the cached record has type "cname" and priority 5 and
`oldRecord` does not match it, yet the submitted row has type "CNAME" and an
empty priority: the row is a rendering of the cached record, not a copy. -/
theorem C6_counterexample :
    matchesOld envDown recA recLower = false ∧
    recLower.Typ = "cname" ∧ recLower.Priority = 5 ∧
    ModifyRecord envDown "example.tk" (some recA) (some recBye) (stateCached [some recLower]) =
      Res.ret () (some "ModifyRecord Do err: dial tcp: i/o timeout")
        (stateAfterFive (stateCached [some recLower])
          (modifyExampleRequest
            [(FormKey.indexed "records" 0 "line", ""),
             (FormKey.indexed "records" 0 "type", "CNAME"),
             (FormKey.indexed "records" 0 "name", "www"),
             (FormKey.indexed "records" 0 "ttl", "300"),
             (FormKey.indexed "records" 0 "value", "example.com"),
             (FormKey.indexed "records" 0 "priority", "")])) := by
  decide

set_option maxRecDepth 100000 in
theorem C6_no_match_resubmits_cached_witness :
    ∃ rs, [some recHello] = rs.map some ∧
      (modifyExampleRequest (recordGroup envDown 0 recHello)).form =
        [(FormKey.plain "token", (stateCached [some recHello]).token),
         (FormKey.plain "dnsaction", "modify")] ++ recordGroups envDown 0 rs ∧
      (∀ kv, kv ∈ recordGroups envDown 0 rs ↔
        ∃ i r, rs.get? i = some r ∧ kv ∈ recordGroup envDown i r) :=
  C6_no_match_resubmits_cached envDown "example.tk" recA (some recBye)
    { infoListed with Records := [some recHello] } (stateCached [some recHello])
    (stateAfterFive (stateCached [some recHello])
      (modifyExampleRequest (recordGroup envDown 0 recHello)))
    (modifyExampleRequest (recordGroup envDown 0 recHello))
    (by decide)
    (fun r hr => by
      have h : r = recHello := by simpa using hr
      rw [h]; decide)
    (by decide) (by decide) (by decide)

set_option maxRecDepth 100000 in
theorem C7_failed_mutation_keeps_records_witness :
    (∀ d info, cacheGet stateIn d = some info →
      ∃ info2, cacheGet (stateAfterFive stateListedDomains
          (addRecordRequest envList stateListedDomains "example.tk" infoListed [recA])) d
            = some info2 ∧ info2.Records = info.Records) ∧
    (∀ d info2, cacheGet stateIn d = none →
      cacheGet (stateAfterFive stateListedDomains
        (addRecordRequest envList stateListedDomains "example.tk" infoListed [recA])) d
          = some info2 → info2.Records = []) :=
  C7_failed_mutation_keeps_records envList "example.tk" [recA] none none none 0 stateIn
    (stateAfterFive stateListedDomains
      (addRecordRequest envList stateListedDomains "example.tk" infoListed [recA]))
    "AddRecord Do err: dial tcp: i/o timeout" (Or.inl (by decide))

set_option maxRecDepth 100000 in
/-- C8 fails as stated: example.tk is not cached when ModifyRecord is called.
The requests sent are the listing request of ListDomains and then the mutation
request (five attempts); no DNS-management page was requested, so GetDomainInfo
was not called, and the mutation carries no `records` group because the entry
made by ListDomains has no DNS records. -/
theorem C8_counterexample :
    cacheGet stateIn "example.tk" = none ∧
    ModifyRecord envList "example.tk" (some recA) (some recBye) stateIn =
      Res.ret () (some "ModifyRecord Do err: dial tcp: i/o timeout")
        (stateAfterFive stateListedDomains (modifyExampleRequest [])) ∧
    (stateAfterFive stateListedDomains (modifyExampleRequest [])).sent =
      stateIn.sent ++ [listDomainsRequest (some jar0)]
        ++ List.replicate 5 (modifyExampleRequest []) ∧
    cacheGet (stateAfterFive stateListedDomains (modifyExampleRequest [])) "example.tk"
      = some infoListed ∧
    infoListed.Records = [] := by
  decide

set_option maxRecDepth 100000 in
theorem C8_mutation_needs_cached_info_witness :
    stateIn.jar ≠ none ∧ ∃ info s1, Resolved envList "example.tk" stateIn s1 info ∧
      ∃ n groups, some recBye = some n ∧
        modifyGroups envList (some recA) n 0 info.Records = some groups ∧
        modifyExampleRequest [] = modifyRecordRequest s1 "example.tk" info groups :=
  (C8_mutation_needs_cached_info envList "example.tk" [] (some recA) (some recBye) none stateIn
    (stateAfterFive stateListedDomains (modifyExampleRequest [])) (modifyExampleRequest [])
    (by decide)).2.1 (by decide) (by decide)

set_option maxRecDepth 100000 in
/-- C9 at failing inputs: three calls that end in a nil pointer dereference
and not in a return. (1) CheckFreeDomainPurchasable when the payload's
`free_domains` list has a null entry. (2) ModifyRecord with a nil `newRecord`.
(3) A DNS row whose ttl is out of the range of `int` leaves a nil entry in the
cached record slice, and DeleteRecordByIndex on that index passes it on to
DeleteRecord, which reads its field `TTL`. -/
theorem C9_operations_can_panic :
    CheckFreeDomainPurchasable envNullEntry "freenom-api" stateFresh = Res.panicked stateChecked ∧
    ModifyRecord envDown "example.tk" (some recA) none (stateCached [some recA])
      = Res.panicked (stateCached [some recA]) ∧
    (parseRecords
      [[recordRowMatch "A" "www" "99999999999999999999" "127.0.0.1",
        "A", "www", "99999999999999999999", "127.0.0.1", ""]] none).1 = [none] ∧
    DeleteRecordByIndex envDown "example.tk" 0 (stateCached [none])
      = Res.panicked (stateCached [none]) := by
  decide

set_option maxRecDepth 100000 in
theorem C10_list_domains_merge_witness :
    ∃ domains s2, ListDomains envList stateIn = Res.ret domains none s2 ∧
      (∀ pre post x domain regDate expDate domainID,
        envList.reDomainRow listPage = pre ++ [x, domain, regDate, expDate, domainID] :: post →
        domain ∉ post.filterMap listName →
        mapGet domains domain = some expDate ∧
        ∃ info, cacheGet s2 domain = some info ∧ info.Domain = domain ∧
          info.DomainID = domainID ∧ info.RegDate = regDate ∧ info.ExpDate = expDate) ∧
      (∀ d info, cacheGet stateIn d = some info →
        ∃ info2, cacheGet s2 d = some info2 ∧ info2.Records = info.Records) ∧
      (∀ d, d ∉ (envList.reDomainRow listPage).filterMap listName →
        cacheGet s2 d = cacheGet stateIn d) :=
  C10_list_domains_merge envList stateIn stateListReceived jar0 listPage rfl (by decide)

/-! ## The retry budget -/

theorem perform_fail (w : Env) (op step : String) (req : Request) (s : State)
    (h : attemptBody (w.attempt s.attempts) = none) :
    ∃ s1, perform w op step req s
        = (Except.error (attemptError op step (w.attempt s.attempts)), s1) ∧
      SameGlobals s s1 ∧ s1.attempts = s.attempts + 1 ∧
      (s1.sent = s.sent ∨ s1.sent = s.sent ++ [req]) := by
  unfold perform attemptError
  cases hw : w.attempt s.attempts with
  | newRequestErr e => exact ⟨_, rfl, ⟨rfl, rfl, rfl⟩, rfl, Or.inl rfl⟩
  | doErr e => exact ⟨_, rfl, ⟨rfl, rfl, rfl⟩, rfl, Or.inr rfl⟩
  | resp code rd =>
    by_cases hc : code = 200
    · cases rd with
      | error e =>
        simp only [hc, ne_eq, not_true_eq_false, if_false]
        exact ⟨_, rfl, ⟨rfl, rfl, rfl⟩, rfl, Or.inr rfl⟩
      | ok b =>
        rw [hw] at h
        simp [attemptBody, hc] at h
    · simp only [ne_eq, hc, not_false_eq_true, if_true]
      exact ⟨_, rfl, ⟨rfl, rfl, rfl⟩, rfl, Or.inr rfl⟩

/-- The first attempt that delivers a body ends the loop, when fewer than
`retryTimes` attempts failed before it. -/
theorem fetch_first_body (w : Env) (op step : String) (req : Request) :
    ∀ (k fuel retries : Nat) (s : State) (all : String), k < fuel → retries + k < retryTimes →
      (∀ i, i < k → attemptBody (w.attempt (s.attempts + i)) = none) →
      attemptBody (w.attempt (s.attempts + k)) = some all →
      ∃ s2, fetch w op step req fuel retries s = Fetched.body all s2 ∧
        s2.attempts = s.attempts + k + 1 ∧ SameGlobals s s2 := by
  intro k
  induction k with
  | zero =>
    intro fuel retries s all hf _ _ hb
    obtain ⟨f, rfl⟩ : ∃ f, fuel = f + 1 := ⟨fuel - 1, by omega⟩
    unfold fetch
    rw [perform_body w op step req s all (by simpa using hb)]
    exact ⟨_, rfl, rfl, ⟨rfl, rfl, rfl⟩⟩
  | succ k ih =>
    intro fuel retries s all hf hr hnone hb
    obtain ⟨f, rfl⟩ : ∃ f, fuel = f + 1 := ⟨fuel - 1, by omega⟩
    obtain ⟨s1, hp, hg, ha, _⟩ := perform_fail w op step req s (by simpa using hnone 0 (by omega))
    unfold fetch
    rw [hp]
    have hlt : retries + 1 < retryTimes := by omega
    simp only [hlt, if_true]
    obtain ⟨s2, h1, h2, h3⟩ := ih f (retries + 1) s1 all (by omega) (by omega)
      (fun i hi => by
        rw [ha, show s.attempts + 1 + i = s.attempts + (i + 1) by omega]
        exact hnone (i + 1) (by omega))
      (by rw [ha, show s.attempts + 1 + k = s.attempts + (k + 1) by omega]; exact hb)
    exact ⟨s2, h1, by rw [h2, ha]; omega, sameGlobals_trans hg h3⟩

/-- When every attempt the budget allows fails, the loop ends with the error
of the last one. -/
theorem fetch_all_fail (w : Env) (op step : String) (req : Request) :
    ∀ (fuel retries : Nat) (s : State), retries < retryTimes → retryTimes - retries ≤ fuel →
      (∀ i, i < retryTimes - retries → attemptBody (w.attempt (s.attempts + i)) = none) →
      ∃ s2, fetch w op step req fuel retries s
          = Fetched.failed
              (attemptError op step (w.attempt (s.attempts + (retryTimes - retries - 1)))) s2 ∧
        s2.attempts = s.attempts + (retryTimes - retries) ∧ SameGlobals s s2 := by
  intro fuel
  induction fuel with
  | zero => intro retries s h1 h2; omega
  | succ f ih =>
    intro retries s hr hf hnone
    obtain ⟨s1, hp, hg, ha, _⟩ := perform_fail w op step req s
      (by simpa using hnone 0 (by omega))
    unfold fetch
    rw [hp]
    by_cases hlt : retries + 1 < retryTimes
    · simp only [hlt, if_true]
      obtain ⟨s2, h1, h2, h3⟩ := ih (retries + 1) s1 hlt (by omega)
        (fun i hi => by
          rw [ha, show s.attempts + 1 + i = s.attempts + (i + 1) by omega]
          exact hnone (i + 1) (by omega))
      refine ⟨s2, ?_, by rw [h2, ha]; omega, sameGlobals_trans hg h3⟩
      rw [h1, ha]
      rw [show s.attempts + 1 + (retryTimes - (retries + 1) - 1)
        = s.attempts + (retryTimes - retries - 1) by omega]
    · simp only [hlt, if_false]
      have hlast : retryTimes - retries - 1 = 0 := by omega
      refine ⟨s1, ?_, by rw [ha]; omega, hg⟩
      rw [hlast, Nat.add_zero]

/-- The loop ends with an error only when every attempt the budget allows
failed. -/
theorem fetch_failed_only (w : Env) (op step : String) (req : Request) :
    ∀ (fuel retries : Nat) (s s2 : State) (e : String), retries < retryTimes →
      fetch w op step req fuel retries s = Fetched.failed e s2 →
      ∀ i, i < retryTimes - retries → attemptBody (w.attempt (s.attempts + i)) = none := by
  intro fuel
  induction fuel with
  | zero => intro retries s s2 e _ h; simp [fetch] at h
  | succ f ih =>
    intro retries s s2 e hr h i hi
    unfold fetch at h
    cases hb : attemptBody (w.attempt s.attempts) with
    | some all =>
      rw [perform_body w op step req s all hb] at h
      simp at h
    | none =>
      obtain ⟨s1, hp, _, ha, _⟩ := perform_fail w op step req s hb
      rw [hp] at h
      cases i with
      | zero => simpa using hb
      | succ i =>
        by_cases hlt : retries + 1 < retryTimes
        · simp only [hlt, if_true] at h
          have := ih (retries + 1) s1 s2 e hlt h i (by omega)
          rw [ha, show s.attempts + 1 + i = s.attempts + (i + 1) by omega] at this
          exact this
        · omega

theorem fetch_bound (w : Env) (op step : String) (req : Request) :
    ∀ (fuel retries : Nat) (s s2 : State), retries < retryTimes →
      (fetch w op step req fuel retries s).final = some s2 →
      s.attempts < s2.attempts ∧ s2.attempts ≤ s.attempts + (retryTimes - retries) ∧
      ∃ n, s.attempts + n ≤ s2.attempts ∧ s2.sent = s.sent ++ List.replicate n req := by
  intro fuel
  induction fuel with
  | zero => intro retries s s2 _ h; simp [fetch, Fetched.final] at h
  | succ f ih =>
    intro retries s s2 hr h
    unfold fetch at h
    cases hb : attemptBody (w.attempt s.attempts) with
    | some all =>
      rw [perform_body w op step req s all hb] at h
      simp only [Fetched.final, Option.some.injEq] at h
      subst h
      exact ⟨by simp, by simp only; omega, 1, by simp, by simp⟩
    | none =>
      obtain ⟨s1, hp, _, ha, hsent⟩ := perform_fail w op step req s hb
      rw [hp] at h
      have hs1 : ∃ n, n ≤ 1 ∧ s1.sent = s.sent ++ List.replicate n req := by
        rcases hsent with h1 | h1
        · exact ⟨0, by omega, by simp [h1]⟩
        · exact ⟨1, by omega, by simp [h1]⟩
      obtain ⟨n1, hn1, e1⟩ := hs1
      by_cases hlt : retries + 1 < retryTimes
      · simp only [hlt, if_true] at h
        obtain ⟨b0, b1, n2, hn2, e2⟩ := ih (retries + 1) s1 s2 hlt h
        refine ⟨by omega, by omega, n1 + n2, by omega, ?_⟩
        rw [e2, e1, List.append_assoc, List.append_replicate_replicate]
      · simp only [hlt, if_false, Fetched.final, Option.some.injEq] at h
        subst h
        exact ⟨by omega, by omega, n1, by omega, e1⟩

theorem withDomainInfo_cached (w : Env) (domain : String) (s : State)
    (k : DomainInfo → State → Res Unit) (v : DomainInfo) (hc : cacheGet s domain = some v) :
    withDomainInfo w domain s k = k v s := by
  unfold withDomainInfo
  rw [hc]

/-- When the five attempts from the current one on all fail, each operation's
retried step gives up with the error of the fifth attempt behind its own
words. -/
theorem operations_all_fail (w : Env) (s : State) (j : Jar) (hjar : s.jar = some j)
    (hfail : AllFail w s.attempts retryTimes) :
    (∃ s2, ListDomains w s
        = Res.ret [] (some (attemptError "ListDomains" "" (w.attempt (s.attempts + 4)))) s2 ∧
      s2.attempts = s.attempts + 5) ∧
    (∀ domain v, cacheGet s domain = some v →
      ∃ s2, GetDomainInfo w domain s
          = Res.ret none (some (attemptError "GetDomainInfo" "" (w.attempt (s.attempts + 4)))) s2 ∧
        s2.attempts = s.attempts + 5) ∧
    (∀ domain v records, cacheGet s domain = some v → records ≠ [] →
      ∃ s2, AddRecord w domain records s
          = Res.ret () (some (attemptError "AddRecord" "" (w.attempt (s.attempts + 4)))) s2 ∧
        s2.attempts = s.attempts + 5) ∧
    (∀ domain v oldRecord n groups, cacheGet s domain = some v →
      modifyGroups w oldRecord n 0 v.Records = some groups →
      ∃ s2, ModifyRecord w domain oldRecord (some n) s
          = Res.ret () (some (attemptError "ModifyRecord" "" (w.attempt (s.attempts + 4)))) s2 ∧
        s2.attempts = s.attempts + 5) ∧
    (∀ domain v r, cacheGet s domain = some v →
      ∃ s2, DeleteRecord w domain (some r) s
          = Res.ret () (some (attemptError "DeleteRecord" "" (w.attempt (s.attempts + 4)))) s2 ∧
        s2.attempts = s.attempts + 5) ∧
    (∀ domain months, 1 ≤ months → months ≤ 12 →
      ∃ s2, RenewFreeDomain w domain months s
          = Res.ret [] (some (attemptError "RenewFreeDomain" " Renewals"
              (w.attempt (s.attempts + 4)))) s2 ∧
        s2.attempts = s.attempts + 5) := by
  have hf : ∀ op step req, ∃ s2, fetch w op step req retryTimes 0 s
      = Fetched.failed (attemptError op step (w.attempt (s.attempts + 4))) s2 ∧
      s2.attempts = s.attempts + 5 := by
    intro op step req
    obtain ⟨s2, h1, h2, _⟩ := fetch_all_fail w op step req retryTimes 0 s (by decide) (by simp)
      (fun i hi => hfail i (by simpa using hi))
    exact ⟨s2, h1, h2⟩
  refine ⟨?_, ?_, ?_, ?_, ?_, ?_⟩
  · obtain ⟨s2, h1, h2⟩ := hf "ListDomains" "" (listDomainsRequest (some j))
    refine ⟨s2, ?_, h2⟩
    unfold ListDomains
    rw [hjar]
    simp only [h1]
  · intro domain v hc
    obtain ⟨s2, h1, h2⟩ := hf "GetDomainInfo" "" (manageDNSRequest s.jar domain v.DomainID)
    refine ⟨s2, ?_, h2⟩
    unfold GetDomainInfo
    rw [hjar]
    simp only [hc]
    unfold describeDomain
    rw [hjar] at h1
    simp only [hjar, h1]
  · intro domain v records hc hne
    obtain ⟨s2, h1, h2⟩ := hf "AddRecord" "" (addRecordRequest w s domain v records)
    refine ⟨s2, ?_, h2⟩
    unfold AddRecord
    rw [hjar]
    have hlen : ¬ records.length = 0 := by
      intro h0; exact hne (List.length_eq_zero.mp h0)
    simp only [hlen, if_false]
    rw [withDomainInfo_cached w domain s _ v hc]
    unfold addRecordSend
    simp only [h1]
  · intro domain v oldRecord n groups hc hg
    obtain ⟨s2, h1, h2⟩ := hf "ModifyRecord" "" (modifyRecordRequest s domain v groups)
    refine ⟨s2, ?_, h2⟩
    unfold ModifyRecord
    rw [hjar]
    simp only []
    rw [withDomainInfo_cached w domain s _ v hc]
    unfold modifyRecordSend
    simp only [hg, h1]
  · intro domain v r hc
    obtain ⟨s2, h1, h2⟩ := hf "DeleteRecord" "" (deleteRecordRequest w s domain v r)
    refine ⟨s2, ?_, h2⟩
    unfold DeleteRecord
    rw [hjar]
    simp only []
    rw [withDomainInfo_cached w domain s _ v hc]
    unfold deleteRecordSend
    simp only [h1]
  · intro domain months hm1 hm2
    obtain ⟨s2, h1, h2⟩ := hf "RenewFreeDomain" " Renewals" (renewalsRequest s.jar)
    refine ⟨s2, ?_, h2⟩
    unfold RenewFreeDomain
    rw [hjar]
    have hm : ¬ (months < 1 ∨ months > 12) := by omega
    rw [hjar] at h1
    simp only [hm, if_false, h1]

theorem CheckFreeDomainPurchasable_all_fail (w : Env) (domainPrefix : String) (s : State)
    (hfail : AllFail w s.attempts retryTimes) :
    ∃ s2, CheckFreeDomainPurchasable w domainPrefix s
        = Res.ret [] (some (attemptError "CheckFreeDomainPurchasable" ""
            (w.attempt (s.attempts + 4)))) s2 ∧
      s2.attempts = s.attempts + 5 := by
  obtain ⟨s2, h1, h2, _⟩ := fetch_all_fail w "CheckFreeDomainPurchasable" ""
    (checkAvailableRequest domainPrefix) retryTimes 0 s (by decide) (by simp)
    (fun i hi => hfail i (by simpa using hi))
  refine ⟨s2, ?_, h2⟩
  unfold CheckFreeDomainPurchasable
  simp only [h1]
  rfl

/-! ## The answer to a mutation -/

theorem withDomainInfo_of_resolved (w : Env) (domain : String) (s s1 : State)
    (k : DomainInfo → State → Res Unit) (info : DomainInfo)
    (hres : Resolved w domain s s1 info) : withDomainInfo w domain s k = k info s1 := by
  rcases hres.how with ⟨hc, hs⟩ | ⟨hc, ⟨domains, hrun⟩, _, _⟩
  · rw [withDomainInfo_cached w domain s k info hc, hs]
  · unfold withDomainInfo
    rw [hc]
    simp only [hrun, hres.cached]

/-- With the domain cached, the DNS-management step returns: the records
parsed from the page replace the cached ones, or the transport error comes
back and the cache is as it was. -/
theorem describeDomain_spec (w : Env) (domain domainID : String) (s : State) (info : DomainInfo)
    (hc : cacheGet s domain = some info) :
    (∃ all s1, fetch w "GetDomainInfo" "" (manageDNSRequest s.jar domain domainID) retryTimes 0 s
          = Fetched.body all s1 ∧
        describeDomain w domain domainID s =
          Res.ret (some { info with Records := (parseRecords (w.reRecordRow all) none).1 })
            (parseRecords (w.reRecordRow all) none).2
            { s1 with domainInfoMap := some (mapSet (cacheOf s) domain
                { info with Records := (parseRecords (w.reRecordRow all) none).1 }) }) ∨
    (∃ e s1, fetch w "GetDomainInfo" "" (manageDNSRequest s.jar domain domainID) retryTimes 0 s
          = Fetched.failed e s1 ∧
        describeDomain w domain domainID s = Res.ret none (some e) s1 ∧ SameGlobals s s1) := by
  rcases fetch_total w "GetDomainInfo" "" (manageDNSRequest s.jar domain domainID) s with
    ⟨all, s1, h1, h2, _, _⟩ | ⟨e, s1, h1, h2⟩
  · left
    refine ⟨all, s1, h1, ?_⟩
    unfold describeDomain
    simp only [h1]
    unfold cacheGet at hc
    cases hm : s.domainInfoMap with
    | none => rw [hm] at hc; simp at hc
    | some m =>
      rw [hm] at hc
      simp only at hc
      have hm1 : s1.domainInfoMap = some m := by rw [h2.globals.2.2, hm]
      have hco : cacheOf s = m := by unfold cacheOf; rw [hm]
      simp only [hm1, hc, hco]
  · right
    refine ⟨e, s1, h1, ?_, h2.globals⟩
    unfold describeDomain
    simp only [h1]

theorem GetDomainInfo_returns (w : Env) (domain : String) (s : State) (j : Jar)
    (hjar : s.jar = some j) :
    ∃ v e s3, GetDomainInfo w domain s = Res.ret v e s3 := by
  unfold GetDomainInfo
  rw [hjar]
  simp only []
  cases hc : cacheGet s domain with
  | some info =>
    simp only []
    rcases describeDomain_spec w domain info.DomainID s info hc with
      ⟨all, s1, _, h⟩ | ⟨e, s1, _, h, _⟩
    · exact ⟨_, _, _, h⟩
    · exact ⟨_, _, _, h⟩
  | none =>
    simp only []
    obtain ⟨domains, err, s1, hrun, _, _, _, _, _⟩ := ListDomains_spec w s j hjar
    rw [hrun]
    cases err with
    | some e => exact ⟨_, _, _, rfl⟩
    | none =>
      simp only []
      cases hc1 : cacheGet s1 domain with
      | none => exact ⟨_, _, _, rfl⟩
      | some info =>
        simp only []
        rcases describeDomain_spec w domain info.DomainID s1 info hc1 with
          ⟨all, s2, _, h⟩ | ⟨e, s2, _, h, _⟩
        · exact ⟨_, _, _, h⟩
        · exact ⟨_, _, _, h⟩

theorem refreshCache_spec (w : Env) (domain : String) (s2 : State) (j : Jar)
    (hjar : s2.jar = some j) :
    ∃ v e s3, GetDomainInfo w domain s2 = Res.ret v e s3 ∧
      refreshCache w domain s2 = Res.ret () none s3 := by
  obtain ⟨v, e, s3, h⟩ := GetDomainInfo_returns w domain s2 j hjar
  refine ⟨v, e, s3, h, ?_⟩
  unfold refreshCache
  rw [h]

theorem GetDomainInfo_all_fail (w : Env) (domain : String) (s : State) (j : Jar) (v : DomainInfo)
    (hjar : s.jar = some j) (hc : cacheGet s domain = some v)
    (hfail : AllFail w s.attempts retryTimes) :
    ∃ s2, GetDomainInfo w domain s
        = Res.ret none (some (attemptError "GetDomainInfo" "" (w.attempt (s.attempts + 4)))) s2 ∧
      SameGlobals s s2 := by
  obtain ⟨s2, h1, _, h3⟩ := fetch_all_fail w "GetDomainInfo" ""
    (manageDNSRequest s.jar domain v.DomainID) retryTimes 0 s (by decide) (by simp)
    (fun i hi => hfail i (by simpa using hi))
  refine ⟨s2, ?_, h3⟩
  unfold GetDomainInfo
  rw [hjar]
  simp only [hc]
  unfold describeDomain
  rw [hjar] at h1
  simp only [hjar, h1]
  rfl

theorem AddRecord_resolved (w : Env) (domain : String) (records : List DomainRecord)
    (s s1 : State) (info : DomainInfo) (hjar : s.jar ≠ none) (hne : records ≠ [])
    (hres : Resolved w domain s s1 info) :
    AddRecord w domain records s = addRecordSend w domain records info s1 := by
  obtain ⟨j, hj⟩ := Option.ne_none_iff_exists'.mp hjar
  unfold AddRecord
  rw [hj]
  have hlen : ¬ records.length = 0 := fun h0 => hne (List.length_eq_zero.mp h0)
  simp only [hlen, if_false]
  exact withDomainInfo_of_resolved w domain s s1 _ info hres

theorem ModifyRecord_resolved (w : Env) (domain : String) (oldRecord newRecord : Option DomainRecord)
    (s s1 : State) (info : DomainInfo) (hjar : s.jar ≠ none)
    (hres : Resolved w domain s s1 info) :
    ModifyRecord w domain oldRecord newRecord s
      = modifyRecordSend w domain oldRecord newRecord info s1 := by
  obtain ⟨j, hj⟩ := Option.ne_none_iff_exists'.mp hjar
  unfold ModifyRecord
  rw [hj]
  exact withDomainInfo_of_resolved w domain s s1 _ info hres

theorem DeleteRecord_resolved (w : Env) (domain : String) (record : Option DomainRecord)
    (s s1 : State) (info : DomainInfo) (hjar : s.jar ≠ none)
    (hres : Resolved w domain s s1 info) :
    DeleteRecord w domain record s = deleteRecordSend w domain record info s1 := by
  obtain ⟨j, hj⟩ := Option.ne_none_iff_exists'.mp hjar
  unfold DeleteRecord
  rw [hj]
  exact withDomainInfo_of_resolved w domain s s1 _ info hres

/-- The jar is still there when the body of a mutation request has arrived. -/
theorem jar_after_fetch {w : Env} {op step : String} {req : Request} {domain : String}
    {s s1 s2 : State} {info : DomainInfo} {all : String} (hjar : s.jar ≠ none)
    (hres : Resolved w domain s s1 info)
    (hfetch : fetch w op step req retryTimes 0 s1 = Fetched.body all s2) :
    ∃ j, s2.jar = some j := by
  obtain ⟨j, hj⟩ := Option.ne_none_iff_exists'.mp hjar
  exact ⟨j, by rw [(fetch_body_globals hfetch).globals.1, hres.jar, hj]⟩

theorem addModify_outcome (w : Env) (domain opName : String) (all : String) (s2 : State) (j : Jar)
    (hjar : s2.jar = some j) :
    AddModifyOutcome w domain opName
      (if (!w.reSuccess all) = true then
        match w.reErrorMsg all with
        | [_, msg] => Res.ret () (some msg) s2
        | _ => Res.ret () (some (opName ++ " not success")) s2
      else refreshCache w domain s2) all s2 := by
  refine ⟨fun h => ?_, fun h x msg hm => ?_, fun h hm => ?_⟩
  · obtain ⟨v, e, s3, h1, h2⟩ := refreshCache_spec w domain s2 j hjar
    exact ⟨v, e, s3, h1, by simp [h, h2]⟩
  · simp [h, hm]
  · have hmatch : (match w.reErrorMsg all with
        | [_, msg] => Res.ret () (some msg) s2
        | _ => Res.ret () (some (opName ++ " not success")) s2)
        = Res.ret () (some (opName ++ " not success")) s2 := by
      split
      · rename_i x msg heq
        exact absurd heq (hm x msg)
      · rfl
    rw [if_pos (by simp [h]), hmatch]

theorem cacheGet_of_map_eq {s s2 : State} (h : s2.domainInfoMap = s.domainInfoMap) (d : String) :
    cacheGet s2 d = cacheGet s d := by
  unfold cacheGet
  rw [h]

theorem refresh_discarded (w : Env) (domain : String) (s1 s2 : State) (j : Jar) (info : DomainInfo)
    (hjar : s2.jar = some j) (hc : cacheGet s2 domain = some info)
    (hmap : s2.domainInfoMap = s1.domainInfoMap) :
    RefreshDiscarded w domain (refreshCache w domain s2) s1 s2 := by
  obtain ⟨v, e, s3, h1, h2⟩ := refreshCache_spec w domain s2 j hjar
  refine ⟨v, e, s3, h1, h2, fun hfail => ?_⟩
  obtain ⟨s4, h3, h4⟩ := GetDomainInfo_all_fail w domain s2 j info hjar hc hfail
  rw [h3] at h1
  simp only [Res.ret.injEq] at h1
  refine ⟨h1.2.1.symm, ?_⟩
  rw [← h1.2.2, h4.2.2, hmap]

/-- C13: for the body `all` that AddRecord or ModifyRecord receives for its
mutation POST (in state `s2`): if the body matches the success pattern
(`class="dnssuccess"`) the operation calls GetDomainInfo to refresh the cache
and returns nil; otherwise, if the error pattern matches, the operation returns
an error whose message is exactly the captured text; otherwise it returns the
error "AddRecord not success", respectively "ModifyRecord not success". -/
theorem C13_add_modify_answer (w : Env) (domain : String) (records : List DomainRecord)
    (oldRecord : Option DomainRecord) (n : DomainRecord) (groups : List (FormKey × String))
    (info : DomainInfo) (s s1 : State)
    (hjar : s.jar ≠ none) (hres : Resolved w domain s s1 info) :
    (∀ all s2, records ≠ [] →
      fetch w "AddRecord" "" (addRecordRequest w s1 domain info records) retryTimes 0 s1
        = Fetched.body all s2 →
      AddModifyOutcome w domain "AddRecord" (AddRecord w domain records s) all s2) ∧
    (∀ all s2, modifyGroups w oldRecord n 0 info.Records = some groups →
      fetch w "ModifyRecord" "" (modifyRecordRequest s1 domain info groups) retryTimes 0 s1
        = Fetched.body all s2 →
      AddModifyOutcome w domain "ModifyRecord" (ModifyRecord w domain oldRecord (some n) s)
        all s2) := by
  refine ⟨fun all s2 hne hfetch => ?_, fun all s2 hg hfetch => ?_⟩
  · obtain ⟨j, hj⟩ := jar_after_fetch hjar hres hfetch
    rw [AddRecord_resolved w domain records s s1 info hjar hne hres]
    unfold addRecordSend
    rw [hfetch]
    exact addModify_outcome w domain "AddRecord" all s2 j hj
  · obtain ⟨j, hj⟩ := jar_after_fetch hjar hres hfetch
    rw [ModifyRecord_resolved w domain oldRecord (some n) s s1 info hjar hres]
    unfold modifyRecordSend
    simp only [hg, hfetch]
    exact addModify_outcome w domain "ModifyRecord" all s2 j hj

/-- C14: for the body `all` that DeleteRecord receives (in state `s2`): if
the error pattern (`class="dnserror"`) matches, the operation returns the error
"DeleteRecord failed", whether or not the success pattern matches too and
whatever else the body holds; if neither pattern matches it returns the error
"DeleteRecord not success"; if the success pattern matches and the error
pattern does not, it calls GetDomainInfo to refresh the cache and returns
nil. So it returns nil exactly in the last case. -/
theorem C14_delete_answer (w : Env) (domain : String) (r : DomainRecord)
    (info : DomainInfo) (s s1 s2 : State) (all : String)
    (hjar : s.jar ≠ none) (hres : Resolved w domain s s1 info)
    (hfetch : fetch w "DeleteRecord" "" (deleteRecordRequest w s1 domain info r) retryTimes 0 s1
      = Fetched.body all s2) :
    DeleteOutcome w domain (DeleteRecord w domain (some r) s) all s2 := by
  obtain ⟨j, hj⟩ := jar_after_fetch hjar hres hfetch
  rw [DeleteRecord_resolved w domain (some r) s s1 info hjar hres]
  unfold deleteRecordSend
  simp only [hfetch]
  refine ⟨fun h => ?_, fun h h2 => ?_, fun h h2 => ?_⟩
  · simp [h]
  · simp [h, h2]
  · obtain ⟨v, e, s3, h3, h4⟩ := refreshCache_spec w domain s2 j hj
    exact ⟨v, e, s3, h3, by simp [h, h2, h4]⟩

/-- C19: once AddRecord, ModifyRecord or DeleteRecord has accepted the
response to its mutation request as successful (body `all`, state `s2`), it
calls GetDomainInfo, drops its value and its error, and returns nil. When the
five attempts of that refresh all fail, GetDomainInfo's error is the transport
error, the operation still returns nil, and the cache is the one the mutation
request was built from, so the records cached for the domain are the
pre-mutation ones. -/
theorem C19_refresh_result_discarded (w : Env) (domain : String) (records : List DomainRecord)
    (oldRecord : Option DomainRecord) (n r : DomainRecord) (groups : List (FormKey × String))
    (info : DomainInfo) (s s1 : State)
    (hjar : s.jar ≠ none) (hres : Resolved w domain s s1 info) :
    (∀ all s2, records ≠ [] →
      fetch w "AddRecord" "" (addRecordRequest w s1 domain info records) retryTimes 0 s1
        = Fetched.body all s2 →
      w.reSuccess all = true →
      RefreshDiscarded w domain (AddRecord w domain records s) s1 s2) ∧
    (∀ all s2, modifyGroups w oldRecord n 0 info.Records = some groups →
      fetch w "ModifyRecord" "" (modifyRecordRequest s1 domain info groups) retryTimes 0 s1
        = Fetched.body all s2 →
      w.reSuccess all = true →
      RefreshDiscarded w domain (ModifyRecord w domain oldRecord (some n) s) s1 s2) ∧
    (∀ all s2,
      fetch w "DeleteRecord" "" (deleteRecordRequest w s1 domain info r) retryTimes 0 s1
        = Fetched.body all s2 →
      w.reError all = false → w.reSuccess all = true →
      RefreshDiscarded w domain (DeleteRecord w domain (some r) s) s1 s2) := by
  have hkey : ∀ op step req all s2, fetch w op step req retryTimes 0 s1 = Fetched.body all s2 →
      RefreshDiscarded w domain (refreshCache w domain s2) s1 s2 := by
    intro op step req all s2 hfetch
    obtain ⟨j, hj⟩ := jar_after_fetch hjar hres hfetch
    have hmap := (fetch_body_globals hfetch).globals.2.2
    exact refresh_discarded w domain s1 s2 j info hj
      (by rw [cacheGet_of_map_eq hmap]; exact hres.cached) hmap
  refine ⟨fun all s2 hne hfetch hs => ?_, fun all s2 hg hfetch hs => ?_,
    fun all s2 hfetch he hs => ?_⟩
  · rw [AddRecord_resolved w domain records s s1 info hjar hne hres]
    unfold addRecordSend
    simp only [hfetch, hs, Bool.not_true, Bool.false_eq_true, if_false]
    exact hkey _ _ _ all s2 hfetch
  · rw [ModifyRecord_resolved w domain oldRecord (some n) s s1 info hjar hres]
    unfold modifyRecordSend
    simp only [hg, hfetch, hs, Bool.not_true, Bool.false_eq_true, if_false]
    exact hkey _ _ _ all s2 hfetch
  · rw [DeleteRecord_resolved w domain (some r) s s1 info hjar hres]
    unfold deleteRecordSend
    simp only [hfetch, he, hs, Bool.not_true, Bool.false_eq_true, if_false]
    exact hkey _ _ _ all s2 hfetch

/-- C18: the retried HTTP step of an operation (`op` and `step` are the words
of its error messages, `req` its request) ends after at least one and at most
5 attempts, and every request it sent is `req`. A failed attempt is followed by
the next one: when the first `k < 5` attempts fail and the next delivers a
body, that body is the one acted on and `k + 1` attempts were made. The step
ends with an error exactly when all 5 attempts fail; the error is then the
fifth attempt's, behind the operation's words. With their request built in
state `s`, ListDomains, GetDomainInfo, AddRecord, ModifyRecord, DeleteRecord,
RenewFreeDomain (its renewals listing) and CheckFreeDomainPurchasable return
that error when the 5 attempts from the current one on all fail. -/
theorem C18_retry_budget (w : Env) (op step : String) (req : Request) (s : State) :
    (∃ s2, (fetch w op step req retryTimes 0 s).final = some s2 ∧
      s.attempts < s2.attempts ∧ s2.attempts ≤ s.attempts + 5 ∧
      ∃ n, s.attempts + n ≤ s2.attempts ∧ s2.sent = s.sent ++ List.replicate n req) ∧
    (∀ k all, k < 5 → AllFail w s.attempts k →
      attemptBody (w.attempt (s.attempts + k)) = some all →
      ∃ s2, fetch w op step req retryTimes 0 s = Fetched.body all s2 ∧
        s2.attempts = s.attempts + k + 1) ∧
    ((∃ e s2, fetch w op step req retryTimes 0 s = Fetched.failed e s2) ↔
      AllFail w s.attempts 5) ∧
    (AllFail w s.attempts 5 →
      ∃ s2, fetch w op step req retryTimes 0 s
          = Fetched.failed (attemptError op step (w.attempt (s.attempts + 4))) s2 ∧
        s2.attempts = s.attempts + 5) ∧
    (AllFail w s.attempts 5 → ∀ domainPrefix,
      ∃ s2, CheckFreeDomainPurchasable w domainPrefix s
          = Res.ret [] (some (attemptError "CheckFreeDomainPurchasable" ""
              (w.attempt (s.attempts + 4)))) s2 ∧
        s2.attempts = s.attempts + 5) ∧
    (AllFail w s.attempts 5 → ∀ j, s.jar = some j →
      (∃ s2, ListDomains w s
          = Res.ret [] (some (attemptError "ListDomains" "" (w.attempt (s.attempts + 4)))) s2 ∧
        s2.attempts = s.attempts + 5) ∧
      (∀ domain v, cacheGet s domain = some v →
        ∃ s2, GetDomainInfo w domain s
            = Res.ret none (some (attemptError "GetDomainInfo" "" (w.attempt (s.attempts + 4)))) s2 ∧
          s2.attempts = s.attempts + 5) ∧
      (∀ domain v records, cacheGet s domain = some v → records ≠ [] →
        ∃ s2, AddRecord w domain records s
            = Res.ret () (some (attemptError "AddRecord" "" (w.attempt (s.attempts + 4)))) s2 ∧
          s2.attempts = s.attempts + 5) ∧
      (∀ domain v oldRecord n groups, cacheGet s domain = some v →
        modifyGroups w oldRecord n 0 v.Records = some groups →
        ∃ s2, ModifyRecord w domain oldRecord (some n) s
            = Res.ret () (some (attemptError "ModifyRecord" "" (w.attempt (s.attempts + 4)))) s2 ∧
          s2.attempts = s.attempts + 5) ∧
      (∀ domain v r, cacheGet s domain = some v →
        ∃ s2, DeleteRecord w domain (some r) s
            = Res.ret () (some (attemptError "DeleteRecord" "" (w.attempt (s.attempts + 4)))) s2 ∧
          s2.attempts = s.attempts + 5) ∧
      (∀ domain months, 1 ≤ months → months ≤ 12 →
        ∃ s2, RenewFreeDomain w domain months s
            = Res.ret [] (some (attemptError "RenewFreeDomain" " Renewals"
                (w.attempt (s.attempts + 4)))) s2 ∧
          s2.attempts = s.attempts + 5)) := by
  have hall : AllFail w s.attempts 5 →
      ∃ s2, fetch w op step req retryTimes 0 s
          = Fetched.failed (attemptError op step (w.attempt (s.attempts + 4))) s2 ∧
        s2.attempts = s.attempts + 5 := by
    intro hfail
    obtain ⟨s2, h1, h2, _⟩ := fetch_all_fail w op step req retryTimes 0 s (by decide) (by simp)
      (fun i hi => hfail i (by simpa using hi))
    exact ⟨s2, h1, h2⟩
  refine ⟨?_, ?_, ⟨?_, ?_⟩, hall, ?_, ?_⟩
  · have hfin : ∃ s2, (fetch w op step req retryTimes 0 s).final = some s2 := by
      rcases fetch_total w op step req s with ⟨all, s2, h1, _⟩ | ⟨e, s2, h1, _⟩
      · exact ⟨s2, by rw [h1]; rfl⟩
      · exact ⟨s2, by rw [h1]; rfl⟩
    obtain ⟨s2, hs2⟩ := hfin
    obtain ⟨a, b, c⟩ := fetch_bound w op step req retryTimes 0 s s2 (by decide) hs2
    exact ⟨s2, hs2, a, by simpa using b, c⟩
  · intro k all hk hfail hb
    obtain ⟨s2, h1, h2, _⟩ := fetch_first_body w op step req k retryTimes 0 s all
      (by simpa using hk) (by simpa using hk) hfail hb
    exact ⟨s2, h1, h2⟩
  · rintro ⟨e, s2, h⟩
    intro i hi
    exact fetch_failed_only w op step req retryTimes 0 s s2 e (by decide) h i (by simpa using hi)
  · intro hfail
    obtain ⟨s2, h1, _⟩ := hall hfail
    exact ⟨_, s2, h1⟩
  · intro hfail domainPrefix
    exact CheckFreeDomainPurchasable_all_fail w domainPrefix s hfail
  · intro hfail j hj
    exact operations_all_fail w s j hj hfail

/-- The DomainInfo is cached in `s` and nothing has to be fetched. -/
theorem resolved_cached (w : Env) (domain : String) (s : State) (info : DomainInfo)
    (hc : cacheGet s domain = some info) : Resolved w domain s s info :=
  ⟨hc, rfl, rfl, recordsKept_refl s, Or.inl ⟨hc, rfl⟩⟩

set_option maxRecDepth 100000 in
theorem C13_add_modify_answer_witness :
    AddRecord (envDNS dnsErrorPage) "example.tk" [recA] (stateCached [some recA]) =
      Res.ret () (some "Error occured: Invalid value in dnsrecord")
        (stateAfterOne (stateCached [some recA])
          (addRecordRequest (envDNS dnsErrorPage) (stateCached [some recA]) "example.tk"
            infoWithA [recA])) :=
  ((C13_add_modify_answer (envDNS dnsErrorPage) "example.tk" [recA] none recA [] infoWithA
      (stateCached [some recA]) (stateCached [some recA]) (by decide)
      (resolved_cached _ _ _ _ (by decide))).1
    dnsErrorPage _ (by decide) (by decide)).2.1 (by decide)
    "class=\"dnserror\">Error occured: Invalid value in dnsrecord</li>"
    "Error occured: Invalid value in dnsrecord" (by decide)

set_option maxRecDepth 100000 in
theorem C14_delete_answer_witness :
    DeleteRecord (envDNS dnsBothPage) "example.tk" (some recA) (stateCached [some recA]) =
      Res.ret () (some "DeleteRecord failed")
        (stateAfterOne (stateCached [some recA])
          (deleteRecordRequest (envDNS dnsBothPage) (stateCached [some recA]) "example.tk"
            infoWithA recA)) :=
  (C14_delete_answer (envDNS dnsBothPage) "example.tk" recA infoWithA
    (stateCached [some recA]) (stateCached [some recA]) _ dnsBothPage (by decide)
    (resolved_cached _ _ _ _ (by decide)) (by decide)).1 (by decide)

set_option maxRecDepth 100000 in
theorem C19_refresh_result_discarded_witness :
    RefreshDiscarded (envDNS dnsSuccessPage) "example.tk"
      (AddRecord (envDNS dnsSuccessPage) "example.tk" [recA] (stateCached [some recA]))
      (stateCached [some recA])
      (stateAfterOne (stateCached [some recA])
        (addRecordRequest (envDNS dnsSuccessPage) (stateCached [some recA]) "example.tk"
          infoWithA [recA])) :=
  (C19_refresh_result_discarded (envDNS dnsSuccessPage) "example.tk" [recA] none recA recA []
    infoWithA (stateCached [some recA]) (stateCached [some recA]) (by decide)
    (resolved_cached _ _ _ _ (by decide))).1 dnsSuccessPage _ (by decide) (by decide) (by decide)

/-! ## GetDomainInfo: the cache lookup -/

/-- The DNS-management step sends nothing but copies of its own request. -/
theorem describeDomain_sent (w : Env) (domain domainID : String) (s s2 : State)
    (h : (describeDomain w domain domainID s).final = some s2) :
    ∃ n, s2.sent = s.sent ++ List.replicate n (manageDNSRequest s.jar domain domainID) := by
  unfold describeDomain at h
  rcases fetch_total w "GetDomainInfo" "" (manageDNSRequest s.jar domain domainID) s with
    ⟨all, s1, h1, h2, _, _⟩ | ⟨e, s1, h1, h2⟩
  · obtain ⟨n, hn⟩ := h2.sent
    rw [h1] at h
    simp only at h
    cases hm : s1.domainInfoMap with
    | none =>
      rw [hm] at h
      simp only [Res.final, Option.some.injEq] at h
      exact ⟨n, by rw [← h]; exact hn⟩
    | some m =>
      rw [hm] at h
      simp only at h
      cases hg : mapGet m domain with
      | none =>
        rw [hg] at h
        simp only [Res.final, Option.some.injEq] at h
        exact ⟨n, by rw [← h]; exact hn⟩
      | some info =>
        rw [hg] at h
        simp only [Res.final, Option.some.injEq] at h
        exact ⟨n, by rw [← h]; exact hn⟩
  · obtain ⟨n, hn⟩ := h2.sent
    rw [h1] at h
    simp only [Res.final, Option.some.injEq] at h
    exact ⟨n, by rw [← h]; exact hn⟩

/-- C11: with a session present. When the domain is cached, GetDomainInfo is
the DNS-management step on the cached ID and sends nothing but DNS-management
requests: ListDomains is not run. When the domain is not cached, ListDomains
is run once, from the state GetDomainInfo was called in, and it returns; its
error is returned as it is; without an error and with the domain still absent
from the cache the result is the error "Domain not exists" in the state
ListDomains ended in, so that only listing requests were sent; without an error
and with the domain cached by the listing, GetDomainInfo is the DNS-management
step on the ID just cached, started where ListDomains ended, and sends nothing
but DNS-management requests from there on. A DNS-management request is never a
listing request. -/
theorem C11_get_domain_info_lists_once (w : Env) (domain : String) (s : State) (j : Jar)
    (hjar : s.jar = some j) :
    (∀ v, cacheGet s domain = some v →
      GetDomainInfo w domain s = describeDomain w domain v.DomainID s ∧
      ∀ s2, (GetDomainInfo w domain s).final = some s2 →
        ∃ n, s2.sent = s.sent ++ List.replicate n (manageDNSRequest s.jar domain v.DomainID)) ∧
    (cacheGet s domain = none →
      ∃ domains err s1, ListDomains w s = Res.ret domains err s1 ∧
        (∃ k, s1.sent = s.sent ++ List.replicate k (listDomainsRequest s.jar)) ∧
        (∀ e, err = some e → GetDomainInfo w domain s = Res.ret none (some e) s1) ∧
        (err = none → cacheGet s1 domain = none →
          GetDomainInfo w domain s = Res.ret none (some "Domain not exists") s1) ∧
        (err = none → ∀ v, cacheGet s1 domain = some v →
          GetDomainInfo w domain s = describeDomain w domain v.DomainID s1 ∧
          ∀ s2, (GetDomainInfo w domain s).final = some s2 →
            ∃ n, s2.sent
              = s1.sent ++ List.replicate n (manageDNSRequest s1.jar domain v.DomainID))) ∧
    (∀ (j2 : Option Jar) (domainID : String),
      manageDNSRequest j2 domain domainID ≠ listDomainsRequest j2) := by
  refine ⟨fun v hc => ?_, fun hc => ?_, fun j2 domainID h => ?_⟩
  · have h : GetDomainInfo w domain s = describeDomain w domain v.DomainID s := by
      unfold GetDomainInfo
      rw [hjar]
      simp only [hc]
    refine ⟨h, fun s2 h2 => ?_⟩
    rw [h] at h2
    exact describeDomain_sent w domain v.DomainID s s2 h2
  · obtain ⟨domains, err, s1, hrun, _, _, _, _, hsent⟩ := ListDomains_spec w s j hjar
    refine ⟨domains, err, s1, hrun, hsent, fun e he => ?_, fun he hc1 => ?_, fun he v hc1 => ?_⟩
    · unfold GetDomainInfo
      rw [hjar]
      simp only [hc, hrun, he]
    · unfold GetDomainInfo
      rw [hjar]
      simp only [hc, hrun, he, hc1]
    · have h : GetDomainInfo w domain s = describeDomain w domain v.DomainID s1 := by
        unfold GetDomainInfo
        rw [hjar]
        simp only [hc, hrun, he, hc1]
      refine ⟨h, fun s2 h2 => ?_⟩
      rw [h] at h2
      exact describeDomain_sent w domain v.DomainID s1 s2 h2
  · have hq := congrArg Request.query h
    simp [manageDNSRequest, listDomainsRequest] at hq

set_option maxRecDepth 100000 in
theorem C11_get_domain_info_lists_once_witness :
    stateIn.jar = some jar0 ∧ cacheGet stateIn "example.tk" = none ∧
    GetDomainInfo envList "example.tk" stateIn
      = describeDomain envList "example.tk" "1234567" stateListedDomains := by
  refine ⟨rfl, by decide, ?_⟩
  obtain ⟨domains, err, s1, hrun, _, _, _, hgo⟩ :=
    (C11_get_domain_info_lists_once envList "example.tk" stateIn jar0 rfl).2.1 (by decide)
  have h : ListDomains envList stateIn
      = Res.ret [("example.tk", "2024-05-01")] none stateListedDomains := by decide
  rw [h] at hrun
  simp only [Res.ret.injEq] at hrun
  obtain ⟨_, herr, hs⟩ := hrun
  subst hs
  exact (hgo herr.symm infoListed (by decide)).1

/-! ## GetDomainInfo: the record rows -/

theorem parseRecord_fst (m : List String) (err : Option String) :
    (parseRecord m err).1 = (parseRecord m none).1 := by
  unfold parseRecord
  split <;> rfl

theorem parseRecords_length (rows : List (List String)) :
    ∀ err, (parseRecords rows err).1.length = rows.length := by
  induction rows with
  | nil => intro err; rfl
  | cons m rest ih =>
    intro err
    simp only [parseRecords, List.length_cons, ih]

/-- The entries that are not nil are the records of the rows that parse. -/
theorem parseRecords_entries (rows : List (List String)) :
    ∀ err, (parseRecords rows err).1.filterMap id = parsedRows rows := by
  induction rows with
  | nil => intro err; rfl
  | cons m rest ih =>
    intro err
    have h := ih (parseRecord m err).2
    unfold parsedRows at h ⊢
    simp only [parseRecords, List.filterMap_cons, id_eq, h, parseRecord_fst m err]

set_option maxRecDepth 100000 in
/-- C12 at a failing input. The DNS-management page `recordsPage` has two
rows; the ttl of the first is a digit string beyond the range of `int`, the
second is the record `recA`. GetDomainInfo, called with the record `recBye`
cached, returns and caches two entries: a nil pointer at the place of the first
row and `recA`; the error of the first row is overwritten by the second and
nil is returned. The rows that parse give the one record `recA`. In general the
slice has one entry for every matched row, its entries that are not nil are
the records of the rows that parse, in page order, and it replaces the cached
sequence. -/
theorem C12_unparseable_row_leaves_nil_entry :
    GetDomainInfo envRecords "example.tk" (stateCached [some recBye])
      = Res.ret (some { infoListed with Records := [none, some recA] }) none
          (stateAfterOne (stateCached [none, some recA])
            (manageDNSRequest (some jar0) "example.tk" "1234567")) ∧
    parsedRows (envRecords.reRecordRow recordsPage) = [recA] ∧
    (∀ rows err, (parseRecords rows err).1.length = rows.length ∧
      (parseRecords rows err).1.filterMap id = parsedRows rows) ∧
    (∀ (w : Env) (domain : String) (s s1 : State) (info : DomainInfo) (all : String),
      s.jar ≠ none → cacheGet s domain = some info →
      fetch w "GetDomainInfo" "" (manageDNSRequest s.jar domain info.DomainID) retryTimes 0 s
        = Fetched.body all s1 →
      ∃ e s2, GetDomainInfo w domain s
          = Res.ret (some { info with Records := (parseRecords (w.reRecordRow all) none).1 })
              e s2 ∧
        cacheGet s2 domain
          = some { info with Records := (parseRecords (w.reRecordRow all) none).1 }) := by
  refine ⟨by decide, by decide, fun rows err =>
    ⟨parseRecords_length rows err, parseRecords_entries rows err⟩, ?_⟩
  intro w domain s s1 info all hjar hc hfetch
  obtain ⟨j, hj⟩ := Option.ne_none_iff_exists'.mp hjar
  have hg : GetDomainInfo w domain s = describeDomain w domain info.DomainID s := by
    unfold GetDomainInfo
    rw [hj]
    simp only [hc]
  rcases describeDomain_spec w domain info.DomainID s info hc with
    ⟨all2, s2, h1, h2⟩ | ⟨e, s2, h1, _, _⟩
  · rw [hfetch] at h1
    simp only [Fetched.body.injEq] at h1
    obtain ⟨ha, hs⟩ := h1
    subst ha hs
    refine ⟨_, _, hg.trans h2, ?_⟩
    simp only [cacheGet]
    exact mapGet_mapSet_same _ _ _
  · rw [hfetch] at h1
    simp at h1

/-! ## DeleteRecordByIndex -/

/-- C15: with a session present. When the domain is cached and
`0 <= recordIndex < len(info.Records)`, DeleteRecordByIndex is
`DeleteRecord(domain, info.Records[recordIndex])`: it returns what DeleteRecord
returns, in the state DeleteRecord ends in. In each other case (negative
index; domain not cached; index not below the length) it returns an error in
the state it was called in: no HTTP attempt is made, no request is sent, in
particular ListDomains is not run, and the cache is unchanged. -/
theorem C15_delete_by_index (w : Env) (domain : String) (recordIndex : Int) (s : State)
    (hjar : s.jar ≠ none) :
    (∀ info, cacheGet s domain = some info → 0 ≤ recordIndex →
      recordIndex < (info.Records.length : Int) →
      ∃ record, info.Records.get? recordIndex.toNat = some record ∧
        DeleteRecordByIndex w domain recordIndex s = DeleteRecord w domain record s) ∧
    (recordIndex < 0 →
      DeleteRecordByIndex w domain recordIndex s
        = Res.ret () (some "recordIndex must greater or equal to 0") s) ∧
    (0 ≤ recordIndex → cacheGet s domain = none →
      DeleteRecordByIndex w domain recordIndex s = Res.ret () (some "domain not exsits") s) ∧
    (∀ info, 0 ≤ recordIndex → cacheGet s domain = some info →
      (info.Records.length : Int) ≤ recordIndex →
      DeleteRecordByIndex w domain recordIndex s
        = Res.ret () (some "recordIndex out of bounds") s) := by
  obtain ⟨j, hj⟩ := Option.ne_none_iff_exists'.mp hjar
  refine ⟨fun info hc h0 hlt => ?_, fun hneg => ?_, fun h0 hc => ?_, fun info h0 hc hge => ?_⟩
  · have hn : recordIndex.toNat < info.Records.length := by omega
    refine ⟨info.Records.get ⟨recordIndex.toNat, hn⟩, List.get?_eq_get hn, ?_⟩
    unfold DeleteRecordByIndex
    rw [hj]
    simp only [not_lt.mpr h0, if_false, hc, List.get?_eq_get hn]
  · unfold DeleteRecordByIndex
    rw [hj]
    simp only [hneg, if_true]
  · unfold DeleteRecordByIndex
    rw [hj]
    simp only [not_lt.mpr h0, if_false, hc]
  · have hn : info.Records.length ≤ recordIndex.toNat := by omega
    unfold DeleteRecordByIndex
    rw [hj]
    simp only [not_lt.mpr h0, if_false, hc, List.get?_eq_none.mpr hn]

set_option maxRecDepth 100000 in
theorem C15_delete_by_index_witness :
    (stateCached [some recA]).jar ≠ none ∧
    DeleteRecordByIndex (envDNS dnsBothPage) "example.tk" 0 (stateCached [some recA])
      = DeleteRecord (envDNS dnsBothPage) "example.tk" (some recA) (stateCached [some recA]) ∧
    DeleteRecordByIndex (envDNS dnsBothPage) "example.tk" 1 (stateCached [some recA])
      = Res.ret () (some "recordIndex out of bounds") (stateCached [some recA]) := by
  have h := C15_delete_by_index (envDNS dnsBothPage) "example.tk" 0 (stateCached [some recA])
    (by decide)
  refine ⟨by decide, ?_, by decide⟩
  obtain ⟨record, h1, h2⟩ := h.1 infoWithA (by decide) (by decide) (by decide)
  have h3 : record = some recA := by
    have h4 : infoWithA.Records.get? (0 : Int).toNat = some (some recA) := by decide
    rw [h4] at h1
    exact (Option.some.inj h1).symm
  rw [h2, h3]

/-! ## CheckFreeDomainPurchasable -/

theorem perform_withGlobals (w : Env) (op step : String) (req : Request) (s : State)
    (j : Option Jar) (token : String) (cache : Option (List (String × DomainInfo))) :
    perform w op step req (withGlobals j token cache s)
      = ((perform w op step req s).1, withGlobals j token cache (perform w op step req s).2) := by
  simp only [perform, withGlobals]
  cases w.attempt s.attempts with
  | newRequestErr e => rfl
  | doErr e => rfl
  | resp code rd =>
    by_cases hc : code = 200
    · cases rd with
      | error e => simp [hc]
      | ok b => simp [hc]
    · simp [hc]

theorem fetch_withGlobals (w : Env) (op step : String) (req : Request)
    (j : Option Jar) (token : String) (cache : Option (List (String × DomainInfo))) :
    ∀ (fuel retries : Nat) (s : State),
      fetch w op step req fuel retries (withGlobals j token cache s)
        = (fetch w op step req fuel retries s).mapState (withGlobals j token cache) := by
  intro fuel
  induction fuel with
  | zero => intro retries s; rfl
  | succ f ih =>
    intro retries s
    unfold fetch
    rw [perform_withGlobals]
    cases hp : perform w op step req s with
    | mk r s1 =>
      cases r with
      | ok all => rfl
      | error e =>
        simp only []
        by_cases hlt : retries + 1 < retryTimes
        · simp only [hlt, if_true]
          exact ih (retries + 1) s1
        · simp only [hlt, if_false]
          rfl

theorem collectAvailable_entries (w : Env) (entries : List DomainStatus) :
    ∀ acc, collectAvailable w (entries.map some) acc
      = some (acc ++ (entries.filter (isAvailable w)).map (fun d => d.Domain ++ d.TLD)) := by
  induction entries with
  | nil => intro acc; simp [collectAvailable]
  | cons d rest ih =>
    intro acc
    simp only [List.map_cons, collectAvailable]
    by_cases h : "AVAILABLE" = w.toUpper d.Status ∧ "FREE" = w.toUpper d.Typ
    · have hn : ¬ ("AVAILABLE" ≠ w.toUpper d.Status ∨ "FREE" ≠ w.toUpper d.Typ) := by
        intro h2
        rcases h2 with h2 | h2
        · exact h2 h.1
        · exact h2 h.2
      have ha : isAvailable w d = true := by simp [isAvailable, h]
      rw [if_neg hn, ih, List.filter_cons_of_pos ha]
      simp
    · have hn : "AVAILABLE" ≠ w.toUpper d.Status ∨ "FREE" ≠ w.toUpper d.Typ := by
        by_cases h1 : "AVAILABLE" = w.toUpper d.Status
        · exact Or.inr (fun h2 => h ⟨h1, h2⟩)
        · exact Or.inl h1
      have ha : ¬ (isAvailable w d = true) := by simp [isAvailable, h]
      rw [if_pos hn, ih, List.filter_cons_of_neg ha]

theorem CheckFreeDomainPurchasable_withGlobals (w : Env) (domainPrefix : String) (s : State)
    (j : Option Jar) (token : String) (cache : Option (List (String × DomainInfo))) :
    CheckFreeDomainPurchasable w domainPrefix (withGlobals j token cache s)
      = (CheckFreeDomainPurchasable w domainPrefix s).mapState (withGlobals j token cache) := by
  unfold CheckFreeDomainPurchasable
  rw [fetch_withGlobals]
  cases fetch w "CheckFreeDomainPurchasable" "" (checkAvailableRequest domainPrefix)
      retryTimes 0 s with
  | exhausted => rfl
  | failed e s1 => rfl
  | body all s1 =>
    simp only [Fetched.mapState]
    cases w.unmarshal all with
    | error e => rfl
    | ok domainList =>
      try simp only []
      by_cases hs : "OK" ≠ w.toUpper domainList.Status
      · rw [if_pos hs, if_pos hs]
        rfl
      · rw [if_neg hs, if_neg hs]
        cases collectAvailable w domainList.FreeDomains [] with
        | none => rfl
        | some l => rfl

/-- C16, amended: for the payload `all` that CheckFreeDomainPurchasable
receives and `json.Unmarshal` decodes to `domainList`. When the top-level
status is not "OK", letter case aside, the call fails with the status error.
When it is, and no entry of the list is null, the call returns, in payload
order, domain+tld of the entries whose status is "AVAILABLE" and whose type is
"FREE", both letter case aside. The call does not depend on the session: run
with any other cookie jar, token and cache it ends in the same way, with those
globals untouched, and its request carries no jar. -/
theorem C16_check_free_domain (w : Env) (domainPrefix : String) (s s1 : State) (all : String)
    (domainList : DomainListResult)
    (hfetch : fetch w "CheckFreeDomainPurchasable" "" (checkAvailableRequest domainPrefix)
      retryTimes 0 s = Fetched.body all s1)
    (hjson : w.unmarshal all = Except.ok domainList) :
    ("OK" ≠ w.toUpper domainList.Status →
      CheckFreeDomainPurchasable w domainPrefix s
        = Res.ret [] (some ("CheckFreeDomainPurchasable status err: " ++ domainList.Status)) s1) ∧
    ("OK" = w.toUpper domainList.Status →
      ∀ entries : List DomainStatus, domainList.FreeDomains = entries.map some →
      CheckFreeDomainPurchasable w domainPrefix s
        = Res.ret ((entries.filter (isAvailable w)).map (fun d => d.Domain ++ d.TLD)) none s1) ∧
    (∀ j token cache,
      CheckFreeDomainPurchasable w domainPrefix (withGlobals j token cache s)
        = (CheckFreeDomainPurchasable w domainPrefix s).mapState (withGlobals j token cache)) ∧
    (checkAvailableRequest domainPrefix).jar = none := by
  refine ⟨fun hs => ?_, fun hs entries he => ?_,
    fun j token cache => CheckFreeDomainPurchasable_withGlobals w domainPrefix s j token cache,
    rfl⟩
  · unfold CheckFreeDomainPurchasable
    simp only [hfetch, hjson]
    rw [if_pos hs]
  · unfold CheckFreeDomainPurchasable
    have hn : ¬ ("OK" ≠ w.toUpper domainList.Status) := fun h => h hs
    simp only [hfetch, hjson]
    rw [if_neg hn, he, collectAvailable_entries]
    simp only [List.nil_append]

set_option maxRecDepth 100000 in
/-- C16, counterexample: the payload `jsonLower` has status "OK" and one
entry, foo.tk, whose status is "available" and whose type is "free". The
entry's status is not the string "AVAILABLE", and the call returns foo.tk. -/
theorem C16_counterexample :
    CheckFreeDomainPurchasable (envAvail jsonLower) "foo" stateFresh
      = Res.ret ["foo.tk"] none stateAsked ∧
    entryLower.Status ≠ "AVAILABLE" ∧ entryLower.Typ ≠ "FREE" ∧
    exactlyAvailable [entryLower] = [] := by
  decide

set_option maxRecDepth 100000 in
theorem C16_check_free_domain_witness :
    CheckFreeDomainPurchasable (envAvail jsonCart) "foo" stateFresh
      = Res.ret ["foo.tk"] none stateAsked ∧
    CheckFreeDomainPurchasable (envAvail jsonSingle) "foo" stateFresh
      = Res.ret ["foo.tk"] none stateAsked ∧
    CheckFreeDomainPurchasable (envAvail jsonSingle) "foo"
        (withGlobals (some jar0) "7f3a" (some [("example.tk", infoListed)]) stateFresh)
      = Res.ret ["foo.tk"] none
          (withGlobals (some jar0) "7f3a" (some [("example.tk", infoListed)]) stateAsked) := by
  have h := (C16_check_free_domain (envAvail jsonCart) "foo" stateFresh stateAsked jsonCart
    { Status := "OK", FreeDomains := [some entryFooMl, some entryFooTk] }
    (by decide) (by rfl)).2.1 (by decide) [entryFooMl, entryFooTk] rfl
  have hf : ([entryFooMl, entryFooTk].filter (isAvailable (envAvail jsonCart))).map
      (fun d => d.Domain ++ d.TLD) = ["foo.tk"] := by decide
  rw [hf] at h
  exact ⟨h, by decide, by decide⟩

/-! ## Login: the shared retry counter -/

theorem iterationFails_cost (w : Env) (n k : Nat) (e : String)
    (h : iterationFails w n = some (k, e)) : 1 ≤ k ∧ k ≤ 2 := by
  unfold iterationFails at h
  split at h
  · simp at h
  · split at h
    · simp only [Option.some.injEq, Prod.mk.injEq] at h
      omega
    · split at h
      · split at h
        · simp only [Option.some.injEq, Prod.mk.injEq] at h
          omega
        · simp at h
      · simp at h

theorem failedIterations_bound (w : Env) :
    ∀ (m n n1 : Nat), failedIterations w m n = some n1 → n + m ≤ n1 ∧ n1 ≤ n + 2 * m := by
  intro m
  induction m with
  | zero =>
    intro n n1 h
    simp only [failedIterations, Option.some.injEq] at h
    omega
  | succ m ih =>
    intro n n1 h
    unfold failedIterations at h
    cases hf : iterationFails w n with
    | none => rw [hf] at h; simp at h
    | some p =>
      obtain ⟨k, e⟩ := p
      rw [hf] at h
      simp only at h
      have hk := iterationFails_cost w n k e hf
      have := ih (n + k) n1 h
      omega

/-- An iteration that ends in a transport failure starts the next iteration
while the counter is below `retryTimes`, and ends Login with the error of the
failed attempt otherwise. -/
theorem loginLoop_failed_iteration (w : Env) (user pwd : String) (fuel retries : Nat) (s : State)
    (k : Nat) (e : String) (h : iterationFails w s.attempts = some (k, e)) :
    ∃ s1, s1.attempts = s.attempts + k ∧
      loginLoop w user pwd (fuel + 1) retries s =
        if retries + 1 < retryTimes then loginLoop w user pwd fuel (retries + 1) s1
        else Res.ret () (some e) { s1 with jar := none } := by
  unfold iterationFails at h
  cases hj : w.newJarErr s.attempts with
  | some e2 => rw [hj] at h; simp at h
  | none =>
    rw [hj] at h
    simp only at h
    cases hb : attemptBody (w.attempt s.attempts) with
    | none =>
      rw [hb] at h
      simp only [Option.some.injEq, Prod.mk.injEq] at h
      obtain ⟨hk, he⟩ := h
      obtain ⟨s1, hp, _, ha, _⟩ := perform_fail w "Login" " Login"
        (loginPageRequest { id := s.attempts }) { s with jar := some { id := s.attempts } } hb
      have hp1 : perform w "Login" " Login" (loginPageRequest { id := s.attempts })
          { s with jar := some { id := s.attempts } } = (Except.error e, s1) := by
        rw [← he]; exact hp
      refine ⟨s1, by rw [ha, ← hk], ?_⟩
      rw [loginLoop]
      simp only [hj, hp1]
    | some page =>
      rw [hb] at h
      simp only at h
      have hp := perform_body w "Login" " Login"
        (loginPageRequest { id := s.attempts }) { s with jar := some { id := s.attempts } } page hb
      generalize htoks : w.reToken page = toks at h
      rcases toks with _ | ⟨x, _ | ⟨tok, _ | ⟨c, rest⟩⟩⟩
      · simp at h
      · simp at h
      · simp only at h
        cases hb2 : attemptBody (w.attempt (s.attempts + 1)) with
        | some reply => rw [hb2] at h; simp at h
        | none =>
          rw [hb2] at h
          simp only [Option.some.injEq, Prod.mk.injEq] at h
          obtain ⟨hk, he⟩ := h
          obtain ⟨s3, hp2, _, ha, _⟩ := perform_fail w "Login" " DoLogin"
            (doLoginRequest { id := s.attempts } tok user pwd)
            { ({ ({ s with jar := some { id := s.attempts } } : State) with
                  attempts := s.attempts + 1,
                  sent := s.sent ++ [loginPageRequest { id := s.attempts }] } : State) with
              token := tok } hb2
          have hp3 : perform w "Login" " DoLogin"
              (doLoginRequest { id := s.attempts } tok user pwd)
              { ({ ({ s with jar := some { id := s.attempts } } : State) with
                    attempts := s.attempts + 1,
                    sent := s.sent ++ [loginPageRequest { id := s.attempts }] } : State) with
                token := tok } = (Except.error e, s3) := by
            rw [← he]; exact hp2
          refine ⟨s3, by rw [ha, ← hk], ?_⟩
          rw [loginLoop]
          simp only [hj, hp, htoks, hp3]
      · simp at h

/-- An iteration that does not end in a transport failure ends Login. -/
theorem loginLoop_iteration_ends (w : Env) (user pwd : String) (fuel retries : Nat) (s : State)
    (h : iterationFails w s.attempts = none) :
    ∃ s2, loginLoop w user pwd (fuel + 1) retries s
        = Res.ret () (iterationResult w s.attempts) s2 ∧
      s2.attempts ≤ s.attempts + 2 := by
  unfold iterationFails at h
  unfold iterationResult
  rw [loginLoop]
  cases hj : w.newJarErr s.attempts with
  | some e2 => exact ⟨_, rfl, by simp⟩
  | none =>
    rw [hj] at h
    simp only at h
    cases hb : attemptBody (w.attempt s.attempts) with
    | none => rw [hb] at h; simp at h
    | some page =>
      rw [hb] at h
      simp only at h
      have hp := perform_body w "Login" " Login"
        (loginPageRequest { id := s.attempts }) { s with jar := some { id := s.attempts } } page hb
      simp only [hp]
      generalize htoks : w.reToken page = toks at h ⊢
      rcases toks with _ | ⟨x, _ | ⟨tok, _ | ⟨c, rest⟩⟩⟩
      · exact ⟨_, rfl, by simp⟩
      · exact ⟨_, rfl, by simp⟩
      · simp only at h
        cases hb2 : attemptBody (w.attempt (s.attempts + 1)) with
        | none => rw [hb2] at h; simp at h
        | some reply =>
          have hp2 := perform_body w "Login" " DoLogin"
            (doLoginRequest { id := s.attempts } tok user pwd)
            { ({ ({ s with jar := some { id := s.attempts } } : State) with
                  attempts := s.attempts + 1,
                  sent := s.sent ++ [loginPageRequest { id := s.attempts }] } : State) with
              token := tok } reply hb2
          simp only [hp2]
          cases hok : w.reOK reply with
          | true => exact ⟨_, rfl, by simp⟩
          | false => exact ⟨_, rfl, by simp⟩
      · exact ⟨_, rfl, by simp⟩

/-- After `m` iterations that end in a transport failure, with the counter
still below `retryTimes`, the loop is at its next iteration. -/
theorem loginLoop_failed_iterations (w : Env) (user pwd : String) :
    ∀ (m fuel retries : Nat) (s : State) (n1 : Nat),
      failedIterations w m s.attempts = some n1 → retries + m < retryTimes →
      ∃ s1, s1.attempts = n1 ∧
        loginLoop w user pwd (fuel + m) retries s = loginLoop w user pwd fuel (retries + m) s1 := by
  intro m
  induction m with
  | zero =>
    intro fuel retries s n1 h _
    simp only [failedIterations, Option.some.injEq] at h
    exact ⟨s, h, rfl⟩
  | succ m ih =>
    intro fuel retries s n1 h hlt
    unfold failedIterations at h
    cases hf : iterationFails w s.attempts with
    | none => rw [hf] at h; simp at h
    | some p =>
      obtain ⟨k, e⟩ := p
      rw [hf] at h
      simp only at h
      obtain ⟨s1, ha, hstep⟩ := loginLoop_failed_iteration w user pwd (fuel + m) retries s k e hf
      rw [← ha] at h
      obtain ⟨s2, ha2, hrest⟩ := ih fuel (retries + 1) s1 n1 h (by omega)
      refine ⟨s2, ha2, ?_⟩
      have e1 : fuel + (m + 1) = fuel + m + 1 := by omega
      have e2 : retries + (m + 1) = retries + 1 + m := by omega
      rw [e1, e2, hstep, if_pos (by omega), hrest]

/-- The iterations from attempt `n` on: `M` of them and one more end in a
transport failure, or at most `M` do and the next one does not. -/
theorem failedIterations_cases (w : Env) :
    ∀ (M n : Nat),
      (∃ n1 k e, failedIterations w M n = some n1 ∧ iterationFails w n1 = some (k, e)) ∨
      (∃ m n1, m ≤ M ∧ failedIterations w m n = some n1 ∧ iterationFails w n1 = none) := by
  intro M
  induction M with
  | zero =>
    intro n
    cases hf : iterationFails w n with
    | none => exact Or.inr ⟨0, n, le_refl _, rfl, hf⟩
    | some p => exact Or.inl ⟨n, p.1, p.2, rfl, hf⟩
  | succ M ih =>
    intro n
    cases hf : iterationFails w n with
    | none => exact Or.inr ⟨0, n, by omega, rfl, hf⟩
    | some p =>
      obtain ⟨k, e⟩ := p
      rcases ih (n + k) with ⟨n1, k2, e2, h1, h2⟩ | ⟨m, n1, hm, h1, h2⟩
      · refine Or.inl ⟨n1, k2, e2, ?_, h2⟩
        simp only [failedIterations, hf, h1]
      · refine Or.inr ⟨m + 1, n1, by omega, ?_, h2⟩
        simp only [failedIterations, hf, h1]

/-- C17, amended: the two HTTP steps of Login draw on one counter. A loop
iteration makes a cookie jar, attempts the login-page GET and, when that
delivered a page with a token, the credentials POST; a transport failure of
either step ends the iteration, and the next iteration starts again from the
cookie jar and the GET. When four iterations in a row end in a transport
failure and the fifth does too, Login returns the error of that fifth failure
with the cookie jar nil, whichever step failed in each iteration. When fewer
than five iterations fail and the next does not, Login ends in that iteration
with its result, which is no transport error. One of the two is the case, and
Login makes at most 10 HTTP attempts. -/
theorem C17_login_shared_budget (w : Env) (user pwd : String) (s : State) :
    (∀ n4 k e, failedIterations w 4 s.attempts = some n4 → iterationFails w n4 = some (k, e) →
      ∃ s2, Login w user pwd s = Res.ret () (some e) s2 ∧ s2.jar = none ∧
        s2.attempts = n4 + k ∧ s2.attempts ≤ s.attempts + 10) ∧
    (∀ m n1, m < retryTimes → failedIterations w m s.attempts = some n1 →
      iterationFails w n1 = none →
      ∃ s2, Login w user pwd s = Res.ret () (iterationResult w n1) s2 ∧
        s2.attempts ≤ n1 + 2 ∧ s2.attempts ≤ s.attempts + 10) ∧
    ((∃ n4 k e, failedIterations w 4 s.attempts = some n4 ∧ iterationFails w n4 = some (k, e)) ∨
      (∃ m n1, m < retryTimes ∧ failedIterations w m s.attempts = some n1 ∧
        iterationFails w n1 = none)) := by
  refine ⟨fun n4 k e h4 h5 => ?_, fun m n1 hm h1 h2 => ?_, ?_⟩
  · obtain ⟨s1, ha, hrun⟩ := loginLoop_failed_iterations w user pwd 4 1 0 s n4 h4 (by decide)
    rw [← ha] at h5
    obtain ⟨s2, ha2, hstep⟩ := loginLoop_failed_iteration w user pwd 0 (0 + 4) s1 k e h5
    have hb := failedIterations_bound w 4 s.attempts n4 h4
    have hk := iterationFails_cost w s1.attempts k e h5
    refine ⟨{ s2 with jar := none }, ?_, rfl, ?_, ?_⟩
    · unfold Login
      have e1 : retryTimes = 1 + 4 := rfl
      rw [e1, hrun, hstep, if_neg (by decide)]
    · simp only [ha2, ha]
    · simp only [ha2, ha]
      omega
  · have hm5 : m < 5 := hm
    obtain ⟨s1, ha, hrun⟩ := loginLoop_failed_iterations w user pwd m (4 - m + 1) 0 s n1 h1
      (by simpa using hm)
    rw [← ha] at h2
    obtain ⟨s2, hend, ha2⟩ := loginLoop_iteration_ends w user pwd (4 - m) (0 + m) s1 h2
    have hb := failedIterations_bound w m s.attempts n1 h1
    refine ⟨s2, ?_, by omega, by omega⟩
    unfold Login
    have e1 : retryTimes = 4 - m + 1 + m := by
      show 5 = 4 - m + 1 + m
      omega
    rw [e1, hrun, hend, ha]
  · rcases failedIterations_cases w 4 s.attempts with h | ⟨m, n1, hm, h1, h2⟩
    · exact Or.inl h
    · exact Or.inr ⟨m, n1, Nat.lt_succ_of_le hm, h1, h2⟩

set_option maxRecDepth 100000 in
/-- C17, counterexample: the login-page GET fails four times and is answered
at its fifth attempt; the credentials POST that follows fails once in
`client.Do`. Login does not retry it: it returns that error after six HTTP
attempts, five GETs and one POST, with the cookie jar nil. -/
theorem C17_counterexample :
    (∀ n, n < 4 → attemptBody (envLoginFifth.attempt n) = none) ∧
    attemptBody (envLoginFifth.attempt 4) = some loginPage ∧
    envLoginFifth.reToken loginPage = [tokenMatch, "7f3a"] ∧
    attemptBody (envLoginFifth.attempt 5) = none ∧
    Login envLoginFifth "user@example.com" "secret" stateFresh
      = Res.ret () (some "Login Do DoLogin err: dial tcp: i/o timeout") stateLoginFifth ∧
    failedIterations envLoginFifth 4 0 = some 4 ∧
    iterationFails envLoginFifth 4 = some (2, "Login Do DoLogin err: dial tcp: i/o timeout") := by
  decide

end Freenom
